import Mathlib

/-!
Shallow embedding of the DLA aggregate generator from src/src/aggregate.c
(repository SJR276/droplet), together with the dynamic-array behaviour of
src/src/vector.c where allocation matters.

Modelling conventions:
* C `int` coordinates are modelled as `Int`; the `size_t` metric fields
  (`max_x`, `max_y`, `max_z`, `max_r_sqd`, `b_offset`, `spawn_diam`,
  `att_size`) are modelled as `Nat`, with the one place where a signed
  `int` is stored into a `size_t` (the LINE and PLANE `spawn_diam`
  updates) made explicit as reduction modulo 2^64.
* `double` arithmetic on exact dyadic constants and integer-valued data
  (the threshold comparisons, truncating casts to `int`) is modelled over
  `ℚ`; the C cast `(int)` truncates toward zero (`ctrunc`).  The circle
  and sphere seed sweeps evaluate `cos`, `sin` and `M_PI`, which we model
  over `ℝ` (`ctruncR`); for the seed data actually reachable in this
  program (`att_size = 1`) the double loop arithmetic is exact, so the
  real-number idealisation agrees with the C loop.
* The PRNG stream produced by `prand()` (values in [0,1]) is modelled as
  an explicit function `rng : ℕ → ℚ` together with the index of the next
  draw; every draw-consuming function returns the advanced index.
* The unbounded `while` loop of `aggregate_2d_generate` and
  `aggregate_3d_generate` is modelled with an explicit fuel parameter;
  `none` means the fuel ran out before `n` particles stuck (the C loop
  would still be running).
* In the primary model the dynamic arrays are plain lists (memory
  allocation always succeeds).  A second, allocation-aware model
  (suffix `_A`) tracks capacities exactly as vector.c does and threads an
  allocation oracle `alloc : ℕ → Bool` giving the outcome of the k-th
  reallocation attempt; this is the model used for the resource
  exhaustion claims.
-/

set_option maxHeartbeats 4000000

/-- Lattice geometries, from enum lattice_type in aggregate.h. -/
inductive lattice_type where
  | SQUARE
  | TRIANGLE
deriving DecidableEq, Repr

/-- Attractor seed shapes, from enum attractor_type in aggregate.h. -/
inductive attractor_type where
  | POINT
  | CIRCLE
  | SPHERE
  | LINE
  | PLANE
deriving DecidableEq, Repr

export lattice_type (SQUARE TRIANGLE)
export attractor_type (POINT CIRCLE SPHERE LINE PLANE)

/-- A 2D lattice position, from struct int_pair (struct pair in aggregate.h). -/
structure int_pair where
  x : Int
  y : Int
deriving DecidableEq, Repr

/-- A 3D lattice position, from struct int_triplet (struct triplet in aggregate.h). -/
structure int_triplet where
  x : Int
  y : Int
  z : Int
deriving DecidableEq, Repr

/-- The C cast (int) of a double value: truncation toward zero, on `ℚ`. -/
def ctrunc (q : ℚ) : ℤ :=
  if 0 ≤ q then ⌊q⌋ else ⌈q⌉

/-- The C cast (int) of a double value holding a real number: truncation
toward zero, on `ℝ`.  Used only by the circle and sphere seed sweeps. -/
noncomputable def ctruncR (x : ℝ) : ℤ :=
  if 0 ≤ x then ⌊x⌋ else ⌈x⌉

/-- Conversion of a signed int value to size_t, with the wraparound mod 2^64
mandated by C for unsigned destination types.  Used by the LINE and PLANE
spawn_diam updates, which store `prev->y + agg->b_offset` (an int plus a
size_t) into the size_t field spawn_diam. -/
def to_size_t (z : ℤ) : ℕ :=
  (z % (2 : ℤ) ^ 64).toNat

/-- State of a 2D aggregate: the fields of struct aggregate (aggregate.h)
as used by the aggregate_2d functions, with the dynamic arrays as lists. -/
structure aggregate_2d where
  _aggregate : List int_pair
  _attractor : List int_pair
  _rsteps : List ℕ
  _bcolls : List ℕ
  stickiness : ℚ
  max_x : ℕ
  max_y : ℕ
  max_z : ℕ
  max_r_sqd : ℕ
  b_offset : ℕ
  spawn_diam : ℕ
  att_size : ℕ
  lt : lattice_type
  att : attractor_type
deriving DecidableEq, Repr

/-- State of a 3D aggregate: the fields of struct aggregate as used by the
aggregate_3d functions. -/
structure aggregate_3d where
  _aggregate : List int_triplet
  _attractor : List int_triplet
  _rsteps : List ℕ
  _bcolls : List ℕ
  stickiness : ℚ
  max_x : ℕ
  max_y : ℕ
  max_z : ℕ
  max_r_sqd : ℕ
  b_offset : ℕ
  spawn_diam : ℕ
  att_size : ℕ
  lt : lattice_type
  att : attractor_type
deriving DecidableEq, Repr

/-- aggregate_2d_init from aggregate.c: empty containers, zeroed extent
metrics, b_offset 6, spawn_diam = b_offset, att_size 1.  (The srand call
seeds the PRNG; in this model the PRNG stream is an explicit parameter of
the run.) -/
def aggregate_2d_init (stickiness : ℚ) (lt : lattice_type) (att : attractor_type) :
    aggregate_2d where
  _aggregate := []
  _attractor := []
  _rsteps := []
  _bcolls := []
  stickiness := stickiness
  max_x := 0
  max_y := 0
  max_z := 0
  max_r_sqd := 0 * 0 + 0 * 0  -- max_x*max_x + max_y*max_y with both zero
  b_offset := 6
  spawn_diam := 6             -- spawn_diam = b_offset
  att_size := 1
  lt := lt
  att := att

/-- aggregate_3d_init from aggregate.c (same field values as the 2D init). -/
def aggregate_3d_init (stickiness : ℚ) (lt : lattice_type) (att : attractor_type) :
    aggregate_3d where
  _aggregate := []
  _attractor := []
  _rsteps := []
  _bcolls := []
  stickiness := stickiness
  max_x := 0
  max_y := 0
  max_z := 0
  max_r_sqd := 0 * 0 + 0 * 0 + 0 * 0
  b_offset := 6
  spawn_diam := 6
  att_size := 1
  lt := lt
  att := att

/-- One step of the circle seed sweep of aggregate_2d_init_attractor /
aggregate_3d_init_attractor (CIRCLE branch):
for (theta = 0.0; theta < 2.0*M_PI + step; theta += step) pushing
((int)(att_size*cos(theta)), (int)(att_size*sin(theta))).
The fuel argument only bounds the recursion; it is chosen by
circle_seed to exceed the iteration count of the C loop. -/
noncomputable def circle_seed_aux (attSize : ℕ) (step : ℝ) : ℕ → ℝ → List int_pair
  | 0, _ => []
  | fuel + 1, theta =>
    if theta < 2 * Real.pi + step then
      ⟨ctruncR ((attSize : ℝ) * Real.cos theta), ctruncR ((attSize : ℝ) * Real.sin theta)⟩ ::
        circle_seed_aux attSize step fuel (theta + step)
    else []

/-- The list of positions pushed by the CIRCLE branch of the attractor
initialisers, in push order.  step = 1.0/att_size; the fuel 7*att_size + 2
strictly exceeds the number of loop iterations (at most
ceil((2*pi + step)*att_size) = ceil(2*pi*att_size) + 1 <= 7*att_size + 1). -/
noncomputable def circle_seed (attSize : ℕ) : List int_pair :=
  circle_seed_aux attSize (1 / (attSize : ℝ)) (7 * attSize + 2) 0

/-- aggregate_2d_init_attractor from aggregate.c, acting on the list-model
state.  The vector_reserve calls only pre-size capacity and cannot change
the stored data in the list model; they are modelled in the
allocation-aware variant.  The 2D function has branches for POINT, LINE
and CIRCLE only; for any other attractor it returns with the state
unchanged. -/
noncomputable def aggregate_2d_init_attractor (st : aggregate_2d) (_n : ℕ) : aggregate_2d :=
  match st.att with
  | POINT =>
    let origin : int_pair := ⟨0, 0⟩
    { st with _attractor := st._attractor ++ [origin],
              _aggregate := st._aggregate ++ [origin] }
  | LINE =>
    -- for (i = 0; i < att_size; ++i) push (i - (int)(0.5*att_size), 0)
    let pts := (List.range st.att_size).map
      (fun i => (⟨(i : ℤ) - (st.att_size / 2 : ℕ), 0⟩ : int_pair))
    { st with _attractor := st._attractor ++ pts,
              _aggregate := st._aggregate ++ pts }
  | CIRCLE =>
    let pts := circle_seed st.att_size
    { st with _attractor := st._attractor ++ pts,
              _aggregate := st._aggregate ++ pts }
  | _ => st

/-- aggregate_2d_spawn_bp from aggregate.c.  Draw order follows the source:
ppr is drawn first, then at most one further in-plane draw.  For attractors
without a branch (CIRCLE in 2D) the source leaves curr untouched, so the
incoming value of curr persists; only ppr is consumed. -/
def aggregate_2d_spawn_bp (st : aggregate_2d) (curr : int_pair)
    (rng : ℕ → ℚ) (i : ℕ) : int_pair × ℕ :=
  let ppr := rng i
  match st.att with
  | POINT =>
    if ppr < 0.5 then
      -- positive/negative y-line of boundary
      (⟨ctrunc ((st.spawn_diam : ℚ) * (rng (i + 1) - 0.5)),
        if ppr < 0.25 then ctrunc ((st.spawn_diam : ℚ) * 0.5)
        else -ctrunc ((st.spawn_diam : ℚ) * 0.5)⟩, i + 2)
    else
      -- positive/negative x-line of boundary
      (⟨if ppr < 0.75 then ctrunc ((st.spawn_diam : ℚ) * 0.5)
        else -ctrunc ((st.spawn_diam : ℚ) * 0.5),
        ctrunc ((st.spawn_diam : ℚ) * (rng (i + 1) - 0.5))⟩, i + 2)
  | LINE =>
    (⟨2 * ctrunc ((st.att_size : ℚ) * (rng (i + 1) - 0.5)),
      if ppr < 0.5 then (st.spawn_diam : ℤ) else -(st.spawn_diam : ℤ)⟩, i + 2)
  | _ => (curr, i + 1)

/-- aggregate_2d_update_bp from aggregate.c: one lattice step chosen by a
single draw against cumulative thresholds.  The redundant lower-bound
conjuncts of the C else-if chain (md >= 0.25 etc) are implied by the
chain structure and therefore omitted. -/
def aggregate_2d_update_bp (st : aggregate_2d) (curr : int_pair)
    (rng : ℕ → ℚ) (i : ℕ) : int_pair × ℕ :=
  let md := rng i
  match st.lt with
  | SQUARE =>
    (if md < 0.25 then ⟨curr.x + 1, curr.y⟩
     else if md < 0.5 then ⟨curr.x - 1, curr.y⟩
     else if md < 0.75 then ⟨curr.x, curr.y + 1⟩
     else ⟨curr.x, curr.y - 1⟩, i + 1)
  | TRIANGLE =>
    (if md < 1 / 6 then ⟨curr.x + 1, curr.y⟩
     else if md < 2 / 6 then ⟨curr.x - 1, curr.y⟩
     else if md < 3 / 6 then ⟨curr.x + 1, curr.y + 1⟩
     else if md < 4 / 6 then ⟨curr.x + 1, curr.y - 1⟩
     else if md < 5 / 6 then ⟨curr.x - 1, curr.y + 1⟩
     else ⟨curr.x - 1, curr.y - 1⟩, i + 1)

/-- aggregate_2d_lattice_collision from aggregate.c.  Returns the
(possibly reverted) walker position and the reported boundary flag.
The POINT/CIRCLE branch reverts and returns true; the LINE branch of the
2D source reverts the position but falls through to `return false`. -/
def aggregate_2d_lattice_collision (st : aggregate_2d) (curr prev : int_pair) :
    int_pair × Bool :=
  -- the small elastic boundary correction epsilon = 2 is inlined below
  if (st.att = POINT ∨ st.att = CIRCLE) ∧
      (|curr.x| > ctrunc ((st.spawn_diam : ℚ) * 0.5 + 2) ∨
       |curr.y| > ctrunc ((st.spawn_diam : ℚ) * 0.5 + 2)) then
    (prev, true)
  else if st.att = LINE ∧
      (|curr.x| > 2 * (st.att_size : ℤ) ∨
       |curr.y| > (st.spawn_diam : ℤ) + 2) then
    (prev, false)  -- the 2D LINE branch has no `return true`
  else (curr, false)

/-- Body of the matched branch of aggregate_2d_collision: append prev to
the aggregate, fold prev into max_x / max_y, and expand the spawning
region (POINT: via the maximal squared radius, where (int)sqrt of an
exactly-represented integer double is the integer square root; LINE: via
the signed prev.y stored into the size_t spawn_diam, hence the mod-2^64
conversion). -/
def aggregate_2d_on_hit (st : aggregate_2d) (prev : int_pair) : aggregate_2d :=
  let st1 := { st with _aggregate := st._aggregate ++ [prev] }
  let st2 := if prev.x.natAbs > st1.max_x then { st1 with max_x := prev.x.natAbs } else st1
  let expand_spawn_line : Bool := prev.y.natAbs > st2.max_y
  let st3 := if prev.y.natAbs > st2.max_y then { st2 with max_y := prev.y.natAbs } else st2
  if st3.att = POINT then
    let rsqd : ℕ := (prev.x * prev.x + prev.y * prev.y).toNat
    if rsqd > st3.max_r_sqd then
      { st3 with max_r_sqd := rsqd, spawn_diam := 2 * Nat.sqrt rsqd + st3.b_offset }
    else st3
  else if st3.att = LINE ∧ expand_spawn_line = true then
    { st3 with spawn_diam := to_size_t (prev.y + (st3.b_offset : ℤ)) }
  else st3

/-- The membership scan of aggregate_2d_collision, in insertion order over
the aggregate list; on the first coordinate match the stick updates run
and the scan stops. -/
def aggregate_2d_collision_scan (st : aggregate_2d) (curr prev : int_pair) :
    List int_pair → Bool × aggregate_2d
  | [] => (false, st)
  | aggp :: rest =>
    if curr.x = aggp.x ∧ curr.y = aggp.y then (true, aggregate_2d_on_hit st prev)
    else aggregate_2d_collision_scan st curr prev rest

/-- aggregate_2d_collision from aggregate.c: draw once; if the draw
exceeds stickiness report no stick, otherwise scan the aggregate for the
current position and stick at prev on a match. -/
def aggregate_2d_collision (st : aggregate_2d) (curr prev : int_pair)
    (rng : ℕ → ℚ) (i : ℕ) : Bool × aggregate_2d × ℕ :=
  if rng i > st.stickiness then (false, st, i + 1)
  else
    let sc := aggregate_2d_collision_scan st curr prev st._aggregate
    (sc.1, sc.2, i + 1)

/-- Result of one iteration of the while-loop body of
aggregate_2d_generate: the stick flag of the collision call, the updated
aggregate state (with the per-particle statistics appended on a stick),
and the updated walker position, step and boundary-collision counters
and draw index. -/
structure walk_result_2d where
  stuck : Bool
  st : aggregate_2d
  curr : int_pair
  steps : ℕ
  bcolls : ℕ
  i : ℕ
deriving DecidableEq, Repr

/-- One iteration of the while-loop body of aggregate_2d_generate:
spawn when no walker is live, save prev, take one lattice step, enforce
the boundary (counting a reported collision), count the step, and
attempt the stick; on a stick the steps and boundary counters are pushed
onto the statistics containers. -/
def walk_iter_2d (rng : ℕ → ℚ) (st : aggregate_2d) (curr : int_pair)
    (steps_to_stick bcolls : ℕ) (has_next_spawned : Bool) (i : ℕ) :
    walk_result_2d :=
  let sp := if has_next_spawned then (curr, i) else aggregate_2d_spawn_bp st curr rng i
  let prev := sp.1
  let up := aggregate_2d_update_bp st sp.1 rng sp.2
  let lc := aggregate_2d_lattice_collision st up.1 prev
  let bcolls1 := if lc.2 then bcolls + 1 else bcolls
  let steps1 := steps_to_stick + 1
  let col := aggregate_2d_collision st lc.1 prev rng up.2
  if col.1 then
    ⟨true,
     { col.2.1 with _rsteps := col.2.1._rsteps ++ [steps1],
                    _bcolls := col.2.1._bcolls ++ [bcolls1] },
     lc.1, steps1, bcolls1, col.2.2⟩
  else ⟨false, col.2.1, lc.1, steps1, bcolls1, col.2.2⟩

/-- The while loop of aggregate_2d_generate, with explicit fuel.  The
loop state mirrors the local variables of the C driver: curr,
steps_to_stick, bcolls, count, has_next_spawned (prev is recomputed from
curr at the top of every iteration before it is read, so it is not
carried).  On a stick the driver resets the per-particle counters and
spawns afresh.  Progress display is output-only and omitted. -/
def aggregate_2d_generate_loop (rng : ℕ → ℚ) (n : ℕ) :
    ℕ → aggregate_2d → int_pair → ℕ → ℕ → ℕ → Bool → ℕ →
    Option (aggregate_2d × ℕ)
  | 0, st, _curr, _steps_to_stick, _bcolls, count, _has_next_spawned, i =>
    if count < n then none else some (st, i)
  | fuel + 1, st, curr, steps_to_stick, bcolls, count, has_next_spawned, i =>
    if count < n then
      let it := walk_iter_2d rng st curr steps_to_stick bcolls has_next_spawned i
      if it.stuck then
        aggregate_2d_generate_loop rng n fuel it.st it.curr 0 0 (count + 1) false it.i
      else
        aggregate_2d_generate_loop rng n fuel it.st it.curr it.steps it.bcolls count true it.i
    else some (st, i)

/-- aggregate_2d_generate from aggregate.c, on the list model: seed the
attractor, then run the walk loop until n particles stuck (or the fuel
runs out: none).  curr0 models the indeterminate initial value of the
uninitialised stack variable curr, which is read before first assignment
exactly when the attractor has no spawn branch (CIRCLE in 2D).
aggregate_reserve only pre-sizes capacities and is modelled in the
allocation-aware variant. -/
noncomputable def aggregate_2d_generate (st : aggregate_2d) (n : ℕ) (curr0 : int_pair)
    (fuel : ℕ) (rng : ℕ → ℚ) (i : ℕ) : Option (aggregate_2d × ℕ) :=
  aggregate_2d_generate_loop rng n fuel (aggregate_2d_init_attractor st n) curr0 0 0 0 false i

/-- Inner (polar) sweep of the SPHERE branch of aggregate_3d_init_attractor:
for (theta = -0.5*M_PI; theta < 0.5*M_PI + step; theta += step) pushing
((int)(att_size*sin(theta)*cos(phi)), (int)(att_size*sin(theta)*sin(phi)),
(int)(att_size*cos(theta))).  Fuel bounds the recursion only. -/
noncomputable def sphere_seed_theta (attSize : ℕ) (step phi : ℝ) :
    ℕ → ℝ → List int_triplet
  | 0, _ => []
  | fuel + 1, theta =>
    if theta < 0.5 * Real.pi + step then
      ⟨ctruncR ((attSize : ℝ) * Real.sin theta * Real.cos phi),
       ctruncR ((attSize : ℝ) * Real.sin theta * Real.sin phi),
       ctruncR ((attSize : ℝ) * Real.cos theta)⟩ ::
        sphere_seed_theta attSize step phi fuel (theta + step)
    else []

/-- Outer (azimuthal) sweep of the SPHERE branch:
for (phi = 0.0; phi < 2.0*M_PI + step; phi += step). -/
noncomputable def sphere_seed_phi (attSize : ℕ) (step : ℝ) :
    ℕ → ℝ → List int_triplet
  | 0, _ => []
  | fuel + 1, phi =>
    if phi < 2 * Real.pi + step then
      sphere_seed_theta attSize step phi (5 * attSize + 2) (-(0.5 * Real.pi)) ++
        sphere_seed_phi attSize step fuel (phi + step)
    else []

/-- The list of positions pushed by the SPHERE branch, in push order.
The fuels 7*att_size + 2 (azimuthal) and 5*att_size + 2 (polar) strictly
exceed the respective C loop iteration counts. -/
noncomputable def sphere_seed (attSize : ℕ) : List int_triplet :=
  sphere_seed_phi attSize (1 / (attSize : ℝ)) (7 * attSize + 2) 0

/-- aggregate_3d_init_attractor from aggregate.c on the list-model state:
branches for POINT, LINE, PLANE, CIRCLE (the 2D circle sweep at z = 0)
and SPHERE. -/
noncomputable def aggregate_3d_init_attractor (st : aggregate_3d) (_n : ℕ) : aggregate_3d :=
  match st.att with
  | POINT =>
    let origin : int_triplet := ⟨0, 0, 0⟩
    { st with _attractor := st._attractor ++ [origin],
              _aggregate := st._aggregate ++ [origin] }
  | LINE =>
    -- for (i = 0; i < att_size; ++i) push (i - (int)(0.5*att_size), 0, 0)
    let pts := (List.range st.att_size).map
      (fun i => (⟨(i : ℤ) - (st.att_size / 2 : ℕ), 0, 0⟩ : int_triplet))
    { st with _attractor := st._attractor ++ pts,
              _aggregate := st._aggregate ++ pts }
  | PLANE =>
    -- nested loops over i and j pushing
    -- (i - (int)(0.5*att_size), j - (int)(0.5*att_size), 0)
    let pts := (List.range st.att_size).flatMap
      (fun i => (List.range st.att_size).map
        (fun j => (⟨(i : ℤ) - (st.att_size / 2 : ℕ),
                    (j : ℤ) - (st.att_size / 2 : ℕ), 0⟩ : int_triplet)))
    { st with _attractor := st._attractor ++ pts,
              _aggregate := st._aggregate ++ pts }
  | CIRCLE =>
    -- the same sweep as the 2D circle, with attp.z = 0
    let pts := (circle_seed st.att_size).map (fun p => (⟨p.x, p.y, 0⟩ : int_triplet))
    { st with _attractor := st._attractor ++ pts,
              _aggregate := st._aggregate ++ pts }
  | SPHERE =>
    let pts := sphere_seed st.att_size
    { st with _attractor := st._attractor ++ pts,
              _aggregate := st._aggregate ++ pts }

/-- aggregate_3d_spawn_bp from aggregate.c.  Draw order follows the
source; attractors without a branch (SPHERE has none here either: only
POINT, LINE and PLANE are handled) leave curr untouched and consume only
ppr. -/
def aggregate_3d_spawn_bp (st : aggregate_3d) (curr : int_triplet)
    (rng : ℕ → ℚ) (i : ℕ) : int_triplet × ℕ :=
  let ppr := rng i
  match st.att with
  | POINT =>
    if ppr < 1 / 3 then
      -- positive/negative z-plane of boundary
      (⟨ctrunc ((st.spawn_diam : ℚ) * (rng (i + 1) - 0.5)),
        ctrunc ((st.spawn_diam : ℚ) * (rng (i + 2) - 0.5)),
        if ppr < 1 / 6 then ctrunc ((st.spawn_diam : ℚ) * 0.5)
        else -ctrunc ((st.spawn_diam : ℚ) * 0.5)⟩, i + 3)
    else if ppr < 2 / 3 then
      -- positive/negative x-plane of boundary
      (⟨if ppr < 0.5 then ctrunc ((st.spawn_diam : ℚ) * 0.5)
        else -ctrunc ((st.spawn_diam : ℚ) * 0.5),
        ctrunc ((st.spawn_diam : ℚ) * (rng (i + 1) - 0.5)),
        ctrunc ((st.spawn_diam : ℚ) * (rng (i + 2) - 0.5))⟩, i + 3)
    else
      -- positive/negative y-plane of boundary
      (⟨ctrunc ((st.spawn_diam : ℚ) * (rng (i + 1) - 0.5)),
        if ppr < 5 / 6 then ctrunc ((st.spawn_diam : ℚ) * 0.5)
        else -ctrunc ((st.spawn_diam : ℚ) * 0.5),
        ctrunc ((st.spawn_diam : ℚ) * (rng (i + 2) - 0.5))⟩, i + 3)
  | LINE =>
    -- y and z take the same sign, tied to the same ppr test
    (⟨2 * ctrunc ((st.att_size : ℚ) * (rng (i + 1) - 0.5)),
      if ppr < 0.5 then (st.spawn_diam : ℤ) else -(st.spawn_diam : ℤ),
      if ppr < 0.5 then (st.spawn_diam : ℤ) else -(st.spawn_diam : ℤ)⟩, i + 2)
  | PLANE =>
    (⟨2 * ctrunc ((st.att_size : ℚ) * (rng (i + 1) - 0.5)),
      2 * ctrunc ((st.att_size : ℚ) * (rng (i + 2) - 0.5)),
      if ppr < 0.5 then (st.spawn_diam : ℤ) else -(st.spawn_diam : ℤ)⟩, i + 3)
  | _ => (curr, i + 1)

/-- aggregate_3d_update_bp from aggregate.c: one lattice step chosen by a
single draw against cumulative thresholds (sixths for SQUARE, eighths
for TRIANGLE, in the declared order). -/
def aggregate_3d_update_bp (st : aggregate_3d) (curr : int_triplet)
    (rng : ℕ → ℚ) (i : ℕ) : int_triplet × ℕ :=
  let md := rng i
  match st.lt with
  | SQUARE =>
    (if md < 1 / 6 then ⟨curr.x + 1, curr.y, curr.z⟩
     else if md < 2 / 6 then ⟨curr.x - 1, curr.y, curr.z⟩
     else if md < 3 / 6 then ⟨curr.x, curr.y + 1, curr.z⟩
     else if md < 4 / 6 then ⟨curr.x, curr.y - 1, curr.z⟩
     else if md < 5 / 6 then ⟨curr.x, curr.y, curr.z + 1⟩
     else ⟨curr.x, curr.y, curr.z - 1⟩, i + 1)
  | TRIANGLE =>
    (if md < 1 / 8 then ⟨curr.x + 1, curr.y + 1, curr.z⟩
     else if md < 2 / 8 then ⟨curr.x + 1, curr.y - 1, curr.z⟩
     else if md < 3 / 8 then ⟨curr.x - 1, curr.y - 1, curr.z⟩
     else if md < 4 / 8 then ⟨curr.x - 1, curr.y + 1, curr.z⟩
     else if md < 5 / 8 then ⟨curr.x + 1, curr.y, curr.z⟩
     else if md < 6 / 8 then ⟨curr.x - 1, curr.y, curr.z⟩
     else if md < 7 / 8 then ⟨curr.x, curr.y, curr.z + 1⟩
     else ⟨curr.x, curr.y, curr.z - 1⟩, i + 1)

/-- aggregate_3d_lattice_collision from aggregate.c: every reverting
branch of the 3D source returns true (unlike the 2D LINE branch).  Note
the cast placement (int)(spawn_diam*0.5) + epsilon in the
POINT/CIRCLE/SPHERE branch. -/
def aggregate_3d_lattice_collision (st : aggregate_3d) (curr prev : int_triplet) :
    int_triplet × Bool :=
  -- the small elastic boundary correction epsilon = 2 is inlined below
  if (st.att = POINT ∨ st.att = CIRCLE ∨ st.att = SPHERE) ∧
      (|curr.x| > ctrunc ((st.spawn_diam : ℚ) * 0.5) + 2 ∨
       |curr.y| > ctrunc ((st.spawn_diam : ℚ) * 0.5) + 2 ∨
       |curr.z| > ctrunc ((st.spawn_diam : ℚ) * 0.5) + 2) then
    (prev, true)
  else if st.att = LINE ∧
      (|curr.x| > 2 * (st.att_size : ℤ) ∨
       |curr.y| > (st.spawn_diam : ℤ) + 2 ∨
       |curr.z| > (st.spawn_diam : ℤ) + 2) then
    (prev, true)
  else if st.att = PLANE ∧
      (|curr.x| > 2 * (st.att_size : ℤ) ∨
       |curr.y| > 2 * (st.att_size : ℤ) ∨
       |curr.z| > (st.spawn_diam : ℤ) + 2) then
    (prev, true)
  else (curr, false)

/-- Body of the matched branch of aggregate_3d_collision: append prev,
fold prev into max_x / max_y / max_z, and expand the spawning region
(POINT: maximal squared radius; PLANE: signed prev.z stored into the
size_t spawn_diam, hence the mod-2^64 conversion). -/
def aggregate_3d_on_hit (st : aggregate_3d) (prev : int_triplet) : aggregate_3d :=
  let st1 := { st with _aggregate := st._aggregate ++ [prev] }
  let st2 := if prev.x.natAbs > st1.max_x then { st1 with max_x := prev.x.natAbs } else st1
  let st3 := if prev.y.natAbs > st2.max_y then { st2 with max_y := prev.y.natAbs } else st2
  let expand_spawn_plane : Bool := prev.z.natAbs > st3.max_z
  let st4 := if prev.z.natAbs > st3.max_z then { st3 with max_z := prev.z.natAbs } else st3
  if st4.att = POINT then
    let rsqd : ℕ := (prev.x * prev.x + prev.y * prev.y + prev.z * prev.z).toNat
    if rsqd > st4.max_r_sqd then
      { st4 with max_r_sqd := rsqd, spawn_diam := 2 * Nat.sqrt rsqd + st4.b_offset }
    else st4
  else if st4.att = PLANE ∧ expand_spawn_plane = true then
    { st4 with spawn_diam := to_size_t (prev.z + (st4.b_offset : ℤ)) }
  else st4

/-- The membership scan of aggregate_3d_collision in insertion order. -/
def aggregate_3d_collision_scan (st : aggregate_3d) (curr prev : int_triplet) :
    List int_triplet → Bool × aggregate_3d
  | [] => (false, st)
  | aggp :: rest =>
    if curr.x = aggp.x ∧ curr.y = aggp.y ∧ curr.z = aggp.z then
      (true, aggregate_3d_on_hit st prev)
    else aggregate_3d_collision_scan st curr prev rest

/-- aggregate_3d_collision from aggregate.c. -/
def aggregate_3d_collision (st : aggregate_3d) (curr prev : int_triplet)
    (rng : ℕ → ℚ) (i : ℕ) : Bool × aggregate_3d × ℕ :=
  if rng i > st.stickiness then (false, st, i + 1)
  else
    let sc := aggregate_3d_collision_scan st curr prev st._aggregate
    (sc.1, sc.2, i + 1)

/-- Result of one iteration of the while-loop body of
aggregate_3d_generate. -/
structure walk_result_3d where
  stuck : Bool
  st : aggregate_3d
  curr : int_triplet
  steps : ℕ
  bcolls : ℕ
  i : ℕ
deriving DecidableEq, Repr

/-- One iteration of the while-loop body of aggregate_3d_generate;
structure identical to walk_iter_2d. -/
def walk_iter_3d (rng : ℕ → ℚ) (st : aggregate_3d) (curr : int_triplet)
    (steps_to_stick bcolls : ℕ) (has_next_spawned : Bool) (i : ℕ) :
    walk_result_3d :=
  let sp := if has_next_spawned then (curr, i) else aggregate_3d_spawn_bp st curr rng i
  let prev := sp.1
  let up := aggregate_3d_update_bp st sp.1 rng sp.2
  let lc := aggregate_3d_lattice_collision st up.1 prev
  let bcolls1 := if lc.2 then bcolls + 1 else bcolls
  let steps1 := steps_to_stick + 1
  let col := aggregate_3d_collision st lc.1 prev rng up.2
  if col.1 then
    ⟨true,
     { col.2.1 with _rsteps := col.2.1._rsteps ++ [steps1],
                    _bcolls := col.2.1._bcolls ++ [bcolls1] },
     lc.1, steps1, bcolls1, col.2.2⟩
  else ⟨false, col.2.1, lc.1, steps1, bcolls1, col.2.2⟩

/-- The while loop of aggregate_3d_generate, with explicit fuel;
structure identical to the 2D driver. -/
def aggregate_3d_generate_loop (rng : ℕ → ℚ) (n : ℕ) :
    ℕ → aggregate_3d → int_triplet → ℕ → ℕ → ℕ → Bool → ℕ →
    Option (aggregate_3d × ℕ)
  | 0, st, _curr, _steps_to_stick, _bcolls, count, _has_next_spawned, i =>
    if count < n then none else some (st, i)
  | fuel + 1, st, curr, steps_to_stick, bcolls, count, has_next_spawned, i =>
    if count < n then
      let it := walk_iter_3d rng st curr steps_to_stick bcolls has_next_spawned i
      if it.stuck then
        aggregate_3d_generate_loop rng n fuel it.st it.curr 0 0 (count + 1) false it.i
      else
        aggregate_3d_generate_loop rng n fuel it.st it.curr it.steps it.bcolls count true it.i
    else some (st, i)

/-- aggregate_3d_generate from aggregate.c on the list model (see
aggregate_2d_generate for the role of curr0, fuel and rng). -/
noncomputable def aggregate_3d_generate (st : aggregate_3d) (n : ℕ) (curr0 : int_triplet)
    (fuel : ℕ) (rng : ℕ → ℚ) (i : ℕ) : Option (aggregate_3d × ℕ) :=
  aggregate_3d_generate_loop rng n fuel (aggregate_3d_init_attractor st n) curr0 0 0 0 false i

set_option maxRecDepth 100000

/-- Componentwise translation of a 2D position by a move offset. -/
def int_pair.add (p q : int_pair) : int_pair := ⟨p.x + q.x, p.y + q.y⟩

/-- Componentwise translation of a 3D position by a move offset. -/
def int_triplet.add (p q : int_triplet) : int_triplet := ⟨p.x + q.x, p.y + q.y, p.z + q.z⟩

/-- The declared SQUARE move set in 2D, in the threshold order of
aggregate_2d_update_bp (and of spec section 4.1). -/
def square_moves_2d : List int_pair := [⟨1, 0⟩, ⟨-1, 0⟩, ⟨0, 1⟩, ⟨0, -1⟩]

/-- The declared TRIANGLE move set in 2D, in threshold order. -/
def triangle_moves_2d : List int_pair :=
  [⟨1, 0⟩, ⟨-1, 0⟩, ⟨1, 1⟩, ⟨1, -1⟩, ⟨-1, 1⟩, ⟨-1, -1⟩]

/-- The declared SQUARE (cubic) move set in 3D, in threshold order. -/
def square_moves_3d : List int_triplet :=
  [⟨1, 0, 0⟩, ⟨-1, 0, 0⟩, ⟨0, 1, 0⟩, ⟨0, -1, 0⟩, ⟨0, 0, 1⟩, ⟨0, 0, -1⟩]

/-- The declared TRIANGLE move set in 3D, in threshold order. -/
def triangle_moves_3d : List int_triplet :=
  [⟨1, 1, 0⟩, ⟨1, -1, 0⟩, ⟨-1, -1, 0⟩, ⟨-1, 1, 0⟩,
   ⟨1, 0, 0⟩, ⟨-1, 0, 0⟩, ⟨0, 0, 1⟩, ⟨0, 0, -1⟩]

/-- The attractor-specific bounding region of the 2D boundary enforcer,
written from the spec (section 4.3): true when the position is inside
the region.  POINT/CIRCLE: max(|x|,|y|) bounded by spawn_diam/2 plus the
elastic margin 2; LINE: |x| bounded by 2*att_size and |y| by
spawn_diam + 2; the remaining attractors are unbounded in the 2D code. -/
def bounded_region_2d (st : aggregate_2d) (p : int_pair) : Bool :=
  match st.att with
  | POINT | CIRCLE =>
    |p.x| ≤ ctrunc ((st.spawn_diam : ℚ) * 0.5 + 2) ∧
    |p.y| ≤ ctrunc ((st.spawn_diam : ℚ) * 0.5 + 2)
  | LINE => |p.x| ≤ 2 * (st.att_size : ℤ) ∧ |p.y| ≤ (st.spawn_diam : ℤ) + 2
  | _ => true

/-- The attractor-specific bounding region of the 3D boundary enforcer,
written from the spec (section 4.3). -/
def bounded_region_3d (st : aggregate_3d) (p : int_triplet) : Bool :=
  match st.att with
  | POINT | CIRCLE | SPHERE =>
    |p.x| ≤ ctrunc ((st.spawn_diam : ℚ) * 0.5) + 2 ∧
    |p.y| ≤ ctrunc ((st.spawn_diam : ℚ) * 0.5) + 2 ∧
    |p.z| ≤ ctrunc ((st.spawn_diam : ℚ) * 0.5) + 2
  | LINE =>
    |p.x| ≤ 2 * (st.att_size : ℤ) ∧ |p.y| ≤ (st.spawn_diam : ℤ) + 2 ∧
    |p.z| ≤ (st.spawn_diam : ℤ) + 2
  | PLANE =>
    |p.x| ≤ 2 * (st.att_size : ℤ) ∧ |p.y| ≤ 2 * (st.att_size : ℤ) ∧
    |p.z| ≤ (st.spawn_diam : ℤ) + 2

-- ===================== fixtures for witnesses and counterexamples ==============

/-- A freshly initialised 2D POINT aggregate with stickiness 1 (fixture). -/
noncomputable def fix2_point : aggregate_2d := aggregate_2d_init 1 SQUARE POINT

/-- A freshly initialised 2D LINE aggregate with stickiness 1 (fixture). -/
noncomputable def fix2_line : aggregate_2d := aggregate_2d_init 1 SQUARE LINE

/-- A freshly initialised 3D POINT aggregate with stickiness 1 (fixture). -/
noncomputable def fix3_point : aggregate_3d := aggregate_3d_init 1 SQUARE POINT

/-- A freshly initialised 2D TRIANGLE POINT aggregate (fixture). -/
noncomputable def fix2_tri : aggregate_2d := aggregate_2d_init 1 TRIANGLE POINT

/-- A freshly initialised 3D TRIANGLE POINT aggregate (fixture). -/
noncomputable def fix3_tri : aggregate_3d := aggregate_3d_init 1 TRIANGLE POINT

/-- A 2D POINT aggregate whose stuck list holds the origin, stickiness 1/2
(fixture for the collision rule). -/
noncomputable def fix2_col : aggregate_2d :=
  { aggregate_2d_init (1 / 2) SQUARE POINT with _aggregate := [⟨0, 0⟩] }

/-- A 3D POINT aggregate whose stuck list holds the origin, stickiness 1/2
(fixture for the collision rule). -/
noncomputable def fix3_col : aggregate_3d :=
  { aggregate_3d_init (1 / 2) SQUARE POINT with _aggregate := [⟨0, 0, 0⟩] }

/-- PRNG stream (fixture) driving a 2D LINE run whose first stick lands at
(0, -1): spawn below the seed, then six upward steps. -/
def rng_c2_line : ℕ → ℚ := fun k =>
  if k = 0 then 3/5 else if k = 1 then 0 else if k % 2 = 0 then 3/5 else 0

/-- PRNG stream (fixture) driving a 2D POINT run: spawn at (3, -3), three
steps left, three steps up, sticking at (0, -1). -/
def rng_c2_point : ℕ → ℚ := fun k =>
  if k = 0 then 3/5 else if k % 2 = 1 then 0 else if k ≤ 6 then 3/10 else 3/5

/-- PRNG stream (fixture) driving a 3D POINT run: spawn at (0, 0, 3),
three steps down z, sticking at (0, 0, 1). -/
def rng_c2_point3 : ℕ → ℚ := fun k =>
  if k = 0 then 0 else if k ≤ 2 then 1/2 else if k % 2 = 1 then 9/10 else 0

/-- The final state and draw index of the concrete 2D POINT run driven by
rng_c2_point (the run demonstrably sticks one particle within the fuel). -/
noncomputable def c2w_pair : aggregate_2d × ℕ :=
  (aggregate_2d_generate fix2_point 1 ⟨7, 7⟩ 20 rng_c2_point 0).get
    (by with_unfolding_all decide)

/-- The final state and draw index of the concrete 3D POINT run driven by
rng_c2_point3. -/
noncomputable def c2w3_pair : aggregate_3d × ℕ :=
  (aggregate_3d_generate fix3_point 1 ⟨7, 7, 7⟩ 20 rng_c2_point3 0).get
    (by with_unfolding_all decide)


/-- A PRNG stream that agrees with rng_c2_point on draws 0..13 and differs
from draw 14 onwards. -/
def rng_c8_tail : ℕ → ℚ := fun k => if k < 14 then rng_c2_point k else 1/3

/-- A PRNG stream that agrees with rng_c2_point3 on draws 0..8 and differs
from draw 9 onwards. -/
def rng_c8_tail3 : ℕ → ℚ := fun k => if k < 9 then rng_c2_point3 k else 1/3


/-- PRNG stream of the 2D POINT stickiness-1/2 duplicate run: spawn draws at
0 and 8, in-plane draws at 1 and 9, stick-gate passes at 7 and 17, steps
x-minus at the other even indices, gate failures at the other odd indices. -/
def rng_c3_dup : ℕ → ℚ := fun k =>
  if k = 0 ∨ k = 8 then 3/5
  else if k = 1 ∨ k = 9 then 1/2
  else if k = 7 ∨ k = 17 then 0
  else if k % 2 = 0 then 3/10
  else 9/10

/-- PRNG stream of the 2D LINE stickiness-1 duplicate run: in-plane spawn
draws at 1, 15, 25, 31, spawn-side/step draws (y-plus moves) at even
indices, stick gates at the remaining odd indices. -/
def rng_c3_line : ℕ → ℚ := fun k =>
  if k = 1 ∨ k = 15 ∨ k = 25 ∨ k = 31 then 1/2
  else if k % 2 = 0 then 3/5
  else 0

/-- Invariant of a POINT-attractor stickiness-1 run (2D): every stuck
position has squared radius at most max_r_sqd, spawn_diam tracks
2*sqrt(max_r_sqd) + b_offset, and the stuck list has no duplicates. -/
def point_inv_2d (st : aggregate_2d) : Prop :=
  st.att = POINT ∧ st.stickiness = 1 ∧ 2 ≤ st.b_offset ∧
  st.spawn_diam = 2 * Nat.sqrt st.max_r_sqd + st.b_offset ∧
  (∀ p ∈ st._aggregate, (p.x * p.x + p.y * p.y).toNat ≤ st.max_r_sqd) ∧
  st._aggregate.Nodup

/-- Invariant of a POINT-attractor stickiness-1 run (3D). -/
def point_inv_3d (st : aggregate_3d) : Prop :=
  st.att = POINT ∧ st.stickiness = 1 ∧ 2 ≤ st.b_offset ∧
  st.spawn_diam = 2 * Nat.sqrt st.max_r_sqd + st.b_offset ∧
  (∀ p ∈ st._aggregate, (p.x * p.x + p.y * p.y + p.z * p.z).toNat ≤ st.max_r_sqd) ∧
  st._aggregate.Nodup

-- Allocation-aware model of the 2D pipeline (vector.c + the reserve /
-- seeding / generate paths of aggregate.c).  A vector is its element list
-- plus its capacity; an allocation oracle alloc : ℕ → Bool decides the
-- outcome of each attempted reallocation, counted by an attempt index j
-- threaded through every call.

/-- struct vector of vector.c: the stored elements with the current
capacity.  (elemsize is a compile-time constant per instantiation and
size is the length of data.) -/
structure vecA (α : Type) where
  data : List α
  capacity : ℕ
deriving DecidableEq, Repr

/-- private_vector_reallocate from vector.c: equal capacity passes without
touching the allocator, otherwise one reallocation is attempted and the
attempt counter advances; on failure the vector is unchanged. -/
def private_vector_reallocate {α : Type} (alloc : ℕ → Bool) (vec : vecA α)
    (cpty : ℕ) (j : ℕ) : ℤ × vecA α × ℕ :=
  if cpty = vec.capacity then (0, vec, j)
  else if alloc j then (1, { vec with capacity := cpty }, j + 1)
  else (-1, vec, j + 1)

/-- vector_push_back from vector.c: doubles the capacity when full; a
failed reallocation returns -1 and drops the value. -/
def vector_push_back {α : Type} (alloc : ℕ → Bool) (vec : vecA α) (value : α)
    (j : ℕ) : ℤ × vecA α × ℕ :=
  if vec.data.length = vec.capacity then
    let r := private_vector_reallocate alloc vec (vec.capacity * 2) j
    if r.1 = -1 then (-1, r.2.1, r.2.2)
    else (1, { r.2.1 with data := r.2.1.data ++ [value] }, r.2.2)
  else (1, { vec with data := vec.data ++ [value] }, j)

/-- vector_reserve from vector.c: reallocates only when the requested
capacity exceeds the current one. -/
def vector_reserve {α : Type} (alloc : ℕ → Bool) (vec : vecA α) (cap : ℕ)
    (j : ℕ) : ℤ × vecA α × ℕ :=
  if cap > vec.capacity then private_vector_reallocate alloc vec cap j
  else (0, vec, j)

/-- 2D aggregate state paired with the four container capacities. -/
structure aggregate_2d_A where
  plain : aggregate_2d
  cap_aggregate : ℕ
  cap_attractor : ℕ
  cap_rsteps : ℕ
  cap_bcolls : ℕ
deriving DecidableEq, Repr

/-- aggregate_reserve from aggregate.c: reserve n on _rsteps then on
_bcolls, failing fast with -1. -/
def aggregate_reserve_A (alloc : ℕ → Bool) (st : aggregate_2d_A) (n j : ℕ) :
    ℤ × aggregate_2d_A × ℕ :=
  let r1 := vector_reserve alloc ⟨st.plain._rsteps, st.cap_rsteps⟩ n j
  let st1 := { st with cap_rsteps := r1.2.1.capacity }
  if r1.1 = -1 then (-1, st1, r1.2.2)
  else
    let r2 := vector_reserve alloc ⟨st1.plain._bcolls, st1.cap_bcolls⟩ n r1.2.2
    let st2 := { st1 with cap_bcolls := r2.2.1.capacity }
    if r2.1 = -1 then (-1, st2, r2.2.2)
    else (0, st2, r2.2.2)

/-- The paired seeding pushes of aggregate_2d_init_attractor: each point
is pushed onto _attractor then onto _aggregate, return codes ignored. -/
def push_pairs_2d (alloc : ℕ → Bool) :
    List int_pair → vecA int_pair → vecA int_pair → ℕ →
    vecA int_pair × vecA int_pair × ℕ
  | [], va, vb, j => (va, vb, j)
  | x :: xs, va, vb, j =>
    let p1 := vector_push_back alloc va x j
    let p2 := vector_push_back alloc vb x p1.2.2
    push_pairs_2d alloc xs p1.2.1 p2.2.1 p2.2.2

/-- aggregate_2d_init_attractor from aggregate.c on the allocation model:
per-branch reserves fail fast with -1; the seeding pushes ignore their
return codes.  The CIRCLE reservation count is (size_t)(2.0*M_PI*att_size)
+ 1. -/
noncomputable def aggregate_2d_init_attractor_A (alloc : ℕ → Bool)
    (st : aggregate_2d_A) (n j : ℕ) : ℤ × aggregate_2d_A × ℕ :=
  match st.plain.att with
  | POINT =>
    let r1 := vector_reserve alloc ⟨st.plain._attractor, st.cap_attractor⟩
      st.plain.att_size j
    if r1.1 = -1 then (-1, { st with cap_attractor := r1.2.1.capacity }, r1.2.2)
    else
      let r2 := vector_reserve alloc ⟨st.plain._aggregate, st.cap_aggregate⟩
        (n + st.plain.att_size) r1.2.2
      if r2.1 = -1 then
        (-1, { st with cap_attractor := r1.2.1.capacity,
                       cap_aggregate := r2.2.1.capacity }, r2.2.2)
      else
        let pp := push_pairs_2d alloc [⟨0, 0⟩] r1.2.1 r2.2.1 r2.2.2
        (0, { plain := { st.plain with _attractor := pp.1.data,
                                       _aggregate := pp.2.1.data },
              cap_aggregate := pp.2.1.capacity,
              cap_attractor := pp.1.capacity,
              cap_rsteps := st.cap_rsteps,
              cap_bcolls := st.cap_bcolls }, pp.2.2)
  | LINE =>
    let r1 := vector_reserve alloc ⟨st.plain._attractor, st.cap_attractor⟩
      st.plain.att_size j
    if r1.1 = -1 then (-1, { st with cap_attractor := r1.2.1.capacity }, r1.2.2)
    else
      let r2 := vector_reserve alloc ⟨st.plain._aggregate, st.cap_aggregate⟩
        (n + st.plain.att_size) r1.2.2
      if r2.1 = -1 then
        (-1, { st with cap_attractor := r1.2.1.capacity,
                       cap_aggregate := r2.2.1.capacity }, r2.2.2)
      else
        let pts := (List.range st.plain.att_size).map
          (fun i => (⟨(i : ℤ) - (st.plain.att_size / 2 : ℕ), 0⟩ : int_pair))
        let pp := push_pairs_2d alloc pts r1.2.1 r2.2.1 r2.2.2
        (0, { plain := { st.plain with _attractor := pp.1.data,
                                       _aggregate := pp.2.1.data },
              cap_aggregate := pp.2.1.capacity,
              cap_attractor := pp.1.capacity,
              cap_rsteps := st.cap_rsteps,
              cap_bcolls := st.cap_bcolls }, pp.2.2)
  | CIRCLE =>
    let attparticles : ℕ := ⌊2 * Real.pi * (st.plain.att_size : ℝ)⌋₊ + 1
    let r1 := vector_reserve alloc ⟨st.plain._attractor, st.cap_attractor⟩
      attparticles j
    if r1.1 = -1 then (-1, { st with cap_attractor := r1.2.1.capacity }, r1.2.2)
    else
      let r2 := vector_reserve alloc ⟨st.plain._aggregate, st.cap_aggregate⟩
        attparticles r1.2.2
      if r2.1 = -1 then
        (-1, { st with cap_attractor := r1.2.1.capacity,
                       cap_aggregate := r2.2.1.capacity }, r2.2.2)
      else
        let pp := push_pairs_2d alloc (circle_seed st.plain.att_size) r1.2.1 r2.2.1 r2.2.2
        (0, { plain := { st.plain with _attractor := pp.1.data,
                                       _aggregate := pp.2.1.data },
              cap_aggregate := pp.2.1.capacity,
              cap_attractor := pp.1.capacity,
              cap_rsteps := st.cap_rsteps,
              cap_bcolls := st.cap_bcolls }, pp.2.2)
  | _ => (0, st, j)

/-- The matched branch of aggregate_2d_collision on the allocation model:
the push of prev onto _aggregate is attempted first with its return code
ignored, and the extent/spawn updates always run. -/
def aggregate_2d_on_hit_A (alloc : ℕ → Bool) (st : aggregate_2d_A)
    (prev : int_pair) (j : ℕ) : aggregate_2d_A × ℕ :=
  let pr := vector_push_back alloc ⟨st.plain._aggregate, st.cap_aggregate⟩ prev j
  ({ plain := { aggregate_2d_on_hit st.plain prev with _aggregate := pr.2.1.data },
     cap_aggregate := pr.2.1.capacity,
     cap_attractor := st.cap_attractor,
     cap_rsteps := st.cap_rsteps,
     cap_bcolls := st.cap_bcolls }, pr.2.2)

def aggregate_2d_collision_scan_A (alloc : ℕ → Bool) (st : aggregate_2d_A)
    (curr prev : int_pair) (j : ℕ) :
    List int_pair → Bool × aggregate_2d_A × ℕ
  | [] => (false, st, j)
  | aggp :: rest =>
    if curr.x = aggp.x ∧ curr.y = aggp.y then
      let r := aggregate_2d_on_hit_A alloc st prev j
      (true, r.1, r.2)
    else aggregate_2d_collision_scan_A alloc st curr prev j rest

def aggregate_2d_collision_A (alloc : ℕ → Bool) (st : aggregate_2d_A)
    (curr prev : int_pair) (rng : ℕ → ℚ) (i j : ℕ) :
    Bool × aggregate_2d_A × ℕ × ℕ :=
  if rng i > st.plain.stickiness then (false, st, i + 1, j)
  else
    let sc := aggregate_2d_collision_scan_A alloc st curr prev j st.plain._aggregate
    (sc.1, sc.2.1, i + 1, sc.2.2)

structure walk_result_2d_A where
  stuck : Bool
  st : aggregate_2d_A
  curr : int_pair
  steps : ℕ
  bcolls : ℕ
  i : ℕ
  j : ℕ
deriving DecidableEq, Repr

/-- One iteration of the while-loop body of aggregate_2d_generate on the
allocation model: on a stick the statistics pushes also ignore their
return codes. -/
def walk_iter_2d_A (alloc : ℕ → Bool) (rng : ℕ → ℚ) (st : aggregate_2d_A)
    (curr : int_pair) (steps_to_stick bcolls : ℕ) (has_next_spawned : Bool)
    (i j : ℕ) : walk_result_2d_A :=
  let sp := if has_next_spawned then (curr, i)
            else aggregate_2d_spawn_bp st.plain curr rng i
  let prev := sp.1
  let up := aggregate_2d_update_bp st.plain sp.1 rng sp.2
  let lc := aggregate_2d_lattice_collision st.plain up.1 prev
  let bcolls1 := if lc.2 then bcolls + 1 else bcolls
  let steps1 := steps_to_stick + 1
  let col := aggregate_2d_collision_A alloc st lc.1 prev rng up.2 j
  if col.1 then
    let st1 := col.2.1
    let p1 := vector_push_back alloc ⟨st1.plain._rsteps, st1.cap_rsteps⟩ steps1 col.2.2.2
    let p2 := vector_push_back alloc ⟨st1.plain._bcolls, st1.cap_bcolls⟩ bcolls1 p1.2.2
    ⟨true,
     { plain := { st1.plain with _rsteps := p1.2.1.data, _bcolls := p2.2.1.data },
       cap_aggregate := st1.cap_aggregate,
       cap_attractor := st1.cap_attractor,
       cap_rsteps := p1.2.1.capacity,
       cap_bcolls := p2.2.1.capacity },
     lc.1, steps1, bcolls1, col.2.2.1, p2.2.2⟩
  else ⟨false, col.2.1, lc.1, steps1, bcolls1, col.2.2.1, col.2.2.2⟩

def aggregate_2d_generate_loop_A (alloc : ℕ → Bool) (rng : ℕ → ℚ) (n : ℕ) :
    ℕ → aggregate_2d_A → int_pair → ℕ → ℕ → ℕ → Bool → ℕ → ℕ →
    Option (aggregate_2d_A × ℕ × ℕ)
  | 0, st, _curr, _steps_to_stick, _bcolls, count, _has_next_spawned, i, j =>
    if count < n then none else some (st, i, j)
  | fuel + 1, st, curr, steps_to_stick, bcolls, count, has_next_spawned, i, j =>
    if count < n then
      let it := walk_iter_2d_A alloc rng st curr steps_to_stick bcolls has_next_spawned i j
      if it.stuck then
        aggregate_2d_generate_loop_A alloc rng n fuel it.st it.curr 0 0 (count + 1)
          false it.i it.j
      else
        aggregate_2d_generate_loop_A alloc rng n fuel it.st it.curr it.steps it.bcolls
          count true it.i it.j
    else some (st, i, j)

/-- aggregate_2d_generate from aggregate.c on the allocation model: the
status is -1 exactly when aggregate_reserve or aggregate_2d_init_attractor
report a failed reservation, else the walk loop runs and the status is 0. -/
noncomputable def aggregate_2d_generate_A (alloc : ℕ → Bool) (st : aggregate_2d_A)
    (n : ℕ) (curr0 : int_pair) (fuel : ℕ) (rng : ℕ → ℚ) (i j : ℕ) :
    Option (ℤ × aggregate_2d_A × ℕ × ℕ) :=
  let r1 := aggregate_reserve_A alloc st n j
  if r1.1 = -1 then some (-1, r1.2.1, i, r1.2.2)
  else
    let r2 := aggregate_2d_init_attractor_A alloc r1.2.1 n r1.2.2
    if r2.1 = -1 then some (-1, r2.2.1, i, r2.2.2)
    else (aggregate_2d_generate_loop_A alloc rng n fuel r2.2.1 curr0 0 0 0 false i r2.2.2).map
      (fun x => (0, x.1, x.2.1, x.2.2))

/-- The allocation oracle under which every attempted reallocation fails. -/
def alloc_none : ℕ → Bool := fun _ => false

/-- PRNG stream of the CIRCLE allocation-failure run: one spawn draw, a
y-minus step, a passing stick gate. -/
def rng_c9 : ℕ → ℚ := fun k => if k = 1 then 9/10 else 0

/-- A freshly initialised 2D CIRCLE aggregate with the four capacities of
vector_alloc. -/
noncomputable def fix2_circleA : aggregate_2d_A :=
  ⟨aggregate_2d_init 1 SQUARE CIRCLE, 8, 8, 8, 8⟩

/-- A freshly initialised 2D POINT aggregate with the four capacities of
vector_alloc. -/
noncomputable def fix2_pointA : aggregate_2d_A :=
  ⟨aggregate_2d_init 1 SQUARE POINT, 8, 8, 8, 8⟩


-- ===================== theorems ==============

lemma aggregate_2d_on_hit_aggregate (st : aggregate_2d) (prev : int_pair) :
    (aggregate_2d_on_hit st prev)._aggregate = st._aggregate ++ [prev] := by
  simp only [aggregate_2d_on_hit]
  split_ifs <;> rfl

lemma aggregate_3d_on_hit_aggregate (st : aggregate_3d) (prev : int_triplet) :
    (aggregate_3d_on_hit st prev)._aggregate = st._aggregate ++ [prev] := by
  simp only [aggregate_3d_on_hit]
  split_ifs <;> rfl

lemma aggregate_2d_collision_scan_spec (st : aggregate_2d) (curr prev : int_pair)
    (l : List int_pair) :
    (curr ∈ l ∧ aggregate_2d_collision_scan st curr prev l =
        (true, aggregate_2d_on_hit st prev)) ∨
    (curr ∉ l ∧ aggregate_2d_collision_scan st curr prev l = (false, st)) := by
  induction l with
  | nil => exact Or.inr (by simp [aggregate_2d_collision_scan])
  | cons p rest ih =>
    by_cases h : curr.x = p.x ∧ curr.y = p.y
    · refine Or.inl ⟨?_, by simp [aggregate_2d_collision_scan, if_pos h]⟩
      have : curr = p := by cases curr; cases p; simp_all
      simp [this]
    · have hne : curr ≠ p := by
        intro hc; exact h (by cases curr; cases p; simp_all)
      rcases ih with ⟨hm, he⟩ | ⟨hm, he⟩
      · exact Or.inl ⟨List.mem_cons_of_mem _ hm,
          by simpa [aggregate_2d_collision_scan, if_neg h] using he⟩
      · refine Or.inr ⟨by simp [List.mem_cons, hne, hm], ?_⟩
        simpa [aggregate_2d_collision_scan, if_neg h] using he

lemma aggregate_3d_collision_scan_spec (st : aggregate_3d) (curr prev : int_triplet)
    (l : List int_triplet) :
    (curr ∈ l ∧ aggregate_3d_collision_scan st curr prev l =
        (true, aggregate_3d_on_hit st prev)) ∨
    (curr ∉ l ∧ aggregate_3d_collision_scan st curr prev l = (false, st)) := by
  induction l with
  | nil => exact Or.inr (by simp [aggregate_3d_collision_scan])
  | cons p rest ih =>
    by_cases h : curr.x = p.x ∧ curr.y = p.y ∧ curr.z = p.z
    · refine Or.inl ⟨?_, by simp [aggregate_3d_collision_scan, if_pos h]⟩
      have : curr = p := by cases curr; cases p; simp_all
      simp [this]
    · have hne : curr ≠ p := by
        intro hc; exact h (by cases curr; cases p; simp_all)
      rcases ih with ⟨hm, he⟩ | ⟨hm, he⟩
      · exact Or.inl ⟨List.mem_cons_of_mem _ hm,
          by simpa [aggregate_3d_collision_scan, if_neg h] using he⟩
      · refine Or.inr ⟨by simp [List.mem_cons, hne, hm], ?_⟩
        simpa [aggregate_3d_collision_scan, if_neg h] using he

lemma aggregate_2d_collision_spec (st : aggregate_2d) (curr prev : int_pair)
    (rng : ℕ → ℚ) (i : ℕ) :
    ((aggregate_2d_collision st curr prev rng i).1 = true ↔
      rng i ≤ st.stickiness ∧ curr ∈ st._aggregate) ∧
    ((aggregate_2d_collision st curr prev rng i).1 = true →
      (aggregate_2d_collision st curr prev rng i).2.1._aggregate =
        st._aggregate ++ [prev]) ∧
    ((aggregate_2d_collision st curr prev rng i).1 = false →
      (aggregate_2d_collision st curr prev rng i).2.1 = st) ∧
    (aggregate_2d_collision st curr prev rng i).2.2 = i + 1 := by
  unfold aggregate_2d_collision
  by_cases hg : rng i > st.stickiness
  · rw [if_pos hg]
    refine ⟨?_, by simp, by simp, rfl⟩
    simp only [show ¬(rng i ≤ st.stickiness) from not_le.mpr hg]
    simp
  · rw [if_neg hg]
    rcases aggregate_2d_collision_scan_spec st curr prev st._aggregate with
      ⟨hm, he⟩ | ⟨hm, he⟩
    · refine ⟨?_, ?_, ?_, rfl⟩
      · simp [he, not_lt.mp hg, hm]
      · intro _; simp [he, aggregate_2d_on_hit_aggregate]
      · intro hfalse; rw [he] at hfalse; simp at hfalse
    · refine ⟨?_, ?_, ?_, rfl⟩
      · simp [he, hm]
      · intro htrue; rw [he] at htrue; simp at htrue
      · intro _; simp [he]

lemma aggregate_3d_collision_spec (st : aggregate_3d) (curr prev : int_triplet)
    (rng : ℕ → ℚ) (i : ℕ) :
    ((aggregate_3d_collision st curr prev rng i).1 = true ↔
      rng i ≤ st.stickiness ∧ curr ∈ st._aggregate) ∧
    ((aggregate_3d_collision st curr prev rng i).1 = true →
      (aggregate_3d_collision st curr prev rng i).2.1._aggregate =
        st._aggregate ++ [prev]) ∧
    ((aggregate_3d_collision st curr prev rng i).1 = false →
      (aggregate_3d_collision st curr prev rng i).2.1 = st) ∧
    (aggregate_3d_collision st curr prev rng i).2.2 = i + 1 := by
  unfold aggregate_3d_collision
  by_cases hg : rng i > st.stickiness
  · rw [if_pos hg]
    refine ⟨?_, by simp, by simp, rfl⟩
    simp only [show ¬(rng i ≤ st.stickiness) from not_le.mpr hg]
    simp
  · rw [if_neg hg]
    rcases aggregate_3d_collision_scan_spec st curr prev st._aggregate with
      ⟨hm, he⟩ | ⟨hm, he⟩
    · refine ⟨?_, ?_, ?_, rfl⟩
      · simp [he, not_lt.mp hg, hm]
      · intro _; simp [he, aggregate_3d_on_hit_aggregate]
      · intro hfalse; rw [he] at hfalse; simp at hfalse
    · refine ⟨?_, ?_, ?_, rfl⟩
      · simp [he, hm]
      · intro htrue; rw [he] at htrue; simp at htrue
      · intro _; simp [he]
lemma lattice_collision_2d_pc (st : aggregate_2d) (curr prev : int_pair)
    (h : st.att = POINT ∨ st.att = CIRCLE) :
    aggregate_2d_lattice_collision st curr prev =
      if bounded_region_2d st curr then (curr, false) else (prev, true) := by
  have hA : ¬ st.att = LINE := by rcases h with h | h <;> simp [h]
  have hb : (bounded_region_2d st curr = true) ↔
      (|curr.x| ≤ ctrunc ((st.spawn_diam : ℚ) * 0.5 + 2) ∧
       |curr.y| ≤ ctrunc ((st.spawn_diam : ℚ) * 0.5 + 2)) := by
    rcases h with h | h <;>
      simp [bounded_region_2d, h, decide_eq_true_eq]
  unfold aggregate_2d_lattice_collision
  by_cases hin : |curr.x| ≤ ctrunc ((st.spawn_diam : ℚ) * 0.5 + 2) ∧
      |curr.y| ≤ ctrunc ((st.spawn_diam : ℚ) * 0.5 + 2)
  · rw [if_neg, if_neg, if_pos (hb.mpr hin)]
    · rintro ⟨hl, -⟩; exact hA hl
    · rintro ⟨-, hc | hc⟩
      · exact absurd hin.1 (not_le.mpr hc)
      · exact absurd hin.2 (not_le.mpr hc)
  · rw [if_pos, if_neg]
    · intro hbt; exact hin (hb.mp hbt)
    · refine ⟨h, ?_⟩
      rcases not_and_or.mp hin with hc | hc
      · exact Or.inl (not_le.mp hc)
      · exact Or.inr (not_le.mp hc)

lemma lattice_collision_2d_line (st : aggregate_2d) (curr prev : int_pair)
    (h : st.att = LINE) :
    aggregate_2d_lattice_collision st curr prev =
      ((if bounded_region_2d st curr then curr else prev), false) := by
  have hA : ¬ (st.att = POINT ∨ st.att = CIRCLE) := by simp [h]
  have hb : (bounded_region_2d st curr = true) ↔
      (|curr.x| ≤ 2 * (st.att_size : ℤ) ∧ |curr.y| ≤ (st.spawn_diam : ℤ) + 2) := by
    simp [bounded_region_2d, h, decide_eq_true_eq]
  unfold aggregate_2d_lattice_collision
  rw [if_neg (fun hc => hA hc.1)]
  by_cases hin : |curr.x| ≤ 2 * (st.att_size : ℤ) ∧ |curr.y| ≤ (st.spawn_diam : ℤ) + 2
  · rw [if_neg, if_pos (hb.mpr hin)]
    rintro ⟨-, hc | hc⟩
    · exact absurd hin.1 (not_le.mpr hc)
    · exact absurd hin.2 (not_le.mpr hc)
  · rw [if_pos, if_neg]
    · intro hbt; exact hin (hb.mp hbt)
    · refine ⟨h, ?_⟩
      rcases not_and_or.mp hin with hc | hc
      · exact Or.inl (not_le.mp hc)
      · exact Or.inr (not_le.mp hc)

lemma lattice_collision_3d_pcs (st : aggregate_3d) (curr prev : int_triplet)
    (h : st.att = POINT ∨ st.att = CIRCLE ∨ st.att = SPHERE) :
    aggregate_3d_lattice_collision st curr prev =
      if bounded_region_3d st curr then (curr, false) else (prev, true) := by
  have hA1 : ¬ st.att = LINE := by rcases h with h | h | h <;> simp [h]
  have hA2 : ¬ st.att = PLANE := by rcases h with h | h | h <;> simp [h]
  have hb : (bounded_region_3d st curr = true) ↔
      (|curr.x| ≤ ctrunc ((st.spawn_diam : ℚ) * 0.5) + 2 ∧
       |curr.y| ≤ ctrunc ((st.spawn_diam : ℚ) * 0.5) + 2 ∧
       |curr.z| ≤ ctrunc ((st.spawn_diam : ℚ) * 0.5) + 2) := by
    rcases h with h | h | h <;> simp [bounded_region_3d, h, decide_eq_true_eq]
  unfold aggregate_3d_lattice_collision
  by_cases hin : |curr.x| ≤ ctrunc ((st.spawn_diam : ℚ) * 0.5) + 2 ∧
      |curr.y| ≤ ctrunc ((st.spawn_diam : ℚ) * 0.5) + 2 ∧
      |curr.z| ≤ ctrunc ((st.spawn_diam : ℚ) * 0.5) + 2
  · rw [if_neg, if_neg (fun hc => hA1 hc.1), if_neg (fun hc => hA2 hc.1),
      if_pos (hb.mpr hin)]
    rintro ⟨-, hc | hc | hc⟩
    · exact absurd hin.1 (not_le.mpr hc)
    · exact absurd hin.2.1 (not_le.mpr hc)
    · exact absurd hin.2.2 (not_le.mpr hc)
  · rw [if_pos, if_neg (fun hbt => hin (hb.mp hbt))]
    refine ⟨h, ?_⟩
    by_contra hno
    push_neg at hno
    exact hin ⟨hno.1, hno.2.1, hno.2.2⟩

lemma lattice_collision_3d_line (st : aggregate_3d) (curr prev : int_triplet)
    (h : st.att = LINE) :
    aggregate_3d_lattice_collision st curr prev =
      if bounded_region_3d st curr then (curr, false) else (prev, true) := by
  have hA1 : ¬ (st.att = POINT ∨ st.att = CIRCLE ∨ st.att = SPHERE) := by simp [h]
  have hA2 : ¬ st.att = PLANE := by simp [h]
  have hb : (bounded_region_3d st curr = true) ↔
      (|curr.x| ≤ 2 * (st.att_size : ℤ) ∧ |curr.y| ≤ (st.spawn_diam : ℤ) + 2 ∧
       |curr.z| ≤ (st.spawn_diam : ℤ) + 2) := by
    simp [bounded_region_3d, h, decide_eq_true_eq]
  unfold aggregate_3d_lattice_collision
  rw [if_neg (fun hc => hA1 hc.1)]
  by_cases hin : |curr.x| ≤ 2 * (st.att_size : ℤ) ∧ |curr.y| ≤ (st.spawn_diam : ℤ) + 2 ∧
      |curr.z| ≤ (st.spawn_diam : ℤ) + 2
  · rw [if_neg, if_neg (fun hc => hA2 hc.1), if_pos (hb.mpr hin)]
    rintro ⟨-, hc | hc | hc⟩
    · exact absurd hin.1 (not_le.mpr hc)
    · exact absurd hin.2.1 (not_le.mpr hc)
    · exact absurd hin.2.2 (not_le.mpr hc)
  · rw [if_pos, if_neg (fun hbt => hin (hb.mp hbt))]
    refine ⟨h, ?_⟩
    by_contra hno
    push_neg at hno
    exact hin ⟨hno.1, hno.2.1, hno.2.2⟩

lemma lattice_collision_3d_plane (st : aggregate_3d) (curr prev : int_triplet)
    (h : st.att = PLANE) :
    aggregate_3d_lattice_collision st curr prev =
      if bounded_region_3d st curr then (curr, false) else (prev, true) := by
  have hA1 : ¬ (st.att = POINT ∨ st.att = CIRCLE ∨ st.att = SPHERE) := by simp [h]
  have hA2 : ¬ st.att = LINE := by simp [h]
  have hb : (bounded_region_3d st curr = true) ↔
      (|curr.x| ≤ 2 * (st.att_size : ℤ) ∧ |curr.y| ≤ 2 * (st.att_size : ℤ) ∧
       |curr.z| ≤ (st.spawn_diam : ℤ) + 2) := by
    simp [bounded_region_3d, h, decide_eq_true_eq]
  unfold aggregate_3d_lattice_collision
  rw [if_neg (fun hc => hA1 hc.1), if_neg (fun hc => hA2 hc.1)]
  by_cases hin : |curr.x| ≤ 2 * (st.att_size : ℤ) ∧ |curr.y| ≤ 2 * (st.att_size : ℤ) ∧
      |curr.z| ≤ (st.spawn_diam : ℤ) + 2
  · rw [if_neg, if_pos (hb.mpr hin)]
    rintro ⟨-, hc | hc | hc⟩
    · exact absurd hin.1 (not_le.mpr hc)
    · exact absurd hin.2.1 (not_le.mpr hc)
    · exact absurd hin.2.2 (not_le.mpr hc)
  · rw [if_pos, if_neg (fun hbt => hin (hb.mp hbt))]
    refine ⟨h, ?_⟩
    by_contra hno
    push_neg at hno
    exact hin ⟨hno.1, hno.2.1, hno.2.2⟩

lemma lattice_collision_3d_spec (st : aggregate_3d) (curr prev : int_triplet) :
    aggregate_3d_lattice_collision st curr prev =
      if bounded_region_3d st curr then (curr, false) else (prev, true) := by
  rcases hatt : st.att with _ | _ | _ | _ | _
  · exact lattice_collision_3d_pcs st curr prev (Or.inl hatt)
  · exact lattice_collision_3d_pcs st curr prev (Or.inr (Or.inl hatt))
  · exact lattice_collision_3d_pcs st curr prev (Or.inr (Or.inr hatt))
  · exact lattice_collision_3d_line st curr prev hatt
  · exact lattice_collision_3d_plane st curr prev hatt

/-- C1 (amended): for every allowed configuration the boundary enforcer
reverts the step exactly when the post-step position lies outside the
attractor-specific bounding region, and it reports the boundary
collision (returns true) in exactly those cases for every configuration
EXCEPT 2D LINE: the 2D LINE branch reverts the out-of-region step but
always returns false, so the driver does not count that boundary
collision. -/
theorem lattice_collision_reports_iff_reverts :
    (∀ (st : aggregate_2d) (curr prev : int_pair),
      st.att = POINT ∨ st.att = CIRCLE →
      aggregate_2d_lattice_collision st curr prev =
        if bounded_region_2d st curr then (curr, false) else (prev, true)) ∧
    (∀ (st : aggregate_2d) (curr prev : int_pair),
      st.att = LINE →
      aggregate_2d_lattice_collision st curr prev =
        ((if bounded_region_2d st curr then curr else prev), false)) ∧
    (∀ (st : aggregate_3d) (curr prev : int_triplet),
      aggregate_3d_lattice_collision st curr prev =
        if bounded_region_3d st curr then (curr, false) else (prev, true)) :=
  ⟨lattice_collision_2d_pc, lattice_collision_2d_line,
    lattice_collision_3d_spec⟩

/-- C1 witness: a 2D POINT aggregate with spawn_diam 6 reverts an
out-of-region step to prev and reports true; its 3D counterpart reports
true as well; and an in-region LINE step is left unreverted with report
false. -/
theorem lattice_collision_reports_iff_reverts_witness :
    aggregate_2d_lattice_collision fix2_point ⟨9, 0⟩ ⟨1, 0⟩ = (⟨1, 0⟩, true) ∧
    aggregate_2d_lattice_collision fix2_line ⟨1, 1⟩ ⟨1, 0⟩ = (⟨1, 1⟩, false) ∧
    aggregate_3d_lattice_collision fix3_point ⟨9, 0, 0⟩ ⟨1, 0, 0⟩ = (⟨1, 0, 0⟩, true) := by
  refine ⟨?_, ?_, ?_⟩
  · rw [lattice_collision_reports_iff_reverts.1 fix2_point ⟨9, 0⟩ ⟨1, 0⟩ (Or.inl rfl),
      show bounded_region_2d fix2_point ⟨9, 0⟩ = false from by with_unfolding_all rfl]
    simp
  · rw [lattice_collision_reports_iff_reverts.2.1 fix2_line ⟨1, 1⟩ ⟨1, 0⟩ rfl,
      show bounded_region_2d fix2_line ⟨1, 1⟩ = true from by with_unfolding_all rfl]
    simp
  · rw [lattice_collision_reports_iff_reverts.2.2 fix3_point ⟨9, 0, 0⟩ ⟨1, 0, 0⟩,
      show bounded_region_3d fix3_point ⟨9, 0, 0⟩ = false from by with_unfolding_all rfl]
    simp

/-- C1 counterexample: the claim asserts that the boundary predicate
returns true whenever it reverts, for every attractor including LINE in
2D.  On a freshly initialised 2D LINE aggregate the step to (0, 9) is
outside the bounding region and is reverted to prev = (0, 0), yet the
function returns false, so the driver does not increment the boundary
collision counter. -/
theorem lattice_collision_line_2d_misreport :
    aggregate_2d_lattice_collision fix2_line ⟨0, 9⟩ ⟨0, 0⟩ = (⟨0, 0⟩, false) ∧
    bounded_region_2d fix2_line ⟨0, 9⟩ = false ∧
    (⟨0, 9⟩ : int_pair) ≠ ⟨0, 0⟩ := by
  refine ⟨?_, ?_, by simp⟩
  · with_unfolding_all rfl
  · with_unfolding_all rfl

/-- C4: the collision/stick test consumes one draw; it reports no stick
when the draw exceeds stickiness; it sticks exactly when the draw passes
the stickiness gate and some entry of the stuck sequence equals the
current position (the scan is the insertion-order linear scan
aggregate_2d_collision_scan / aggregate_3d_collision_scan); and on a
stick it appends prev, the pre-step position, not curr, at the end of
the stuck sequence. -/
theorem collision_stick_rule :
    (∀ (st : aggregate_2d) (curr prev : int_pair) (rng : ℕ → ℚ) (i : ℕ),
      (st.stickiness < rng i → (aggregate_2d_collision st curr prev rng i).1 = false) ∧
      ((aggregate_2d_collision st curr prev rng i).1 = true ↔
        rng i ≤ st.stickiness ∧ curr ∈ st._aggregate) ∧
      ((aggregate_2d_collision st curr prev rng i).1 = true →
        (aggregate_2d_collision st curr prev rng i).2.1._aggregate =
          st._aggregate ++ [prev]) ∧
      ((aggregate_2d_collision st curr prev rng i).1 = false →
        (aggregate_2d_collision st curr prev rng i).2.1._aggregate =
          st._aggregate)) ∧
    (∀ (st : aggregate_3d) (curr prev : int_triplet) (rng : ℕ → ℚ) (i : ℕ),
      (st.stickiness < rng i → (aggregate_3d_collision st curr prev rng i).1 = false) ∧
      ((aggregate_3d_collision st curr prev rng i).1 = true ↔
        rng i ≤ st.stickiness ∧ curr ∈ st._aggregate) ∧
      ((aggregate_3d_collision st curr prev rng i).1 = true →
        (aggregate_3d_collision st curr prev rng i).2.1._aggregate =
          st._aggregate ++ [prev]) ∧
      ((aggregate_3d_collision st curr prev rng i).1 = false →
        (aggregate_3d_collision st curr prev rng i).2.1._aggregate =
          st._aggregate)) := by
  constructor
  · intro st curr prev rng i
    obtain ⟨hiff, happ, hfr, -⟩ := aggregate_2d_collision_spec st curr prev rng i
    refine ⟨?_, hiff, happ, fun hf => by rw [hfr hf]⟩
    intro hlt
    cases hr : (aggregate_2d_collision st curr prev rng i).1 with
    | false => rfl
    | true => exact absurd (hiff.mp hr).1 (not_le.mpr hlt)
  · intro st curr prev rng i
    obtain ⟨hiff, happ, hfr, -⟩ := aggregate_3d_collision_spec st curr prev rng i
    refine ⟨?_, hiff, happ, fun hf => by rw [hfr hf]⟩
    intro hlt
    cases hr : (aggregate_3d_collision st curr prev rng i).1 with
    | false => rfl
    | true => exact absurd (hiff.mp hr).1 (not_le.mpr hlt)

/-- C4 witness: on an aggregate whose stuck list holds the origin, with
stickiness 1/2 and a zero draw, a walker standing on the origin sticks
and its pre-step position (1,0) (resp. (1,0,0)) is appended. -/
theorem collision_stick_rule_witness :
    (aggregate_2d_collision fix2_col ⟨0, 0⟩ ⟨1, 0⟩ (fun _ => 0) 5).1 = true ∧
    (aggregate_2d_collision fix2_col ⟨0, 0⟩ ⟨1, 0⟩ (fun _ => 0) 5).2.1._aggregate =
      [⟨0, 0⟩, ⟨1, 0⟩] ∧
    (aggregate_3d_collision fix3_col ⟨0, 0, 0⟩ ⟨1, 0, 0⟩ (fun _ => 0) 5).1 = true ∧
    (aggregate_3d_collision fix3_col ⟨0, 0, 0⟩ ⟨1, 0, 0⟩ (fun _ => 0) 5).2.1._aggregate =
      [⟨0, 0, 0⟩, ⟨1, 0, 0⟩] := by
  have h2 := collision_stick_rule.1 fix2_col ⟨0, 0⟩ ⟨1, 0⟩ (fun _ => 0) 5
  have h3 := collision_stick_rule.2 fix3_col ⟨0, 0, 0⟩ ⟨1, 0, 0⟩ (fun _ => 0) 5
  have ht2 : (aggregate_2d_collision fix2_col ⟨0, 0⟩ ⟨1, 0⟩ (fun _ => 0) 5).1 = true :=
    h2.2.1.mpr ⟨by norm_num [fix2_col, aggregate_2d_init], by simp [fix2_col]⟩
  have ht3 : (aggregate_3d_collision fix3_col ⟨0, 0, 0⟩ ⟨1, 0, 0⟩ (fun _ => 0) 5).1 = true :=
    h3.2.1.mpr ⟨by norm_num [fix3_col, aggregate_3d_init], by simp [fix3_col]⟩
  refine ⟨ht2, ?_, ht3, ?_⟩
  · rw [h2.2.2.1 ht2]; simp [fix2_col]
  · rw [h3.2.2.1 ht3]; simp [fix3_col]

/-- C10: whenever the collision/stick test reports no stick (stickiness
gate fails or no stuck entry equals curr), the returned aggregate state
is exactly the input state (stuck sequence, extent metrics and
spawn_diam all unchanged), and the call consumes exactly one PRNG draw.
The walker positions curr and prev are inputs of the pure model and the
source never writes through those pointers in this function. -/
theorem collision_no_stick_frame :
    (∀ (st : aggregate_2d) (curr prev : int_pair) (rng : ℕ → ℚ) (i : ℕ),
      (aggregate_2d_collision st curr prev rng i).2.2 = i + 1 ∧
      ((aggregate_2d_collision st curr prev rng i).1 = false →
        (aggregate_2d_collision st curr prev rng i).2.1 = st)) ∧
    (∀ (st : aggregate_3d) (curr prev : int_triplet) (rng : ℕ → ℚ) (i : ℕ),
      (aggregate_3d_collision st curr prev rng i).2.2 = i + 1 ∧
      ((aggregate_3d_collision st curr prev rng i).1 = false →
        (aggregate_3d_collision st curr prev rng i).2.1 = st)) := by
  constructor
  · intro st curr prev rng i
    obtain ⟨-, -, hfr, hi⟩ := aggregate_2d_collision_spec st curr prev rng i
    exact ⟨hi, hfr⟩
  · intro st curr prev rng i
    obtain ⟨-, -, hfr, hi⟩ := aggregate_3d_collision_spec st curr prev rng i
    exact ⟨hi, hfr⟩

/-- C10 witness: with a draw of 1 against stickiness 1/2 the test reports
no stick and returns the state unchanged, advancing the draw index from
5 to 6 (2D and 3D). -/
theorem collision_no_stick_frame_witness :
    (aggregate_2d_collision fix2_col ⟨0, 0⟩ ⟨1, 0⟩ (fun _ => 1) 5).2.1 = fix2_col ∧
    (aggregate_2d_collision fix2_col ⟨0, 0⟩ ⟨1, 0⟩ (fun _ => 1) 5).2.2 = 6 ∧
    (aggregate_3d_collision fix3_col ⟨0, 0, 0⟩ ⟨1, 0, 0⟩ (fun _ => 1) 5).2.1 = fix3_col ∧
    (aggregate_3d_collision fix3_col ⟨0, 0, 0⟩ ⟨1, 0, 0⟩ (fun _ => 1) 5).2.2 = 6 := by
  have h2 := collision_no_stick_frame.1 fix2_col ⟨0, 0⟩ ⟨1, 0⟩ (fun _ => 1) 5
  have h3 := collision_no_stick_frame.2 fix3_col ⟨0, 0, 0⟩ ⟨1, 0, 0⟩ (fun _ => 1) 5
  refine ⟨h2.2 ?_, h2.1, h3.2 ?_, h3.1⟩
  · with_unfolding_all rfl
  · with_unfolding_all rfl
lemma update_bp_2d_square_thresholds (st : aggregate_2d) (curr : int_pair)
    (rng : ℕ → ℚ) (i : ℕ) (k : Fin 4) (hlt : st.lt = SQUARE)
    (h1 : ((k : ℕ) : ℚ) / 4 ≤ rng i)
    (h2 : rng i < (((k : ℕ) : ℚ) + 1) / 4 ∨ (k : ℕ) = 3) :
    aggregate_2d_update_bp st curr rng i =
      (curr.add (square_moves_2d.get ⟨(k : ℕ), k.isLt⟩), i + 1) := by
  simp only [aggregate_2d_update_bp, hlt]
  fin_cases k
  · rcases h2 with h2 | h2
    · norm_num at h1 h2
      rw [if_pos (show rng i < 0.25 by norm_num; linarith)]
      show _ = (curr.add (⟨1, 0⟩ : int_pair), i + 1)
      simp [int_pair.add, sub_eq_add_neg]
    · simp at h2
  · rcases h2 with h2 | h2
    · norm_num at h1 h2
      rw [if_neg (show ¬ rng i < 0.25 by intro hc; norm_num at hc; linarith),
        if_pos (show rng i < 0.5 by norm_num; linarith)]
      show _ = (curr.add (⟨-1, 0⟩ : int_pair), i + 1)
      simp [int_pair.add, sub_eq_add_neg]
    · simp at h2
  · rcases h2 with h2 | h2
    · norm_num at h1 h2
      rw [if_neg (show ¬ rng i < 0.25 by intro hc; norm_num at hc; linarith),
        if_neg (show ¬ rng i < 0.5 by intro hc; norm_num at hc; linarith),
        if_pos (show rng i < 0.75 by norm_num; linarith)]
      show _ = (curr.add (⟨0, 1⟩ : int_pair), i + 1)
      simp [int_pair.add, sub_eq_add_neg]
    · simp at h2
  · norm_num at h1
    rw [if_neg (show ¬ rng i < 0.25 by intro hc; norm_num at hc; linarith),
      if_neg (show ¬ rng i < 0.5 by intro hc; norm_num at hc; linarith),
      if_neg (show ¬ rng i < 0.75 by intro hc; norm_num at hc; linarith)]
    show _ = (curr.add (⟨0, -1⟩ : int_pair), i + 1)
    simp [int_pair.add, sub_eq_add_neg]

lemma update_bp_2d_square_mem (st : aggregate_2d) (curr : int_pair)
    (rng : ℕ → ℚ) (i : ℕ) (hlt : st.lt = SQUARE) :
    ∃ m ∈ square_moves_2d, aggregate_2d_update_bp st curr rng i = (curr.add m, i + 1) := by
  simp only [aggregate_2d_update_bp, hlt]
  split_ifs
  · exact ⟨⟨1, 0⟩, by simp [square_moves_2d],
      by simp [int_pair.add, sub_eq_add_neg]⟩
  · exact ⟨⟨-1, 0⟩, by simp [square_moves_2d],
      by simp [int_pair.add, sub_eq_add_neg]⟩
  · exact ⟨⟨0, 1⟩, by simp [square_moves_2d],
      by simp [int_pair.add, sub_eq_add_neg]⟩
  · exact ⟨⟨0, -1⟩, by simp [square_moves_2d],
      by simp [int_pair.add, sub_eq_add_neg]⟩

lemma update_bp_2d_triangle_thresholds (st : aggregate_2d) (curr : int_pair)
    (rng : ℕ → ℚ) (i : ℕ) (k : Fin 6) (hlt : st.lt = TRIANGLE)
    (h1 : ((k : ℕ) : ℚ) / 6 ≤ rng i)
    (h2 : rng i < (((k : ℕ) : ℚ) + 1) / 6 ∨ (k : ℕ) = 5) :
    aggregate_2d_update_bp st curr rng i =
      (curr.add (triangle_moves_2d.get ⟨(k : ℕ), k.isLt⟩), i + 1) := by
  simp only [aggregate_2d_update_bp, hlt]
  fin_cases k
  · rcases h2 with h2 | h2
    · norm_num at h1 h2
      rw [if_pos (show rng i < 1 / 6 by norm_num; linarith)]
      show _ = (curr.add (⟨1, 0⟩ : int_pair), i + 1)
      simp [int_pair.add, sub_eq_add_neg]
    · simp at h2
  · rcases h2 with h2 | h2
    · norm_num at h1 h2
      rw [if_neg (show ¬ rng i < 1 / 6 by intro hc; norm_num at hc; linarith),
        if_pos (show rng i < 2 / 6 by norm_num; linarith)]
      show _ = (curr.add (⟨-1, 0⟩ : int_pair), i + 1)
      simp [int_pair.add, sub_eq_add_neg]
    · simp at h2
  · rcases h2 with h2 | h2
    · norm_num at h1 h2
      rw [if_neg (show ¬ rng i < 1 / 6 by intro hc; norm_num at hc; linarith),
        if_neg (show ¬ rng i < 2 / 6 by intro hc; norm_num at hc; linarith),
        if_pos (show rng i < 3 / 6 by norm_num; linarith)]
      show _ = (curr.add (⟨1, 1⟩ : int_pair), i + 1)
      simp [int_pair.add, sub_eq_add_neg]
    · simp at h2
  · rcases h2 with h2 | h2
    · norm_num at h1 h2
      rw [if_neg (show ¬ rng i < 1 / 6 by intro hc; norm_num at hc; linarith),
        if_neg (show ¬ rng i < 2 / 6 by intro hc; norm_num at hc; linarith),
        if_neg (show ¬ rng i < 3 / 6 by intro hc; norm_num at hc; linarith),
        if_pos (show rng i < 4 / 6 by norm_num; linarith)]
      show _ = (curr.add (⟨1, -1⟩ : int_pair), i + 1)
      simp [int_pair.add, sub_eq_add_neg]
    · simp at h2
  · rcases h2 with h2 | h2
    · norm_num at h1 h2
      rw [if_neg (show ¬ rng i < 1 / 6 by intro hc; norm_num at hc; linarith),
        if_neg (show ¬ rng i < 2 / 6 by intro hc; norm_num at hc; linarith),
        if_neg (show ¬ rng i < 3 / 6 by intro hc; norm_num at hc; linarith),
        if_neg (show ¬ rng i < 4 / 6 by intro hc; norm_num at hc; linarith),
        if_pos (show rng i < 5 / 6 by norm_num; linarith)]
      show _ = (curr.add (⟨-1, 1⟩ : int_pair), i + 1)
      simp [int_pair.add, sub_eq_add_neg]
    · simp at h2
  · norm_num at h1
    rw [if_neg (show ¬ rng i < 1 / 6 by intro hc; norm_num at hc; linarith),
      if_neg (show ¬ rng i < 2 / 6 by intro hc; norm_num at hc; linarith),
      if_neg (show ¬ rng i < 3 / 6 by intro hc; norm_num at hc; linarith),
      if_neg (show ¬ rng i < 4 / 6 by intro hc; norm_num at hc; linarith),
      if_neg (show ¬ rng i < 5 / 6 by intro hc; norm_num at hc; linarith)]
    show _ = (curr.add (⟨-1, -1⟩ : int_pair), i + 1)
    simp [int_pair.add, sub_eq_add_neg]

lemma update_bp_2d_triangle_mem (st : aggregate_2d) (curr : int_pair)
    (rng : ℕ → ℚ) (i : ℕ) (hlt : st.lt = TRIANGLE) :
    ∃ m ∈ triangle_moves_2d, aggregate_2d_update_bp st curr rng i = (curr.add m, i + 1) := by
  simp only [aggregate_2d_update_bp, hlt]
  split_ifs
  · exact ⟨⟨1, 0⟩, by simp [triangle_moves_2d],
      by simp [int_pair.add, sub_eq_add_neg]⟩
  · exact ⟨⟨-1, 0⟩, by simp [triangle_moves_2d],
      by simp [int_pair.add, sub_eq_add_neg]⟩
  · exact ⟨⟨1, 1⟩, by simp [triangle_moves_2d],
      by simp [int_pair.add, sub_eq_add_neg]⟩
  · exact ⟨⟨1, -1⟩, by simp [triangle_moves_2d],
      by simp [int_pair.add, sub_eq_add_neg]⟩
  · exact ⟨⟨-1, 1⟩, by simp [triangle_moves_2d],
      by simp [int_pair.add, sub_eq_add_neg]⟩
  · exact ⟨⟨-1, -1⟩, by simp [triangle_moves_2d],
      by simp [int_pair.add, sub_eq_add_neg]⟩

lemma update_bp_3d_square_thresholds (st : aggregate_3d) (curr : int_triplet)
    (rng : ℕ → ℚ) (i : ℕ) (k : Fin 6) (hlt : st.lt = SQUARE)
    (h1 : ((k : ℕ) : ℚ) / 6 ≤ rng i)
    (h2 : rng i < (((k : ℕ) : ℚ) + 1) / 6 ∨ (k : ℕ) = 5) :
    aggregate_3d_update_bp st curr rng i =
      (curr.add (square_moves_3d.get ⟨(k : ℕ), k.isLt⟩), i + 1) := by
  simp only [aggregate_3d_update_bp, hlt]
  fin_cases k
  · rcases h2 with h2 | h2
    · norm_num at h1 h2
      rw [if_pos (show rng i < 1 / 6 by norm_num; linarith)]
      show _ = (curr.add (⟨1, 0, 0⟩ : int_triplet), i + 1)
      simp [int_triplet.add, sub_eq_add_neg]
    · simp at h2
  · rcases h2 with h2 | h2
    · norm_num at h1 h2
      rw [if_neg (show ¬ rng i < 1 / 6 by intro hc; norm_num at hc; linarith),
        if_pos (show rng i < 2 / 6 by norm_num; linarith)]
      show _ = (curr.add (⟨-1, 0, 0⟩ : int_triplet), i + 1)
      simp [int_triplet.add, sub_eq_add_neg]
    · simp at h2
  · rcases h2 with h2 | h2
    · norm_num at h1 h2
      rw [if_neg (show ¬ rng i < 1 / 6 by intro hc; norm_num at hc; linarith),
        if_neg (show ¬ rng i < 2 / 6 by intro hc; norm_num at hc; linarith),
        if_pos (show rng i < 3 / 6 by norm_num; linarith)]
      show _ = (curr.add (⟨0, 1, 0⟩ : int_triplet), i + 1)
      simp [int_triplet.add, sub_eq_add_neg]
    · simp at h2
  · rcases h2 with h2 | h2
    · norm_num at h1 h2
      rw [if_neg (show ¬ rng i < 1 / 6 by intro hc; norm_num at hc; linarith),
        if_neg (show ¬ rng i < 2 / 6 by intro hc; norm_num at hc; linarith),
        if_neg (show ¬ rng i < 3 / 6 by intro hc; norm_num at hc; linarith),
        if_pos (show rng i < 4 / 6 by norm_num; linarith)]
      show _ = (curr.add (⟨0, -1, 0⟩ : int_triplet), i + 1)
      simp [int_triplet.add, sub_eq_add_neg]
    · simp at h2
  · rcases h2 with h2 | h2
    · norm_num at h1 h2
      rw [if_neg (show ¬ rng i < 1 / 6 by intro hc; norm_num at hc; linarith),
        if_neg (show ¬ rng i < 2 / 6 by intro hc; norm_num at hc; linarith),
        if_neg (show ¬ rng i < 3 / 6 by intro hc; norm_num at hc; linarith),
        if_neg (show ¬ rng i < 4 / 6 by intro hc; norm_num at hc; linarith),
        if_pos (show rng i < 5 / 6 by norm_num; linarith)]
      show _ = (curr.add (⟨0, 0, 1⟩ : int_triplet), i + 1)
      simp [int_triplet.add, sub_eq_add_neg]
    · simp at h2
  · norm_num at h1
    rw [if_neg (show ¬ rng i < 1 / 6 by intro hc; norm_num at hc; linarith),
      if_neg (show ¬ rng i < 2 / 6 by intro hc; norm_num at hc; linarith),
      if_neg (show ¬ rng i < 3 / 6 by intro hc; norm_num at hc; linarith),
      if_neg (show ¬ rng i < 4 / 6 by intro hc; norm_num at hc; linarith),
      if_neg (show ¬ rng i < 5 / 6 by intro hc; norm_num at hc; linarith)]
    show _ = (curr.add (⟨0, 0, -1⟩ : int_triplet), i + 1)
    simp [int_triplet.add, sub_eq_add_neg]

lemma update_bp_3d_square_mem (st : aggregate_3d) (curr : int_triplet)
    (rng : ℕ → ℚ) (i : ℕ) (hlt : st.lt = SQUARE) :
    ∃ m ∈ square_moves_3d, aggregate_3d_update_bp st curr rng i = (curr.add m, i + 1) := by
  simp only [aggregate_3d_update_bp, hlt]
  split_ifs
  · exact ⟨⟨1, 0, 0⟩, by simp [square_moves_3d],
      by simp [int_triplet.add, sub_eq_add_neg]⟩
  · exact ⟨⟨-1, 0, 0⟩, by simp [square_moves_3d],
      by simp [int_triplet.add, sub_eq_add_neg]⟩
  · exact ⟨⟨0, 1, 0⟩, by simp [square_moves_3d],
      by simp [int_triplet.add, sub_eq_add_neg]⟩
  · exact ⟨⟨0, -1, 0⟩, by simp [square_moves_3d],
      by simp [int_triplet.add, sub_eq_add_neg]⟩
  · exact ⟨⟨0, 0, 1⟩, by simp [square_moves_3d],
      by simp [int_triplet.add, sub_eq_add_neg]⟩
  · exact ⟨⟨0, 0, -1⟩, by simp [square_moves_3d],
      by simp [int_triplet.add, sub_eq_add_neg]⟩

lemma update_bp_3d_triangle_thresholds (st : aggregate_3d) (curr : int_triplet)
    (rng : ℕ → ℚ) (i : ℕ) (k : Fin 8) (hlt : st.lt = TRIANGLE)
    (h1 : ((k : ℕ) : ℚ) / 8 ≤ rng i)
    (h2 : rng i < (((k : ℕ) : ℚ) + 1) / 8 ∨ (k : ℕ) = 7) :
    aggregate_3d_update_bp st curr rng i =
      (curr.add (triangle_moves_3d.get ⟨(k : ℕ), k.isLt⟩), i + 1) := by
  simp only [aggregate_3d_update_bp, hlt]
  fin_cases k
  · rcases h2 with h2 | h2
    · norm_num at h1 h2
      rw [if_pos (show rng i < 1 / 8 by norm_num; linarith)]
      show _ = (curr.add (⟨1, 1, 0⟩ : int_triplet), i + 1)
      simp [int_triplet.add, sub_eq_add_neg]
    · simp at h2
  · rcases h2 with h2 | h2
    · norm_num at h1 h2
      rw [if_neg (show ¬ rng i < 1 / 8 by intro hc; norm_num at hc; linarith),
        if_pos (show rng i < 2 / 8 by norm_num; linarith)]
      show _ = (curr.add (⟨1, -1, 0⟩ : int_triplet), i + 1)
      simp [int_triplet.add, sub_eq_add_neg]
    · simp at h2
  · rcases h2 with h2 | h2
    · norm_num at h1 h2
      rw [if_neg (show ¬ rng i < 1 / 8 by intro hc; norm_num at hc; linarith),
        if_neg (show ¬ rng i < 2 / 8 by intro hc; norm_num at hc; linarith),
        if_pos (show rng i < 3 / 8 by norm_num; linarith)]
      show _ = (curr.add (⟨-1, -1, 0⟩ : int_triplet), i + 1)
      simp [int_triplet.add, sub_eq_add_neg]
    · simp at h2
  · rcases h2 with h2 | h2
    · norm_num at h1 h2
      rw [if_neg (show ¬ rng i < 1 / 8 by intro hc; norm_num at hc; linarith),
        if_neg (show ¬ rng i < 2 / 8 by intro hc; norm_num at hc; linarith),
        if_neg (show ¬ rng i < 3 / 8 by intro hc; norm_num at hc; linarith),
        if_pos (show rng i < 4 / 8 by norm_num; linarith)]
      show _ = (curr.add (⟨-1, 1, 0⟩ : int_triplet), i + 1)
      simp [int_triplet.add, sub_eq_add_neg]
    · simp at h2
  · rcases h2 with h2 | h2
    · norm_num at h1 h2
      rw [if_neg (show ¬ rng i < 1 / 8 by intro hc; norm_num at hc; linarith),
        if_neg (show ¬ rng i < 2 / 8 by intro hc; norm_num at hc; linarith),
        if_neg (show ¬ rng i < 3 / 8 by intro hc; norm_num at hc; linarith),
        if_neg (show ¬ rng i < 4 / 8 by intro hc; norm_num at hc; linarith),
        if_pos (show rng i < 5 / 8 by norm_num; linarith)]
      show _ = (curr.add (⟨1, 0, 0⟩ : int_triplet), i + 1)
      simp [int_triplet.add, sub_eq_add_neg]
    · simp at h2
  · rcases h2 with h2 | h2
    · norm_num at h1 h2
      rw [if_neg (show ¬ rng i < 1 / 8 by intro hc; norm_num at hc; linarith),
        if_neg (show ¬ rng i < 2 / 8 by intro hc; norm_num at hc; linarith),
        if_neg (show ¬ rng i < 3 / 8 by intro hc; norm_num at hc; linarith),
        if_neg (show ¬ rng i < 4 / 8 by intro hc; norm_num at hc; linarith),
        if_neg (show ¬ rng i < 5 / 8 by intro hc; norm_num at hc; linarith),
        if_pos (show rng i < 6 / 8 by norm_num; linarith)]
      show _ = (curr.add (⟨-1, 0, 0⟩ : int_triplet), i + 1)
      simp [int_triplet.add, sub_eq_add_neg]
    · simp at h2
  · rcases h2 with h2 | h2
    · norm_num at h1 h2
      rw [if_neg (show ¬ rng i < 1 / 8 by intro hc; norm_num at hc; linarith),
        if_neg (show ¬ rng i < 2 / 8 by intro hc; norm_num at hc; linarith),
        if_neg (show ¬ rng i < 3 / 8 by intro hc; norm_num at hc; linarith),
        if_neg (show ¬ rng i < 4 / 8 by intro hc; norm_num at hc; linarith),
        if_neg (show ¬ rng i < 5 / 8 by intro hc; norm_num at hc; linarith),
        if_neg (show ¬ rng i < 6 / 8 by intro hc; norm_num at hc; linarith),
        if_pos (show rng i < 7 / 8 by norm_num; linarith)]
      show _ = (curr.add (⟨0, 0, 1⟩ : int_triplet), i + 1)
      simp [int_triplet.add, sub_eq_add_neg]
    · simp at h2
  · norm_num at h1
    rw [if_neg (show ¬ rng i < 1 / 8 by intro hc; norm_num at hc; linarith),
      if_neg (show ¬ rng i < 2 / 8 by intro hc; norm_num at hc; linarith),
      if_neg (show ¬ rng i < 3 / 8 by intro hc; norm_num at hc; linarith),
      if_neg (show ¬ rng i < 4 / 8 by intro hc; norm_num at hc; linarith),
      if_neg (show ¬ rng i < 5 / 8 by intro hc; norm_num at hc; linarith),
      if_neg (show ¬ rng i < 6 / 8 by intro hc; norm_num at hc; linarith),
      if_neg (show ¬ rng i < 7 / 8 by intro hc; norm_num at hc; linarith)]
    show _ = (curr.add (⟨0, 0, -1⟩ : int_triplet), i + 1)
    simp [int_triplet.add, sub_eq_add_neg]

lemma update_bp_3d_triangle_mem (st : aggregate_3d) (curr : int_triplet)
    (rng : ℕ → ℚ) (i : ℕ) (hlt : st.lt = TRIANGLE) :
    ∃ m ∈ triangle_moves_3d, aggregate_3d_update_bp st curr rng i = (curr.add m, i + 1) := by
  simp only [aggregate_3d_update_bp, hlt]
  split_ifs
  · exact ⟨⟨1, 1, 0⟩, by simp [triangle_moves_3d],
      by simp [int_triplet.add, sub_eq_add_neg]⟩
  · exact ⟨⟨1, -1, 0⟩, by simp [triangle_moves_3d],
      by simp [int_triplet.add, sub_eq_add_neg]⟩
  · exact ⟨⟨-1, -1, 0⟩, by simp [triangle_moves_3d],
      by simp [int_triplet.add, sub_eq_add_neg]⟩
  · exact ⟨⟨-1, 1, 0⟩, by simp [triangle_moves_3d],
      by simp [int_triplet.add, sub_eq_add_neg]⟩
  · exact ⟨⟨1, 0, 0⟩, by simp [triangle_moves_3d],
      by simp [int_triplet.add, sub_eq_add_neg]⟩
  · exact ⟨⟨-1, 0, 0⟩, by simp [triangle_moves_3d],
      by simp [int_triplet.add, sub_eq_add_neg]⟩
  · exact ⟨⟨0, 0, 1⟩, by simp [triangle_moves_3d],
      by simp [int_triplet.add, sub_eq_add_neg]⟩
  · exact ⟨⟨0, 0, -1⟩, by simp [triangle_moves_3d],
      by simp [int_triplet.add, sub_eq_add_neg]⟩

/-- C7: every call of the lattice step generator consumes one draw and
translates the walker by exactly one offset of the declared move set of
the configured lattice and dimension; moreover the offset is selected by
comparing the single draw against the cumulative thresholds in declared
order, lower bound inclusive and upper bound exclusive, the final branch
being an else that absorbs any residue (SQUARE 2D quarters, TRIANGLE 2D
sixths, SQUARE 3D sixths, TRIANGLE 3D eighths). -/
theorem update_bp_move_selection :
    (∀ (st : aggregate_2d) (curr : int_pair) (rng : ℕ → ℚ) (i : ℕ),
      st.lt = SQUARE →
      ∃ m ∈ square_moves_2d, aggregate_2d_update_bp st curr rng i = (curr.add m, i + 1)) ∧
    (∀ (st : aggregate_2d) (curr : int_pair) (rng : ℕ → ℚ) (i : ℕ),
      st.lt = TRIANGLE →
      ∃ m ∈ triangle_moves_2d, aggregate_2d_update_bp st curr rng i = (curr.add m, i + 1)) ∧
    (∀ (st : aggregate_3d) (curr : int_triplet) (rng : ℕ → ℚ) (i : ℕ),
      st.lt = SQUARE →
      ∃ m ∈ square_moves_3d, aggregate_3d_update_bp st curr rng i = (curr.add m, i + 1)) ∧
    (∀ (st : aggregate_3d) (curr : int_triplet) (rng : ℕ → ℚ) (i : ℕ),
      st.lt = TRIANGLE →
      ∃ m ∈ triangle_moves_3d, aggregate_3d_update_bp st curr rng i = (curr.add m, i + 1)) ∧
    (∀ (st : aggregate_2d) (curr : int_pair) (rng : ℕ → ℚ) (i : ℕ) (k : Fin 4),
      st.lt = SQUARE → ((k : ℕ) : ℚ) / 4 ≤ rng i →
      (rng i < (((k : ℕ) : ℚ) + 1) / 4 ∨ (k : ℕ) = 3) →
      aggregate_2d_update_bp st curr rng i =
        (curr.add (square_moves_2d.get ⟨(k : ℕ), k.isLt⟩), i + 1)) ∧
    (∀ (st : aggregate_2d) (curr : int_pair) (rng : ℕ → ℚ) (i : ℕ) (k : Fin 6),
      st.lt = TRIANGLE → ((k : ℕ) : ℚ) / 6 ≤ rng i →
      (rng i < (((k : ℕ) : ℚ) + 1) / 6 ∨ (k : ℕ) = 5) →
      aggregate_2d_update_bp st curr rng i =
        (curr.add (triangle_moves_2d.get ⟨(k : ℕ), k.isLt⟩), i + 1)) ∧
    (∀ (st : aggregate_3d) (curr : int_triplet) (rng : ℕ → ℚ) (i : ℕ) (k : Fin 6),
      st.lt = SQUARE → ((k : ℕ) : ℚ) / 6 ≤ rng i →
      (rng i < (((k : ℕ) : ℚ) + 1) / 6 ∨ (k : ℕ) = 5) →
      aggregate_3d_update_bp st curr rng i =
        (curr.add (square_moves_3d.get ⟨(k : ℕ), k.isLt⟩), i + 1)) ∧
    (∀ (st : aggregate_3d) (curr : int_triplet) (rng : ℕ → ℚ) (i : ℕ) (k : Fin 8),
      st.lt = TRIANGLE → ((k : ℕ) : ℚ) / 8 ≤ rng i →
      (rng i < (((k : ℕ) : ℚ) + 1) / 8 ∨ (k : ℕ) = 7) →
      aggregate_3d_update_bp st curr rng i =
        (curr.add (triangle_moves_3d.get ⟨(k : ℕ), k.isLt⟩), i + 1)) :=
  ⟨update_bp_2d_square_mem, update_bp_2d_triangle_mem,
   update_bp_3d_square_mem, update_bp_3d_triangle_mem,
   fun st curr rng i k hlt h1 h2 => update_bp_2d_square_thresholds st curr rng i k hlt h1 h2,
   fun st curr rng i k hlt h1 h2 => update_bp_2d_triangle_thresholds st curr rng i k hlt h1 h2,
   fun st curr rng i k hlt h1 h2 => update_bp_3d_square_thresholds st curr rng i k hlt h1 h2,
   fun st curr rng i k hlt h1 h2 => update_bp_3d_triangle_thresholds st curr rng i k hlt h1 h2⟩

/-- C7 witness: with the draw 2/5 each of the four lattice/dimension
combinations takes exactly the declared move of the interval containing
2/5 (SQUARE 2D: second quarter; TRIANGLE 2D: third sixth; SQUARE 3D:
third sixth; TRIANGLE 3D: fourth eighth). -/
theorem update_bp_move_selection_witness :
    aggregate_2d_update_bp fix2_point ⟨2, 3⟩ (fun _ => 2/5) 7 = (⟨1, 3⟩, 8) ∧
    aggregate_2d_update_bp fix2_tri ⟨2, 3⟩ (fun _ => 2/5) 7 = (⟨3, 4⟩, 8) ∧
    aggregate_3d_update_bp fix3_point ⟨2, 3, 4⟩ (fun _ => 2/5) 7 = (⟨2, 4, 4⟩, 8) ∧
    aggregate_3d_update_bp fix3_tri ⟨2, 3, 4⟩ (fun _ => 2/5) 7 = (⟨1, 4, 4⟩, 8) := by
  refine ⟨?_, ?_, ?_, ?_⟩
  · rw [update_bp_move_selection.2.2.2.2.1 fix2_point ⟨2, 3⟩ (fun _ => 2/5) 7
      ⟨1, by norm_num⟩ rfl (by norm_num) (Or.inl (by norm_num))]
    decide
  · rw [update_bp_move_selection.2.2.2.2.2.1 fix2_tri ⟨2, 3⟩ (fun _ => 2/5) 7
      ⟨2, by norm_num⟩ rfl (by norm_num) (Or.inl (by norm_num))]
    decide
  · rw [update_bp_move_selection.2.2.2.2.2.2.1 fix3_point ⟨2, 3, 4⟩ (fun _ => 2/5) 7
      ⟨2, by norm_num⟩ rfl (by norm_num) (Or.inl (by norm_num))]
    decide
  · rw [update_bp_move_selection.2.2.2.2.2.2.2 fix3_tri ⟨2, 3, 4⟩ (fun _ => 2/5) 7
      ⟨3, by norm_num⟩ rfl (by norm_num) (Or.inl (by norm_num))]
    decide

lemma on_hit_const_fields_2d (st : aggregate_2d) (prev : int_pair) :
    (aggregate_2d_on_hit st prev).att = st.att ∧
    (aggregate_2d_on_hit st prev).b_offset = st.b_offset ∧
    (aggregate_2d_on_hit st prev).att_size = st.att_size ∧
    (aggregate_2d_on_hit st prev).lt = st.lt ∧
    (aggregate_2d_on_hit st prev).stickiness = st.stickiness ∧
    (aggregate_2d_on_hit st prev)._attractor = st._attractor ∧
    (aggregate_2d_on_hit st prev)._rsteps = st._rsteps ∧
    (aggregate_2d_on_hit st prev)._bcolls = st._bcolls := by
  simp only [aggregate_2d_on_hit]
  split_ifs <;> simp

lemma on_hit_spawn_pc_2d (st : aggregate_2d) (prev : int_pair)
    (h : ¬ st.att = LINE)
    (hinv : st.att = POINT →
      st.spawn_diam = 2 * Nat.sqrt st.max_r_sqd + st.b_offset) :
    st.spawn_diam ≤ (aggregate_2d_on_hit st prev).spawn_diam ∧
    ((aggregate_2d_on_hit st prev).att = POINT →
      (aggregate_2d_on_hit st prev).spawn_diam =
        2 * Nat.sqrt (aggregate_2d_on_hit st prev).max_r_sqd +
          (aggregate_2d_on_hit st prev).b_offset) := by
  simp only [aggregate_2d_on_hit]
  split_ifs <;> simp_all <;>
    (rename_i hgrow
     generalize hq : prev.x * prev.x + prev.y * prev.y = q at hgrow
     have hs := Nat.sqrt_le_sqrt (show st.max_r_sqd ≤ q.toNat by omega)
     omega)

lemma collision_true_on_hit_2d (st : aggregate_2d) (curr prev : int_pair)
    (rng : ℕ → ℚ) (i : ℕ)
    (hc : (aggregate_2d_collision st curr prev rng i).1 = true) :
    (aggregate_2d_collision st curr prev rng i).2.1 = aggregate_2d_on_hit st prev := by
  unfold aggregate_2d_collision at hc ⊢
  split_ifs at hc ⊢
  rcases aggregate_2d_collision_scan_spec st curr prev st._aggregate with ⟨-, he⟩ | ⟨-, he⟩
  · exact congrArg (fun p => p.2) he
  · rw [he] at hc; simp at hc

lemma walk_iter_st_spec_2d (rng : ℕ → ℚ) (st : aggregate_2d) (curr : int_pair)
    (steps bcolls : ℕ) (spawned : Bool) (i : ℕ) :
    ((walk_iter_2d rng st curr steps bcolls spawned i).stuck = false ∧
      (walk_iter_2d rng st curr steps bcolls spawned i).st = st) ∨
    ((walk_iter_2d rng st curr steps bcolls spawned i).stuck = true ∧
      ∃ prev s b, (walk_iter_2d rng st curr steps bcolls spawned i).st =
        { aggregate_2d_on_hit st prev with
            _rsteps := (aggregate_2d_on_hit st prev)._rsteps ++ [s],
            _bcolls := (aggregate_2d_on_hit st prev)._bcolls ++ [b] }) := by
  unfold walk_iter_2d
  dsimp only
  set sp := (if spawned then (curr, i) else aggregate_2d_spawn_bp st curr rng i) with hsp
  set up := aggregate_2d_update_bp st sp.1 rng sp.2 with hup
  set lc := aggregate_2d_lattice_collision st up.1 sp.1 with hlc
  set col := aggregate_2d_collision st lc.1 sp.1 rng up.2 with hcol
  cases hc : col.1 with
  | false =>
    refine Or.inl ?_
    rw [if_neg (by simp [hc])]
    refine ⟨rfl, ?_⟩
    show col.2.1 = st
    rw [hcol]
    exact (aggregate_2d_collision_spec st lc.1 sp.1 rng up.2).2.2.1 (by rw [← hcol]; exact hc)
  | true =>
    refine Or.inr ?_
    rw [if_pos (by simp [hc])]
    refine ⟨rfl, sp.1, steps + 1, (if lc.2 then bcolls + 1 else bcolls), ?_⟩
    have hco : col.2.1 = aggregate_2d_on_hit st sp.1 := by
      rw [hcol]
      exact collision_true_on_hit_2d st lc.1 sp.1 rng up.2 (by rw [← hcol]; exact hc)
    dsimp only
    rw [hco]

lemma generate_loop_preserves_2d (rng : ℕ → ℚ) (n : ℕ)
    (P : aggregate_2d → Prop) (R : aggregate_2d → aggregate_2d → Prop)
    (hrefl : ∀ st, P st → R st st)
    (htrans : ∀ a b c, R a b → R b c → R a c)
    (hstep : ∀ st prev s b, P st →
      P { aggregate_2d_on_hit st prev with
            _rsteps := (aggregate_2d_on_hit st prev)._rsteps ++ [s],
            _bcolls := (aggregate_2d_on_hit st prev)._bcolls ++ [b] } ∧
      R st { aggregate_2d_on_hit st prev with
            _rsteps := (aggregate_2d_on_hit st prev)._rsteps ++ [s],
            _bcolls := (aggregate_2d_on_hit st prev)._bcolls ++ [b] }) :
    ∀ (fuel : ℕ) (st : aggregate_2d) (curr : int_pair)
      (steps bcolls count : ℕ) (spawned : Bool) (i : ℕ)
      (st' : aggregate_2d) (i' : ℕ),
      aggregate_2d_generate_loop rng n fuel st curr steps bcolls count spawned i =
        some (st', i') →
      P st → P st' ∧ R st st' := by
  intro fuel
  induction fuel with
  | zero =>
    intro st curr steps bcolls count spawned i st' i' hrun hP
    rw [aggregate_2d_generate_loop] at hrun
    split_ifs at hrun
    simp only [Option.some.injEq, Prod.mk.injEq] at hrun
    obtain ⟨rfl, rfl⟩ := hrun
    exact ⟨hP, hrefl st hP⟩
  | succ fuel ih =>
    intro st curr steps bcolls count spawned i st' i' hrun hP
    rw [aggregate_2d_generate_loop] at hrun
    split_ifs at hrun
    · dsimp only at hrun
      rcases walk_iter_st_spec_2d rng st curr steps bcolls spawned i with
        ⟨hf, hst⟩ | ⟨ht, prev, s, b, hst⟩
      · rw [hf, if_neg (by simp)] at hrun
        obtain ⟨hP2, hR2⟩ := ih _ _ _ _ _ _ _ _ _ hrun (by rw [hst]; exact hP)
        rw [hst] at hR2
        exact ⟨hP2, hR2⟩
      · rw [ht, if_pos rfl] at hrun
        obtain ⟨hP1, hR1⟩ := hstep st prev s b hP
        rw [← hst] at hP1 hR1
        obtain ⟨hP2, hR2⟩ := ih _ _ _ _ _ _ _ _ _ hrun hP1
        exact ⟨hP2, htrans _ _ _ hR1 hR2⟩
    · simp only [Option.some.injEq, Prod.mk.injEq] at hrun
      obtain ⟨rfl, rfl⟩ := hrun
      exact ⟨hP, hrefl st hP⟩

lemma on_hit_const_fields_3d (st : aggregate_3d) (prev : int_triplet) :
    (aggregate_3d_on_hit st prev).att = st.att ∧
    (aggregate_3d_on_hit st prev).b_offset = st.b_offset ∧
    (aggregate_3d_on_hit st prev).att_size = st.att_size ∧
    (aggregate_3d_on_hit st prev).lt = st.lt ∧
    (aggregate_3d_on_hit st prev).stickiness = st.stickiness ∧
    (aggregate_3d_on_hit st prev)._attractor = st._attractor ∧
    (aggregate_3d_on_hit st prev)._rsteps = st._rsteps ∧
    (aggregate_3d_on_hit st prev)._bcolls = st._bcolls := by
  simp only [aggregate_3d_on_hit]
  split_ifs <;> simp

lemma on_hit_spawn_pc_3d (st : aggregate_3d) (prev : int_triplet)
    (h : ¬ st.att = PLANE)
    (hinv : st.att = POINT →
      st.spawn_diam = 2 * Nat.sqrt st.max_r_sqd + st.b_offset) :
    st.spawn_diam ≤ (aggregate_3d_on_hit st prev).spawn_diam ∧
    ((aggregate_3d_on_hit st prev).att = POINT →
      (aggregate_3d_on_hit st prev).spawn_diam =
        2 * Nat.sqrt (aggregate_3d_on_hit st prev).max_r_sqd +
          (aggregate_3d_on_hit st prev).b_offset) := by
  simp only [aggregate_3d_on_hit]
  split_ifs <;> simp_all <;>
    (rename_i hgrow
     generalize hq : prev.x * prev.x + prev.y * prev.y + prev.z * prev.z = q at hgrow
     have hs := Nat.sqrt_le_sqrt (show st.max_r_sqd ≤ q.toNat by omega)
     omega)

lemma collision_true_on_hit_3d (st : aggregate_3d) (curr prev : int_triplet)
    (rng : ℕ → ℚ) (i : ℕ)
    (hc : (aggregate_3d_collision st curr prev rng i).1 = true) :
    (aggregate_3d_collision st curr prev rng i).2.1 = aggregate_3d_on_hit st prev := by
  unfold aggregate_3d_collision at hc ⊢
  split_ifs at hc ⊢
  rcases aggregate_3d_collision_scan_spec st curr prev st._aggregate with ⟨-, he⟩ | ⟨-, he⟩
  · exact congrArg (fun p => p.2) he
  · rw [he] at hc; simp at hc

lemma walk_iter_st_spec_3d (rng : ℕ → ℚ) (st : aggregate_3d) (curr : int_triplet)
    (steps bcolls : ℕ) (spawned : Bool) (i : ℕ) :
    ((walk_iter_3d rng st curr steps bcolls spawned i).stuck = false ∧
      (walk_iter_3d rng st curr steps bcolls spawned i).st = st) ∨
    ((walk_iter_3d rng st curr steps bcolls spawned i).stuck = true ∧
      ∃ prev s b, (walk_iter_3d rng st curr steps bcolls spawned i).st =
        { aggregate_3d_on_hit st prev with
            _rsteps := (aggregate_3d_on_hit st prev)._rsteps ++ [s],
            _bcolls := (aggregate_3d_on_hit st prev)._bcolls ++ [b] }) := by
  unfold walk_iter_3d
  dsimp only
  set sp := (if spawned then (curr, i) else aggregate_3d_spawn_bp st curr rng i) with hsp
  set up := aggregate_3d_update_bp st sp.1 rng sp.2 with hup
  set lc := aggregate_3d_lattice_collision st up.1 sp.1 with hlc
  set col := aggregate_3d_collision st lc.1 sp.1 rng up.2 with hcol
  cases hc : col.1 with
  | false =>
    refine Or.inl ?_
    rw [if_neg (by simp [hc])]
    refine ⟨rfl, ?_⟩
    show col.2.1 = st
    rw [hcol]
    exact (aggregate_3d_collision_spec st lc.1 sp.1 rng up.2).2.2.1 (by rw [← hcol]; exact hc)
  | true =>
    refine Or.inr ?_
    rw [if_pos (by simp [hc])]
    refine ⟨rfl, sp.1, steps + 1, (if lc.2 then bcolls + 1 else bcolls), ?_⟩
    have hco : col.2.1 = aggregate_3d_on_hit st sp.1 := by
      rw [hcol]
      exact collision_true_on_hit_3d st lc.1 sp.1 rng up.2 (by rw [← hcol]; exact hc)
    dsimp only
    rw [hco]

lemma generate_loop_preserves_3d (rng : ℕ → ℚ) (n : ℕ)
    (P : aggregate_3d → Prop) (R : aggregate_3d → aggregate_3d → Prop)
    (hrefl : ∀ st, P st → R st st)
    (htrans : ∀ a b c, R a b → R b c → R a c)
    (hstep : ∀ st prev s b, P st →
      P { aggregate_3d_on_hit st prev with
            _rsteps := (aggregate_3d_on_hit st prev)._rsteps ++ [s],
            _bcolls := (aggregate_3d_on_hit st prev)._bcolls ++ [b] } ∧
      R st { aggregate_3d_on_hit st prev with
            _rsteps := (aggregate_3d_on_hit st prev)._rsteps ++ [s],
            _bcolls := (aggregate_3d_on_hit st prev)._bcolls ++ [b] }) :
    ∀ (fuel : ℕ) (st : aggregate_3d) (curr : int_triplet)
      (steps bcolls count : ℕ) (spawned : Bool) (i : ℕ)
      (st' : aggregate_3d) (i' : ℕ),
      aggregate_3d_generate_loop rng n fuel st curr steps bcolls count spawned i =
        some (st', i') →
      P st → P st' ∧ R st st' := by
  intro fuel
  induction fuel with
  | zero =>
    intro st curr steps bcolls count spawned i st' i' hrun hP
    rw [aggregate_3d_generate_loop] at hrun
    split_ifs at hrun
    simp only [Option.some.injEq, Prod.mk.injEq] at hrun
    obtain ⟨rfl, rfl⟩ := hrun
    exact ⟨hP, hrefl st hP⟩
  | succ fuel ih =>
    intro st curr steps bcolls count spawned i st' i' hrun hP
    rw [aggregate_3d_generate_loop] at hrun
    split_ifs at hrun
    · dsimp only at hrun
      rcases walk_iter_st_spec_3d rng st curr steps bcolls spawned i with
        ⟨hf, hst⟩ | ⟨ht, prev, s, b, hst⟩
      · rw [hf, if_neg (by simp)] at hrun
        obtain ⟨hP2, hR2⟩ := ih _ _ _ _ _ _ _ _ _ hrun (by rw [hst]; exact hP)
        rw [hst] at hR2
        exact ⟨hP2, hR2⟩
      · rw [ht, if_pos rfl] at hrun
        obtain ⟨hP1, hR1⟩ := hstep st prev s b hP
        rw [← hst] at hP1 hR1
        obtain ⟨hP2, hR2⟩ := ih _ _ _ _ _ _ _ _ _ hrun hP1
        exact ⟨hP2, htrans _ _ _ hR1 hR2⟩
    · simp only [Option.some.injEq, Prod.mk.injEq] at hrun
      obtain ⟨rfl, rfl⟩ := hrun
      exact ⟨hP, hrefl st hP⟩

lemma stats_push_scalars_2d (st : aggregate_2d) (s b : ℕ) :
    ({ st with _rsteps := st._rsteps ++ [s], _bcolls := st._bcolls ++ [b] } :
        aggregate_2d).spawn_diam = st.spawn_diam ∧
    ({ st with _rsteps := st._rsteps ++ [s], _bcolls := st._bcolls ++ [b] } :
        aggregate_2d).b_offset = st.b_offset ∧
    ({ st with _rsteps := st._rsteps ++ [s], _bcolls := st._bcolls ++ [b] } :
        aggregate_2d).max_r_sqd = st.max_r_sqd ∧
    ({ st with _rsteps := st._rsteps ++ [s], _bcolls := st._bcolls ++ [b] } :
        aggregate_2d).att = st.att ∧
    ({ st with _rsteps := st._rsteps ++ [s], _bcolls := st._bcolls ++ [b] } :
        aggregate_2d)._aggregate = st._aggregate ∧
    ({ st with _rsteps := st._rsteps ++ [s], _bcolls := st._bcolls ++ [b] } :
        aggregate_2d)._attractor = st._attractor ∧
    ({ st with _rsteps := st._rsteps ++ [s], _bcolls := st._bcolls ++ [b] } :
        aggregate_2d).max_x = st.max_x ∧
    ({ st with _rsteps := st._rsteps ++ [s], _bcolls := st._bcolls ++ [b] } :
        aggregate_2d).max_y = st.max_y ∧
    ({ st with _rsteps := st._rsteps ++ [s], _bcolls := st._bcolls ++ [b] } :
        aggregate_2d).max_z = st.max_z :=
  ⟨rfl, rfl, rfl, rfl, rfl, rfl, rfl, rfl, rfl⟩

lemma stats_push_scalars_3d (st : aggregate_3d) (s b : ℕ) :
    ({ st with _rsteps := st._rsteps ++ [s], _bcolls := st._bcolls ++ [b] } :
        aggregate_3d).spawn_diam = st.spawn_diam ∧
    ({ st with _rsteps := st._rsteps ++ [s], _bcolls := st._bcolls ++ [b] } :
        aggregate_3d).b_offset = st.b_offset ∧
    ({ st with _rsteps := st._rsteps ++ [s], _bcolls := st._bcolls ++ [b] } :
        aggregate_3d).max_r_sqd = st.max_r_sqd ∧
    ({ st with _rsteps := st._rsteps ++ [s], _bcolls := st._bcolls ++ [b] } :
        aggregate_3d).att = st.att ∧
    ({ st with _rsteps := st._rsteps ++ [s], _bcolls := st._bcolls ++ [b] } :
        aggregate_3d)._aggregate = st._aggregate ∧
    ({ st with _rsteps := st._rsteps ++ [s], _bcolls := st._bcolls ++ [b] } :
        aggregate_3d)._attractor = st._attractor ∧
    ({ st with _rsteps := st._rsteps ++ [s], _bcolls := st._bcolls ++ [b] } :
        aggregate_3d).max_x = st.max_x ∧
    ({ st with _rsteps := st._rsteps ++ [s], _bcolls := st._bcolls ++ [b] } :
        aggregate_3d).max_y = st.max_y ∧
    ({ st with _rsteps := st._rsteps ++ [s], _bcolls := st._bcolls ++ [b] } :
        aggregate_3d).max_z = st.max_z :=
  ⟨rfl, rfl, rfl, rfl, rfl, rfl, rfl, rfl, rfl⟩

lemma generate_loop_spawn_mono_2d (rng : ℕ → ℚ) (n fuel : ℕ) (st : aggregate_2d)
    (curr : int_pair) (steps bcolls count : ℕ) (spawned : Bool) (i : ℕ)
    (st' : aggregate_2d) (i' : ℕ)
    (hrun : aggregate_2d_generate_loop rng n fuel st curr steps bcolls count spawned i =
      some (st', i'))
    (hatt : st.att = POINT ∨ st.att = CIRCLE)
    (hb : st.b_offset ≤ st.spawn_diam)
    (hinv : st.att = POINT → st.spawn_diam = 2 * Nat.sqrt st.max_r_sqd + st.b_offset) :
    st.spawn_diam ≤ st'.spawn_diam ∧ st'.b_offset = st.b_offset ∧
    st'.b_offset ≤ st'.spawn_diam := by
  have h := generate_loop_preserves_2d rng n
    (fun s => (s.att = POINT ∨ s.att = CIRCLE) ∧ s.b_offset ≤ s.spawn_diam ∧
      (s.att = POINT → s.spawn_diam = 2 * Nat.sqrt s.max_r_sqd + s.b_offset))
    (fun a b => a.spawn_diam ≤ b.spawn_diam ∧ b.b_offset = a.b_offset)
    (fun s _ => ⟨le_refl _, rfl⟩)
    (fun a b c h1 h2 => ⟨le_trans h1.1 h2.1, h2.2.trans h1.2⟩)
    ?_ fuel st curr steps bcolls count spawned i st' i' hrun ⟨hatt, hb, hinv⟩
  · exact ⟨h.2.1, h.2.2, h.1.2.1⟩
  · intro s prev a b hP
    obtain ⟨hA, hB, -, -, -, -, -, -⟩ := on_hit_const_fields_2d s prev
    obtain ⟨hm, hinv2⟩ := on_hit_spawn_pc_2d s prev
      (by rcases hP.1 with h | h <;> simp [h]) hP.2.2
    obtain ⟨e1, e2, e3, e4, -⟩ :=
      stats_push_scalars_2d (aggregate_2d_on_hit s prev) a b
    refine ⟨⟨?_, ?_, ?_⟩, ?_, ?_⟩
    · rw [e4, hA]; exact hP.1
    · rw [e2, e1, hB]; exact le_trans hP.2.1 hm
    · rw [e4, e1, e2, e3]
      intro hpt
      exact hinv2 (by rw [hA]; rw [e4, hA] at hpt; exact hpt)
    · rw [e1]; exact hm
    · rw [e2, hB]

lemma generate_loop_spawn_mono_3d (rng : ℕ → ℚ) (n fuel : ℕ) (st : aggregate_3d)
    (curr : int_triplet) (steps bcolls count : ℕ) (spawned : Bool) (i : ℕ)
    (st' : aggregate_3d) (i' : ℕ)
    (hrun : aggregate_3d_generate_loop rng n fuel st curr steps bcolls count spawned i =
      some (st', i'))
    (hatt : st.att = POINT ∨ st.att = CIRCLE ∨ st.att = SPHERE)
    (hb : st.b_offset ≤ st.spawn_diam)
    (hinv : st.att = POINT → st.spawn_diam = 2 * Nat.sqrt st.max_r_sqd + st.b_offset) :
    st.spawn_diam ≤ st'.spawn_diam ∧ st'.b_offset = st.b_offset ∧
    st'.b_offset ≤ st'.spawn_diam := by
  have h := generate_loop_preserves_3d rng n
    (fun s => (s.att = POINT ∨ s.att = CIRCLE ∨ s.att = SPHERE) ∧
      s.b_offset ≤ s.spawn_diam ∧
      (s.att = POINT → s.spawn_diam = 2 * Nat.sqrt s.max_r_sqd + s.b_offset))
    (fun a b => a.spawn_diam ≤ b.spawn_diam ∧ b.b_offset = a.b_offset)
    (fun s _ => ⟨le_refl _, rfl⟩)
    (fun a b c h1 h2 => ⟨le_trans h1.1 h2.1, h2.2.trans h1.2⟩)
    ?_ fuel st curr steps bcolls count spawned i st' i' hrun ⟨hatt, hb, hinv⟩
  · exact ⟨h.2.1, h.2.2, h.1.2.1⟩
  · intro s prev a b hP
    obtain ⟨hA, hB, -, -, -, -, -, -⟩ := on_hit_const_fields_3d s prev
    obtain ⟨hm, hinv2⟩ := on_hit_spawn_pc_3d s prev
      (by rcases hP.1 with h | h | h <;> simp [h]) hP.2.2
    obtain ⟨e1, e2, e3, e4, -⟩ :=
      stats_push_scalars_3d (aggregate_3d_on_hit s prev) a b
    refine ⟨⟨?_, ?_, ?_⟩, ?_, ?_⟩
    · rw [e4, hA]; exact hP.1
    · rw [e2, e1, hB]; exact le_trans hP.2.1 hm
    · rw [e4, e1, e2, e3]
      intro hpt
      exact hinv2 (by rw [hA]; rw [e4, hA] at hpt; exact hpt)
    · rw [e1]; exact hm
    · rw [e2, hB]

lemma init_attractor_scalars_2d (st : aggregate_2d) (n : ℕ) :
    (aggregate_2d_init_attractor st n).stickiness = st.stickiness ∧
    (aggregate_2d_init_attractor st n).max_x = st.max_x ∧
    (aggregate_2d_init_attractor st n).max_y = st.max_y ∧
    (aggregate_2d_init_attractor st n).max_z = st.max_z ∧
    (aggregate_2d_init_attractor st n).max_r_sqd = st.max_r_sqd ∧
    (aggregate_2d_init_attractor st n).b_offset = st.b_offset ∧
    (aggregate_2d_init_attractor st n).spawn_diam = st.spawn_diam ∧
    (aggregate_2d_init_attractor st n).att_size = st.att_size ∧
    (aggregate_2d_init_attractor st n).lt = st.lt ∧
    (aggregate_2d_init_attractor st n).att = st.att ∧
    (aggregate_2d_init_attractor st n)._rsteps = st._rsteps ∧
    (aggregate_2d_init_attractor st n)._bcolls = st._bcolls := by
  unfold aggregate_2d_init_attractor
  cases hatt : st.att <;> simp [hatt]

lemma init_attractor_scalars_3d (st : aggregate_3d) (n : ℕ) :
    (aggregate_3d_init_attractor st n).stickiness = st.stickiness ∧
    (aggregate_3d_init_attractor st n).max_x = st.max_x ∧
    (aggregate_3d_init_attractor st n).max_y = st.max_y ∧
    (aggregate_3d_init_attractor st n).max_z = st.max_z ∧
    (aggregate_3d_init_attractor st n).max_r_sqd = st.max_r_sqd ∧
    (aggregate_3d_init_attractor st n).b_offset = st.b_offset ∧
    (aggregate_3d_init_attractor st n).spawn_diam = st.spawn_diam ∧
    (aggregate_3d_init_attractor st n).att_size = st.att_size ∧
    (aggregate_3d_init_attractor st n).lt = st.lt ∧
    (aggregate_3d_init_attractor st n).att = st.att ∧
    (aggregate_3d_init_attractor st n)._rsteps = st._rsteps ∧
    (aggregate_3d_init_attractor st n)._bcolls = st._bcolls := by
  unfold aggregate_3d_init_attractor
  cases hatt : st.att <;> simp [hatt]






/-- C2 (amended): for POINT, CIRCLE and SPHERE attractors, spawn_diam is
monotonically non-decreasing along any segment of the walk loop whose
initial state satisfies the POINT spawn invariant (established by init
and preserved by every stick), it always stays at or above b_offset, and
every successful generate run from a fresh init ends with
spawn_diam >= 6 = b_offset.  The original claim also covered LINE and
PLANE, whose spawn_diam updates store the signed prev coordinate into
the size_t field and can shrink it (see the counterexample). -/
theorem spawn_diam_bounded_monotone :
    (∀ (rng : ℕ → ℚ) (n fuel : ℕ) (st : aggregate_2d) (curr : int_pair)
       (steps bcolls count : ℕ) (spawned : Bool) (i : ℕ)
       (st' : aggregate_2d) (i' : ℕ),
      aggregate_2d_generate_loop rng n fuel st curr steps bcolls count spawned i =
        some (st', i') →
      st.att = POINT ∨ st.att = CIRCLE →
      st.b_offset ≤ st.spawn_diam →
      (st.att = POINT → st.spawn_diam = 2 * Nat.sqrt st.max_r_sqd + st.b_offset) →
      st.spawn_diam ≤ st'.spawn_diam ∧ st'.b_offset ≤ st'.spawn_diam) ∧
    (∀ (rng : ℕ → ℚ) (n fuel : ℕ) (st : aggregate_3d) (curr : int_triplet)
       (steps bcolls count : ℕ) (spawned : Bool) (i : ℕ)
       (st' : aggregate_3d) (i' : ℕ),
      aggregate_3d_generate_loop rng n fuel st curr steps bcolls count spawned i =
        some (st', i') →
      st.att = POINT ∨ st.att = CIRCLE ∨ st.att = SPHERE →
      st.b_offset ≤ st.spawn_diam →
      (st.att = POINT → st.spawn_diam = 2 * Nat.sqrt st.max_r_sqd + st.b_offset) →
      st.spawn_diam ≤ st'.spawn_diam ∧ st'.b_offset ≤ st'.spawn_diam) ∧
    (∀ (s : ℚ) (lt : lattice_type) (att : attractor_type) (n : ℕ) (curr0 : int_pair)
       (fuel : ℕ) (rng : ℕ → ℚ) (i : ℕ) (st' : aggregate_2d) (i' : ℕ),
      att = POINT ∨ att = CIRCLE →
      aggregate_2d_generate (aggregate_2d_init s lt att) n curr0 fuel rng i =
        some (st', i') →
      6 ≤ st'.spawn_diam ∧ st'.b_offset = 6 ∧
      (aggregate_2d_init s lt att).spawn_diam ≤ st'.spawn_diam) ∧
    (∀ (s : ℚ) (lt : lattice_type) (att : attractor_type) (n : ℕ) (curr0 : int_triplet)
       (fuel : ℕ) (rng : ℕ → ℚ) (i : ℕ) (st' : aggregate_3d) (i' : ℕ),
      att = POINT ∨ att = CIRCLE ∨ att = SPHERE →
      aggregate_3d_generate (aggregate_3d_init s lt att) n curr0 fuel rng i =
        some (st', i') →
      6 ≤ st'.spawn_diam ∧ st'.b_offset = 6 ∧
      (aggregate_3d_init s lt att).spawn_diam ≤ st'.spawn_diam) := by
  refine ⟨?_, ?_, ?_, ?_⟩
  · intro rng n fuel st curr steps bcolls count spawned i st' i' hrun hatt hb hinv
    obtain ⟨h1, h2, h3⟩ :=
      generate_loop_spawn_mono_2d rng n fuel st curr steps bcolls count spawned i st' i'
        hrun hatt hb hinv
    exact ⟨h1, h3⟩
  · intro rng n fuel st curr steps bcolls count spawned i st' i' hrun hatt hb hinv
    obtain ⟨h1, h2, h3⟩ :=
      generate_loop_spawn_mono_3d rng n fuel st curr steps bcolls count spawned i st' i'
        hrun hatt hb hinv
    exact ⟨h1, h3⟩
  · intro s lt att n curr0 fuel rng i st' i' hatt hrun
    rw [aggregate_2d_generate] at hrun
    obtain ⟨-, -, -, -, e5, e6, e7, -, -, e10, -, -⟩ :=
      init_attractor_scalars_2d (aggregate_2d_init s lt att) n
    obtain ⟨h1, h2, h3⟩ :=
      generate_loop_spawn_mono_2d rng n fuel _ curr0 0 0 0 false i st' i' hrun
        (by rw [e10]; exact hatt)
        (by rw [e6, e7]; exact le_refl 6)
        (by rw [e10, e6, e7, e5]
            intro _
            show (6 : ℕ) = 2 * Nat.sqrt (0 * 0 + 0 * 0) + 6
            norm_num)
    rw [e7] at h1
    rw [e6] at h2
    exact ⟨by calc (6 : ℕ) = (aggregate_2d_init s lt att).spawn_diam := rfl
                  _ ≤ st'.spawn_diam := h1,
           by rw [h2]; rfl, h1⟩
  · intro s lt att n curr0 fuel rng i st' i' hatt hrun
    rw [aggregate_3d_generate] at hrun
    obtain ⟨-, -, -, -, e5, e6, e7, -, -, e10, -, -⟩ :=
      init_attractor_scalars_3d (aggregate_3d_init s lt att) n
    obtain ⟨h1, h2, h3⟩ :=
      generate_loop_spawn_mono_3d rng n fuel _ curr0 0 0 0 false i st' i' hrun
        (by rw [e10]; exact hatt)
        (by rw [e6, e7]; exact le_refl 6)
        (by rw [e10, e6, e7, e5]
            intro _
            show (6 : ℕ) = 2 * Nat.sqrt (0 * 0 + 0 * 0 + 0 * 0) + 6
            norm_num)
    rw [e7] at h1
    rw [e6] at h2
    exact ⟨by calc (6 : ℕ) = (aggregate_3d_init s lt att).spawn_diam := rfl
                  _ ≤ st'.spawn_diam := h1,
           by rw [h2]; rfl, h1⟩

/-- C2 counterexample: on a fresh 2D LINE aggregate (spawn_diam =
b_offset = 6) a run in which the first walker sticks at (0, -1) executes
spawn_diam = prev.y + b_offset with signed prev.y = -1, storing 5: the
final spawn_diam 5 is below b_offset = 6 and below the initial
spawn_diam 6, refuting both parts of the claim for LINE. -/
theorem spawn_diam_shrinks_2d_line :
    (aggregate_2d_init 1 SQUARE LINE).spawn_diam = 6 ∧
    (aggregate_2d_init 1 SQUARE LINE).b_offset = 6 ∧
    (aggregate_2d_generate (aggregate_2d_init 1 SQUARE LINE) 1 ⟨7, 7⟩ 10 rng_c2_line 0).map
        (fun p => (p.1.spawn_diam, p.1.b_offset)) = some (5, 6) := by
  refine ⟨rfl, rfl, ?_⟩
  with_unfolding_all decide

/-- C2 witness: two concrete POINT runs (2D and 3D, stickiness 1) end
with spawn_diam >= 6 and b_offset = 6. -/
theorem spawn_diam_bounded_monotone_witness :
    6 ≤ c2w_pair.1.spawn_diam ∧ c2w_pair.1.b_offset = 6 ∧
    6 ≤ c2w3_pair.1.spawn_diam ∧ c2w3_pair.1.b_offset = 6 := by
  have hrun2 : aggregate_2d_generate (aggregate_2d_init 1 SQUARE POINT) 1 ⟨7, 7⟩ 20
      rng_c2_point 0 = some (c2w_pair.1, c2w_pair.2) := by
    show aggregate_2d_generate fix2_point 1 ⟨7, 7⟩ 20 rng_c2_point 0 = some c2w_pair
    exact (Option.some_get _).symm
  have hrun3 : aggregate_3d_generate (aggregate_3d_init 1 SQUARE POINT) 1 ⟨7, 7, 7⟩ 20
      rng_c2_point3 0 = some (c2w3_pair.1, c2w3_pair.2) := by
    show aggregate_3d_generate fix3_point 1 ⟨7, 7, 7⟩ 20 rng_c2_point3 0 = some c2w3_pair
    exact (Option.some_get _).symm
  obtain ⟨h1, h2, -⟩ := spawn_diam_bounded_monotone.2.2.1 1 SQUARE POINT 1 ⟨7, 7⟩ 20
    rng_c2_point 0 c2w_pair.1 c2w_pair.2 (Or.inl rfl) hrun2
  obtain ⟨h3, h4, -⟩ := spawn_diam_bounded_monotone.2.2.2 1 SQUARE POINT 1 ⟨7, 7, 7⟩ 20
    rng_c2_point3 0 c2w3_pair.1 c2w3_pair.2 (Or.inl rfl) hrun3
  exact ⟨h1, h2, h3, h4⟩

lemma init_attractor_lists_2d (st : aggregate_2d) (n : ℕ) :
    ∃ pts, (aggregate_2d_init_attractor st n)._aggregate = st._aggregate ++ pts ∧
      (aggregate_2d_init_attractor st n)._attractor = st._attractor ++ pts := by
  unfold aggregate_2d_init_attractor
  cases hatt : st.att
  · exact ⟨[⟨0, 0⟩], rfl, rfl⟩
  · exact ⟨circle_seed st.att_size, rfl, rfl⟩
  · exact ⟨[], by simp, by simp⟩
  · exact ⟨(List.range st.att_size).map
      (fun i => (⟨(i : ℤ) - (st.att_size / 2 : ℕ), 0⟩ : int_pair)), rfl, rfl⟩
  · exact ⟨[], by simp, by simp⟩

lemma init_attractor_lists_3d (st : aggregate_3d) (n : ℕ) :
    ∃ pts, (aggregate_3d_init_attractor st n)._aggregate = st._aggregate ++ pts ∧
      (aggregate_3d_init_attractor st n)._attractor = st._attractor ++ pts := by
  unfold aggregate_3d_init_attractor
  cases hatt : st.att
  · exact ⟨[⟨0, 0, 0⟩], rfl, rfl⟩
  · exact ⟨(circle_seed st.att_size).map (fun p => (⟨p.x, p.y, 0⟩ : int_triplet)), rfl, rfl⟩
  · exact ⟨sphere_seed st.att_size, rfl, rfl⟩
  · exact ⟨(List.range st.att_size).map
      (fun i => (⟨(i : ℤ) - (st.att_size / 2 : ℕ), 0, 0⟩ : int_triplet)), rfl, rfl⟩
  · exact ⟨(List.range st.att_size).flatMap
      (fun i => (List.range st.att_size).map
        (fun j => (⟨(i : ℤ) - (st.att_size / 2 : ℕ),
                    (j : ℤ) - (st.att_size / 2 : ℕ), 0⟩ : int_triplet))), rfl, rfl⟩

lemma generate_loop_len_2d (rng : ℕ → ℚ) (n fuel : ℕ) (st : aggregate_2d)
    (curr : int_pair) (steps bcolls count : ℕ) (spawned : Bool) (i : ℕ)
    (st' : aggregate_2d) (i' : ℕ)
    (hrun : aggregate_2d_generate_loop rng n fuel st curr steps bcolls count spawned i =
      some (st', i'))
    (hlen : st._aggregate.length = st._attractor.length + st._rsteps.length ∧
      st._rsteps.length = st._bcolls.length) :
    st'._aggregate.length = st'._attractor.length + st'._rsteps.length ∧
    st'._rsteps.length = st'._bcolls.length := by
  refine (generate_loop_preserves_2d rng n
    (fun s => s._aggregate.length = s._attractor.length + s._rsteps.length ∧
      s._rsteps.length = s._bcolls.length)
    (fun _ _ => True) (fun _ _ => trivial) (fun _ _ _ _ _ => trivial)
    ?_ fuel st curr steps bcolls count spawned i st' i' hrun hlen).1
  intro s prev a b hP
  refine ⟨⟨?_, ?_⟩, trivial⟩
  · show ((aggregate_2d_on_hit s prev)._aggregate).length =
      ((aggregate_2d_on_hit s prev)._attractor).length +
      ((aggregate_2d_on_hit s prev)._rsteps ++ [a]).length
    obtain ⟨-, -, -, -, -, hat, hrs, -⟩ := on_hit_const_fields_2d s prev
    rw [aggregate_2d_on_hit_aggregate, hat, hrs]
    simp
    omega
  · show ((aggregate_2d_on_hit s prev)._rsteps ++ [a]).length =
      ((aggregate_2d_on_hit s prev)._bcolls ++ [b]).length
    obtain ⟨-, -, -, -, -, -, hrs, hbc⟩ := on_hit_const_fields_2d s prev
    rw [hrs, hbc]
    simp
    omega

lemma generate_loop_len_3d (rng : ℕ → ℚ) (n fuel : ℕ) (st : aggregate_3d)
    (curr : int_triplet) (steps bcolls count : ℕ) (spawned : Bool) (i : ℕ)
    (st' : aggregate_3d) (i' : ℕ)
    (hrun : aggregate_3d_generate_loop rng n fuel st curr steps bcolls count spawned i =
      some (st', i'))
    (hlen : st._aggregate.length = st._attractor.length + st._rsteps.length ∧
      st._rsteps.length = st._bcolls.length) :
    st'._aggregate.length = st'._attractor.length + st'._rsteps.length ∧
    st'._rsteps.length = st'._bcolls.length := by
  refine (generate_loop_preserves_3d rng n
    (fun s => s._aggregate.length = s._attractor.length + s._rsteps.length ∧
      s._rsteps.length = s._bcolls.length)
    (fun _ _ => True) (fun _ _ => trivial) (fun _ _ _ _ _ => trivial)
    ?_ fuel st curr steps bcolls count spawned i st' i' hrun hlen).1
  intro s prev a b hP
  refine ⟨⟨?_, ?_⟩, trivial⟩
  · show ((aggregate_3d_on_hit s prev)._aggregate).length =
      ((aggregate_3d_on_hit s prev)._attractor).length +
      ((aggregate_3d_on_hit s prev)._rsteps ++ [a]).length
    obtain ⟨-, -, -, -, -, hat, hrs, -⟩ := on_hit_const_fields_3d s prev
    rw [aggregate_3d_on_hit_aggregate, hat, hrs]
    simp
    omega
  · show ((aggregate_3d_on_hit s prev)._rsteps ++ [a]).length =
      ((aggregate_3d_on_hit s prev)._bcolls ++ [b]).length
    obtain ⟨-, -, -, -, -, -, hrs, hbc⟩ := on_hit_const_fields_3d s prev
    rw [hrs, hbc]
    simp
    omega

/-- C6: at every quiescent point of a run (any completed segment of the
walk loop started at a length-coherent state, and in particular at the
state returned by a successful generate from a fresh init), the stuck
sequence is exactly one entry longer than the seed for each recorded
statistic: |stuck| = |seed| + |required_steps| and
|required_steps| = |boundary_collisions|. -/
theorem length_coherence :
    (∀ (rng : ℕ → ℚ) (n fuel : ℕ) (st : aggregate_2d) (curr : int_pair)
       (steps bcolls count : ℕ) (spawned : Bool) (i : ℕ)
       (st' : aggregate_2d) (i' : ℕ),
      aggregate_2d_generate_loop rng n fuel st curr steps bcolls count spawned i =
        some (st', i') →
      st._aggregate.length = st._attractor.length + st._rsteps.length →
      st._rsteps.length = st._bcolls.length →
      st'._aggregate.length = st'._attractor.length + st'._rsteps.length ∧
      st'._rsteps.length = st'._bcolls.length) ∧
    (∀ (rng : ℕ → ℚ) (n fuel : ℕ) (st : aggregate_3d) (curr : int_triplet)
       (steps bcolls count : ℕ) (spawned : Bool) (i : ℕ)
       (st' : aggregate_3d) (i' : ℕ),
      aggregate_3d_generate_loop rng n fuel st curr steps bcolls count spawned i =
        some (st', i') →
      st._aggregate.length = st._attractor.length + st._rsteps.length →
      st._rsteps.length = st._bcolls.length →
      st'._aggregate.length = st'._attractor.length + st'._rsteps.length ∧
      st'._rsteps.length = st'._bcolls.length) ∧
    (∀ (s : ℚ) (lt : lattice_type) (att : attractor_type) (n : ℕ) (curr0 : int_pair)
       (fuel : ℕ) (rng : ℕ → ℚ) (i : ℕ) (st' : aggregate_2d) (i' : ℕ),
      aggregate_2d_generate (aggregate_2d_init s lt att) n curr0 fuel rng i =
        some (st', i') →
      st'._aggregate.length = st'._attractor.length + st'._rsteps.length ∧
      st'._rsteps.length = st'._bcolls.length) ∧
    (∀ (s : ℚ) (lt : lattice_type) (att : attractor_type) (n : ℕ) (curr0 : int_triplet)
       (fuel : ℕ) (rng : ℕ → ℚ) (i : ℕ) (st' : aggregate_3d) (i' : ℕ),
      aggregate_3d_generate (aggregate_3d_init s lt att) n curr0 fuel rng i =
        some (st', i') →
      st'._aggregate.length = st'._attractor.length + st'._rsteps.length ∧
      st'._rsteps.length = st'._bcolls.length) := by
  refine ⟨?_, ?_, ?_, ?_⟩
  · intro rng n fuel st curr steps bcolls count spawned i st' i' hrun h1 h2
    exact generate_loop_len_2d rng n fuel st curr steps bcolls count spawned i st' i'
      hrun ⟨h1, h2⟩
  · intro rng n fuel st curr steps bcolls count spawned i st' i' hrun h1 h2
    exact generate_loop_len_3d rng n fuel st curr steps bcolls count spawned i st' i'
      hrun ⟨h1, h2⟩
  · intro s lt att n curr0 fuel rng i st' i' hrun
    rw [aggregate_2d_generate] at hrun
    obtain ⟨pts, e1, e2⟩ := init_attractor_lists_2d (aggregate_2d_init s lt att) n
    obtain ⟨-, -, -, -, -, -, -, -, -, -, er, eb⟩ :=
      init_attractor_scalars_2d (aggregate_2d_init s lt att) n
    refine generate_loop_len_2d rng n fuel _ curr0 0 0 0 false i st' i' hrun ⟨?_, ?_⟩
    · rw [e1, e2, er]
      show ([] ++ pts : List int_pair).length = ([] ++ pts : List int_pair).length +
        ([] : List ℕ).length
      simp
    · rw [er, eb]; rfl
  · intro s lt att n curr0 fuel rng i st' i' hrun
    rw [aggregate_3d_generate] at hrun
    obtain ⟨pts, e1, e2⟩ := init_attractor_lists_3d (aggregate_3d_init s lt att) n
    obtain ⟨-, -, -, -, -, -, -, -, -, -, er, eb⟩ :=
      init_attractor_scalars_3d (aggregate_3d_init s lt att) n
    refine generate_loop_len_3d rng n fuel _ curr0 0 0 0 false i st' i' hrun ⟨?_, ?_⟩
    · rw [e1, e2, er]
      show ([] ++ pts : List int_triplet).length = ([] ++ pts : List int_triplet).length +
        ([] : List ℕ).length
      simp
    · rw [er, eb]; rfl

/-- C6 witness: the concrete POINT runs of the C2 witness satisfy the
length coherence equalities at their final states. -/
theorem length_coherence_witness :
    c2w_pair.1._aggregate.length =
      c2w_pair.1._attractor.length + c2w_pair.1._rsteps.length ∧
    c2w_pair.1._rsteps.length = c2w_pair.1._bcolls.length ∧
    c2w3_pair.1._aggregate.length =
      c2w3_pair.1._attractor.length + c2w3_pair.1._rsteps.length ∧
    c2w3_pair.1._rsteps.length = c2w3_pair.1._bcolls.length := by
  have hrun2 : aggregate_2d_generate (aggregate_2d_init 1 SQUARE POINT) 1 ⟨7, 7⟩ 20
      rng_c2_point 0 = some (c2w_pair.1, c2w_pair.2) := by
    show aggregate_2d_generate fix2_point 1 ⟨7, 7⟩ 20 rng_c2_point 0 = some c2w_pair
    exact (Option.some_get _).symm
  have hrun3 : aggregate_3d_generate (aggregate_3d_init 1 SQUARE POINT) 1 ⟨7, 7, 7⟩ 20
      rng_c2_point3 0 = some (c2w3_pair.1, c2w3_pair.2) := by
    show aggregate_3d_generate fix3_point 1 ⟨7, 7, 7⟩ 20 rng_c2_point3 0 = some c2w3_pair
    exact (Option.some_get _).symm
  obtain ⟨h1, h2⟩ := length_coherence.2.2.1 1 SQUARE POINT 1 ⟨7, 7⟩ 20 rng_c2_point 0
    c2w_pair.1 c2w_pair.2 hrun2
  obtain ⟨h3, h4⟩ := length_coherence.2.2.2 1 SQUARE POINT 1 ⟨7, 7, 7⟩ 20 rng_c2_point3 0
    c2w3_pair.1 c2w3_pair.2 hrun3
  exact ⟨h1, h2, h3, h4⟩

lemma ctruncR_one : ctruncR 1 = 1 := by
  rw [ctruncR, if_pos (by norm_num)]
  exact Int.floor_one

lemma ctruncR_zero_of (x : ℝ) (h1 : -1 < x) (h2 : x < 1) : ctruncR x = 0 := by
  rw [ctruncR]
  split_ifs with h
  · exact Int.floor_eq_zero_iff.mpr ⟨h, h2⟩
  · rw [Int.ceil_eq_zero_iff]
    constructor
    · linarith
    · linarith [not_le.mp h]

lemma abs_cos_lt_one (x : ℝ) (h : Real.sin x ≠ 0) : |Real.cos x| < 1 := by
  have hs := Real.sin_sq_add_cos_sq x
  have hp := pow_two_pos_of_ne_zero h
  have : Real.cos x ^ 2 < 1 := by nlinarith
  exact (sq_lt_one_iff_abs_lt_one (Real.cos x)).mp this

lemma abs_sin_lt_one (x : ℝ) (h : Real.cos x ≠ 0) : |Real.sin x| < 1 := by
  have hs := Real.sin_sq_add_cos_sq x
  have hp := pow_two_pos_of_ne_zero h
  have : Real.sin x ^ 2 < 1 := by nlinarith
  exact (sq_lt_one_iff_abs_lt_one (Real.sin x)).mp this

lemma sin_int_ne_zero :
    Real.sin 1 ≠ 0 ∧ Real.sin 2 ≠ 0 ∧ Real.sin 3 ≠ 0 ∧ Real.sin 4 ≠ 0 ∧
    Real.sin 5 ≠ 0 ∧ Real.sin 6 ≠ 0 ∧ Real.sin 7 ≠ 0 := by
  have hp1 := Real.pi_gt_d2
  have hp2 := Real.pi_lt_d2
  have s1 : (0:ℝ) < Real.sin 1 := Real.sin_pos_of_pos_of_lt_pi (by norm_num) (by linarith)
  have s2 : (0:ℝ) < Real.sin 2 := Real.sin_pos_of_pos_of_lt_pi (by norm_num) (by linarith)
  have s3 : (0:ℝ) < Real.sin 3 := Real.sin_pos_of_pos_of_lt_pi (by norm_num) (by linarith)
  have s4 : Real.sin 4 < 0 := by
    have h4 : (4:ℝ) = (4 - Real.pi) + Real.pi := by ring
    rw [h4, Real.sin_add_pi]
    have : (0:ℝ) < Real.sin (4 - Real.pi) :=
      Real.sin_pos_of_pos_of_lt_pi (by linarith) (by linarith)
    linarith
  have s5 : Real.sin 5 < 0 := by
    have h5 : (5:ℝ) = (5 - Real.pi) + Real.pi := by ring
    rw [h5, Real.sin_add_pi]
    have : (0:ℝ) < Real.sin (5 - Real.pi) :=
      Real.sin_pos_of_pos_of_lt_pi (by linarith) (by linarith)
    linarith
  have s6 : Real.sin 6 < 0 := by
    have h6 : (6:ℝ) = (6 - Real.pi) + Real.pi := by ring
    rw [h6, Real.sin_add_pi]
    have : (0:ℝ) < Real.sin (6 - Real.pi) :=
      Real.sin_pos_of_pos_of_lt_pi (by linarith) (by linarith)
    linarith
  have s7 : (0:ℝ) < Real.sin 7 := by
    have h7 : (7:ℝ) = (7 - 2 * Real.pi) + 2 * Real.pi := by ring
    rw [h7, Real.sin_add_two_pi]
    exact Real.sin_pos_of_pos_of_lt_pi (by linarith) (by linarith)
  exact ⟨ne_of_gt s1, ne_of_gt s2, ne_of_gt s3, ne_of_lt s4, ne_of_lt s5,
    ne_of_lt s6, ne_of_gt s7⟩

lemma cos_int_ne_zero :
    Real.cos 1 ≠ 0 ∧ Real.cos 2 ≠ 0 ∧ Real.cos 3 ≠ 0 ∧ Real.cos 4 ≠ 0 ∧
    Real.cos 5 ≠ 0 ∧ Real.cos 6 ≠ 0 ∧ Real.cos 7 ≠ 0 := by
  have hp1 := Real.pi_gt_d2
  have hp2 := Real.pi_lt_d2
  have c1 : (0:ℝ) < Real.cos 1 :=
    Real.cos_pos_of_mem_Ioo ⟨by linarith, by linarith⟩
  have c2 : Real.cos 2 < 0 :=
    Real.cos_neg_of_pi_div_two_lt_of_lt (by linarith) (by linarith)
  have c3 : Real.cos 3 < 0 :=
    Real.cos_neg_of_pi_div_two_lt_of_lt (by linarith) (by linarith)
  have c4 : Real.cos 4 < 0 :=
    Real.cos_neg_of_pi_div_two_lt_of_lt (by linarith) (by linarith)
  have c5 : (0:ℝ) < Real.cos 5 := by
    have h5 : (5:ℝ) = (5 - 2 * Real.pi) + 2 * Real.pi := by ring
    rw [h5, Real.cos_add_two_pi]
    exact Real.cos_pos_of_mem_Ioo ⟨by linarith, by linarith⟩
  have c6 : (0:ℝ) < Real.cos 6 := by
    have h6 : (6:ℝ) = (6 - 2 * Real.pi) + 2 * Real.pi := by ring
    rw [h6, Real.cos_add_two_pi]
    exact Real.cos_pos_of_mem_Ioo ⟨by linarith, by linarith⟩
  have c7 : (0:ℝ) < Real.cos 7 := by
    have h7 : (7:ℝ) = (7 - 2 * Real.pi) + 2 * Real.pi := by ring
    rw [h7, Real.cos_add_two_pi]
    exact Real.cos_pos_of_mem_Ioo ⟨by linarith, by linarith⟩
  exact ⟨ne_of_gt c1, ne_of_lt c2, ne_of_lt c3, ne_of_lt c4, ne_of_gt c5,
    ne_of_gt c6, ne_of_gt c7⟩

lemma circle_seed_aux_cons (f : ℕ) (θ : ℝ) (h : θ < 2 * Real.pi + 1) :
    circle_seed_aux 1 1 (f + 1) θ =
      ⟨ctruncR (((1:ℕ) : ℝ) * Real.cos θ), ctruncR (((1:ℕ) : ℝ) * Real.sin θ)⟩ ::
        circle_seed_aux 1 1 f (θ + 1) := by
  rw [circle_seed_aux, if_pos h]

lemma circle_seed_entry_zero (θ : ℝ) (hs : Real.sin θ ≠ 0) (hc : Real.cos θ ≠ 0) :
    (⟨ctruncR (((1:ℕ) : ℝ) * Real.cos θ), ctruncR (((1:ℕ) : ℝ) * Real.sin θ)⟩ :
      int_pair) = ⟨0, 0⟩ := by
  have h1 := abs_lt.mp (abs_cos_lt_one θ hs)
  have h2 := abs_lt.mp (abs_sin_lt_one θ hc)
  have e : ((1:ℕ) : ℝ) = 1 := by norm_num
  rw [e, one_mul, one_mul, ctruncR_zero_of _ h1.1 h1.2, ctruncR_zero_of _ h2.1 h2.2]

lemma circle_seed_one :
    circle_seed 1 =
      [⟨1, 0⟩, ⟨0, 0⟩, ⟨0, 0⟩, ⟨0, 0⟩, ⟨0, 0⟩, ⟨0, 0⟩, ⟨0, 0⟩, ⟨0, 0⟩] := by
  have hp1 := Real.pi_gt_d2
  have hp2 := Real.pi_lt_d2
  obtain ⟨s1, s2, s3, s4, s5, s6, s7⟩ := sin_int_ne_zero
  obtain ⟨c1, c2, c3, c4, c5, c6, c7⟩ := cos_int_ne_zero
  have hstep : (1 : ℝ) / ((1:ℕ) : ℝ) = 1 := by norm_num
  rw [circle_seed, hstep]
  rw [show (7 * 1 + 2 : ℕ) = 9 from rfl]
  rw [circle_seed_aux_cons 8 0 (by linarith),
      show (0:ℝ) + 1 = 1 from by norm_num,
      circle_seed_aux_cons 7 1 (by linarith),
      show (1:ℝ) + 1 = 2 from by norm_num,
      circle_seed_aux_cons 6 2 (by linarith),
      show (2:ℝ) + 1 = 3 from by norm_num,
      circle_seed_aux_cons 5 3 (by linarith),
      show (3:ℝ) + 1 = 4 from by norm_num,
      circle_seed_aux_cons 4 4 (by linarith),
      show (4:ℝ) + 1 = 5 from by norm_num,
      circle_seed_aux_cons 3 5 (by linarith),
      show (5:ℝ) + 1 = 6 from by norm_num,
      circle_seed_aux_cons 2 6 (by linarith),
      show (6:ℝ) + 1 = 7 from by norm_num,
      circle_seed_aux_cons 1 7 (by linarith),
      show (7:ℝ) + 1 = 8 from by norm_num]
  rw [circle_seed_aux, if_neg (by push_neg; linarith)]
  rw [circle_seed_entry_zero 1 s1 c1, circle_seed_entry_zero 2 s2 c2,
      circle_seed_entry_zero 3 s3 c3, circle_seed_entry_zero 4 s4 c4,
      circle_seed_entry_zero 5 s5 c5, circle_seed_entry_zero 6 s6 c6,
      circle_seed_entry_zero 7 s7 c7]
  have e0 : (⟨ctruncR (((1:ℕ) : ℝ) * Real.cos 0), ctruncR (((1:ℕ) : ℝ) * Real.sin 0)⟩ :
      int_pair) = ⟨1, 0⟩ := by
    rw [Real.cos_zero, Real.sin_zero]
    have e : ((1:ℕ) : ℝ) = 1 := by norm_num
    rw [e, one_mul, mul_zero, ctruncR_one, ctruncR_zero_of 0 (by norm_num) (by norm_num)]
  rw [e0]

/-- C5 counterexample: after seeding a 2D CIRCLE aggregate (a quiescent
point of any run, here the n = 0 run), the stuck sequence starts with the
seed point (1, 0) computed from theta = 0 (cos 0 = 1), while the
attractor initialiser never updates the extent metrics: max_x is still 0,
so max_x >= |x| fails on the seed prefix. -/
theorem max_bounds_miss_circle_seed :
    aggregate_2d_generate (aggregate_2d_init 1 SQUARE CIRCLE) 0 ⟨7, 7⟩ 0 (fun _ => 0) 0 =
      some (aggregate_2d_init_attractor (aggregate_2d_init 1 SQUARE CIRCLE) 0, 0) ∧
    (⟨1, 0⟩ : int_pair) ∈
      (aggregate_2d_init_attractor (aggregate_2d_init 1 SQUARE CIRCLE) 0)._aggregate ∧
    (aggregate_2d_init_attractor (aggregate_2d_init 1 SQUARE CIRCLE) 0).max_x = 0 ∧
    ¬ ((⟨1, 0⟩ : int_pair).x.natAbs ≤
        (aggregate_2d_init_attractor (aggregate_2d_init 1 SQUARE CIRCLE) 0).max_x) := by
  have hagg : (aggregate_2d_init_attractor (aggregate_2d_init 1 SQUARE CIRCLE) 0)._aggregate =
      circle_seed 1 := rfl
  have hmx : (aggregate_2d_init_attractor (aggregate_2d_init 1 SQUARE CIRCLE) 0).max_x = 0 :=
    rfl
  refine ⟨rfl, ?_, hmx, ?_⟩
  · rw [hagg, circle_seed_one]; simp
  · rw [hmx]; decide

lemma on_hit_bounds_2d (st : aggregate_2d) (prev : int_pair) :
    st.max_x ≤ (aggregate_2d_on_hit st prev).max_x ∧
    st.max_y ≤ (aggregate_2d_on_hit st prev).max_y ∧
    prev.x.natAbs ≤ (aggregate_2d_on_hit st prev).max_x ∧
    prev.y.natAbs ≤ (aggregate_2d_on_hit st prev).max_y ∧
    st.max_r_sqd ≤ (aggregate_2d_on_hit st prev).max_r_sqd ∧
    (st.att = POINT →
      (prev.x * prev.x + prev.y * prev.y).toNat ≤
        (aggregate_2d_on_hit st prev).max_r_sqd) := by
  simp only [aggregate_2d_on_hit]
  split_ifs <;> simp_all <;>
    (rename_i hgrow
     generalize hq : prev.x * prev.x + prev.y * prev.y = q at hgrow ⊢
     omega)

lemma on_hit_bounds_3d (st : aggregate_3d) (prev : int_triplet) :
    st.max_x ≤ (aggregate_3d_on_hit st prev).max_x ∧
    st.max_y ≤ (aggregate_3d_on_hit st prev).max_y ∧
    st.max_z ≤ (aggregate_3d_on_hit st prev).max_z ∧
    prev.x.natAbs ≤ (aggregate_3d_on_hit st prev).max_x ∧
    prev.y.natAbs ≤ (aggregate_3d_on_hit st prev).max_y ∧
    prev.z.natAbs ≤ (aggregate_3d_on_hit st prev).max_z ∧
    st.max_r_sqd ≤ (aggregate_3d_on_hit st prev).max_r_sqd ∧
    (st.att = POINT →
      (prev.x * prev.x + prev.y * prev.y + prev.z * prev.z).toNat ≤
        (aggregate_3d_on_hit st prev).max_r_sqd) := by
  simp only [aggregate_3d_on_hit]
  split_ifs <;> simp_all <;>
    (rename_i hgrow
     generalize hq : prev.x * prev.x + prev.y * prev.y + prev.z * prev.z = q at hgrow ⊢
     omega)

lemma generate_loop_bounds_2d (rng : ℕ → ℚ) (n fuel : ℕ) (st : aggregate_2d)
    (curr : int_pair) (steps bcolls count : ℕ) (spawned : Bool) (i : ℕ)
    (st' : aggregate_2d) (i' : ℕ)
    (hrun : aggregate_2d_generate_loop rng n fuel st curr steps bcolls count spawned i =
      some (st', i'))
    (hb : ∀ p ∈ st._aggregate, p.x.natAbs ≤ st.max_x ∧ p.y.natAbs ≤ st.max_y)
    (hr : st.att = POINT →
      ∀ p ∈ st._aggregate, (p.x * p.x + p.y * p.y).toNat ≤ st.max_r_sqd) :
    (∀ p ∈ st'._aggregate, p.x.natAbs ≤ st'.max_x ∧ p.y.natAbs ≤ st'.max_y) ∧
    (st'.att = POINT →
      ∀ p ∈ st'._aggregate, (p.x * p.x + p.y * p.y).toNat ≤ st'.max_r_sqd) := by
  exact (generate_loop_preserves_2d rng n
    (fun s => (∀ p ∈ s._aggregate, p.x.natAbs ≤ s.max_x ∧ p.y.natAbs ≤ s.max_y) ∧
      (s.att = POINT → ∀ p ∈ s._aggregate, (p.x * p.x + p.y * p.y).toNat ≤ s.max_r_sqd))
    (fun _ _ => True) (fun _ _ => trivial) (fun _ _ _ _ _ => trivial)
    (fun s prev a b hP => by
      obtain ⟨hx, hy, hpx, hpy, hmr, hmp⟩ := on_hit_bounds_2d s prev
      obtain ⟨hA, -, -, -, -, -, -, -⟩ := on_hit_const_fields_2d s prev
      refine ⟨⟨?_, ?_⟩, trivial⟩
      · show ∀ p ∈ (aggregate_2d_on_hit s prev)._aggregate,
          p.x.natAbs ≤ (aggregate_2d_on_hit s prev).max_x ∧
          p.y.natAbs ≤ (aggregate_2d_on_hit s prev).max_y
        rw [aggregate_2d_on_hit_aggregate]
        intro p hp
        rcases List.mem_append.mp hp with hp | hp
        · obtain ⟨h1, h2⟩ := hP.1 p hp
          exact ⟨le_trans h1 hx, le_trans h2 hy⟩
        · rw [List.mem_singleton.mp hp]
          exact ⟨hpx, hpy⟩
      · show (aggregate_2d_on_hit s prev).att = POINT →
          ∀ p ∈ (aggregate_2d_on_hit s prev)._aggregate,
            (p.x * p.x + p.y * p.y).toNat ≤ (aggregate_2d_on_hit s prev).max_r_sqd
        rw [aggregate_2d_on_hit_aggregate, hA]
        intro hpt p hp
        rcases List.mem_append.mp hp with hp | hp
        · exact le_trans (hP.2 hpt p hp) hmr
        · rw [List.mem_singleton.mp hp]
          exact hmp hpt)
    fuel st curr steps bcolls count spawned i st' i' hrun ⟨hb, hr⟩).1

lemma generate_loop_bounds_3d (rng : ℕ → ℚ) (n fuel : ℕ) (st : aggregate_3d)
    (curr : int_triplet) (steps bcolls count : ℕ) (spawned : Bool) (i : ℕ)
    (st' : aggregate_3d) (i' : ℕ)
    (hrun : aggregate_3d_generate_loop rng n fuel st curr steps bcolls count spawned i =
      some (st', i'))
    (hb : ∀ p ∈ st._aggregate, p.x.natAbs ≤ st.max_x ∧ p.y.natAbs ≤ st.max_y ∧
      p.z.natAbs ≤ st.max_z)
    (hr : st.att = POINT →
      ∀ p ∈ st._aggregate, (p.x * p.x + p.y * p.y + p.z * p.z).toNat ≤ st.max_r_sqd) :
    (∀ p ∈ st'._aggregate, p.x.natAbs ≤ st'.max_x ∧ p.y.natAbs ≤ st'.max_y ∧
      p.z.natAbs ≤ st'.max_z) ∧
    (st'.att = POINT →
      ∀ p ∈ st'._aggregate,
        (p.x * p.x + p.y * p.y + p.z * p.z).toNat ≤ st'.max_r_sqd) := by
  exact (generate_loop_preserves_3d rng n
    (fun s => (∀ p ∈ s._aggregate, p.x.natAbs ≤ s.max_x ∧ p.y.natAbs ≤ s.max_y ∧
        p.z.natAbs ≤ s.max_z) ∧
      (s.att = POINT → ∀ p ∈ s._aggregate,
        (p.x * p.x + p.y * p.y + p.z * p.z).toNat ≤ s.max_r_sqd))
    (fun _ _ => True) (fun _ _ => trivial) (fun _ _ _ _ _ => trivial)
    (fun s prev a b hP => by
      obtain ⟨hx, hy, hz, hpx, hpy, hpz, hmr, hmp⟩ := on_hit_bounds_3d s prev
      obtain ⟨hA, -, -, -, -, -, -, -⟩ := on_hit_const_fields_3d s prev
      refine ⟨⟨?_, ?_⟩, trivial⟩
      · show ∀ p ∈ (aggregate_3d_on_hit s prev)._aggregate,
          p.x.natAbs ≤ (aggregate_3d_on_hit s prev).max_x ∧
          p.y.natAbs ≤ (aggregate_3d_on_hit s prev).max_y ∧
          p.z.natAbs ≤ (aggregate_3d_on_hit s prev).max_z
        rw [aggregate_3d_on_hit_aggregate]
        intro p hp
        rcases List.mem_append.mp hp with hp | hp
        · obtain ⟨h1, h2, h3⟩ := hP.1 p hp
          exact ⟨le_trans h1 hx, le_trans h2 hy, le_trans h3 hz⟩
        · rw [List.mem_singleton.mp hp]
          exact ⟨hpx, hpy, hpz⟩
      · show (aggregate_3d_on_hit s prev).att = POINT →
          ∀ p ∈ (aggregate_3d_on_hit s prev)._aggregate,
            (p.x * p.x + p.y * p.y + p.z * p.z).toNat ≤
              (aggregate_3d_on_hit s prev).max_r_sqd
        rw [aggregate_3d_on_hit_aggregate, hA]
        intro hpt p hp
        rcases List.mem_append.mp hp with hp | hp
        · exact le_trans (hP.2 hpt p hp) hmr
        · rw [List.mem_singleton.mp hp]
          exact hmp hpt)
    fuel st curr steps bcolls count spawned i st' i' hrun ⟨hb, hr⟩).1

/-- C5 (amended): for POINT, LINE and PLANE attractors (whose seeds sit
at the origin for the fixed att_size = 1, and whose metrics the stick
updates maintain), at every quiescent point max_x >= |x| and
max_y >= |y| (and max_z >= |z| in 3D) for every stuck position, and for
POINT attractors max_r_sqd bounds every stuck squared radius.  The
original claim also covered CIRCLE and SPHERE, whose seed points are
pushed without updating the extent metrics (see the counterexample). -/
theorem extent_metrics_bound :
    (∀ (rng : ℕ → ℚ) (n fuel : ℕ) (st : aggregate_2d) (curr : int_pair)
       (steps bcolls count : ℕ) (spawned : Bool) (i : ℕ)
       (st' : aggregate_2d) (i' : ℕ),
      aggregate_2d_generate_loop rng n fuel st curr steps bcolls count spawned i =
        some (st', i') →
      (∀ p ∈ st._aggregate, p.x.natAbs ≤ st.max_x ∧ p.y.natAbs ≤ st.max_y) →
      (st.att = POINT →
        ∀ p ∈ st._aggregate, (p.x * p.x + p.y * p.y).toNat ≤ st.max_r_sqd) →
      (∀ p ∈ st'._aggregate, p.x.natAbs ≤ st'.max_x ∧ p.y.natAbs ≤ st'.max_y) ∧
      (st'.att = POINT →
        ∀ p ∈ st'._aggregate, (p.x * p.x + p.y * p.y).toNat ≤ st'.max_r_sqd)) ∧
    (∀ (rng : ℕ → ℚ) (n fuel : ℕ) (st : aggregate_3d) (curr : int_triplet)
       (steps bcolls count : ℕ) (spawned : Bool) (i : ℕ)
       (st' : aggregate_3d) (i' : ℕ),
      aggregate_3d_generate_loop rng n fuel st curr steps bcolls count spawned i =
        some (st', i') →
      (∀ p ∈ st._aggregate, p.x.natAbs ≤ st.max_x ∧ p.y.natAbs ≤ st.max_y ∧
        p.z.natAbs ≤ st.max_z) →
      (st.att = POINT →
        ∀ p ∈ st._aggregate,
          (p.x * p.x + p.y * p.y + p.z * p.z).toNat ≤ st.max_r_sqd) →
      (∀ p ∈ st'._aggregate, p.x.natAbs ≤ st'.max_x ∧ p.y.natAbs ≤ st'.max_y ∧
        p.z.natAbs ≤ st'.max_z) ∧
      (st'.att = POINT →
        ∀ p ∈ st'._aggregate,
          (p.x * p.x + p.y * p.y + p.z * p.z).toNat ≤ st'.max_r_sqd)) ∧
    (∀ (s : ℚ) (lt : lattice_type) (att : attractor_type) (n : ℕ) (curr0 : int_pair)
       (fuel : ℕ) (rng : ℕ → ℚ) (i : ℕ) (st' : aggregate_2d) (i' : ℕ),
      att = POINT ∨ att = LINE →
      aggregate_2d_generate (aggregate_2d_init s lt att) n curr0 fuel rng i =
        some (st', i') →
      (∀ p ∈ st'._aggregate, p.x.natAbs ≤ st'.max_x ∧ p.y.natAbs ≤ st'.max_y) ∧
      (st'.att = POINT →
        ∀ p ∈ st'._aggregate, (p.x * p.x + p.y * p.y).toNat ≤ st'.max_r_sqd)) ∧
    (∀ (s : ℚ) (lt : lattice_type) (att : attractor_type) (n : ℕ) (curr0 : int_triplet)
       (fuel : ℕ) (rng : ℕ → ℚ) (i : ℕ) (st' : aggregate_3d) (i' : ℕ),
      att = POINT ∨ att = LINE ∨ att = PLANE →
      aggregate_3d_generate (aggregate_3d_init s lt att) n curr0 fuel rng i =
        some (st', i') →
      (∀ p ∈ st'._aggregate, p.x.natAbs ≤ st'.max_x ∧ p.y.natAbs ≤ st'.max_y ∧
        p.z.natAbs ≤ st'.max_z) ∧
      (st'.att = POINT →
        ∀ p ∈ st'._aggregate,
          (p.x * p.x + p.y * p.y + p.z * p.z).toNat ≤ st'.max_r_sqd)) := by
  refine ⟨?_, ?_, ?_, ?_⟩
  · intro rng n fuel st curr steps bcolls count spawned i st' i' hrun hb hr
    exact generate_loop_bounds_2d rng n fuel st curr steps bcolls count spawned i st' i'
      hrun hb hr
  · intro rng n fuel st curr steps bcolls count spawned i st' i' hrun hb hr
    exact generate_loop_bounds_3d rng n fuel st curr steps bcolls count spawned i st' i'
      hrun hb hr
  · intro s lt att n curr0 fuel rng i st' i' hatt hrun
    rw [aggregate_2d_generate] at hrun
    rcases hatt with rfl | rfl
    · refine generate_loop_bounds_2d rng n fuel _ curr0 0 0 0 false i st' i' hrun ?_ ?_
      · have he : (aggregate_2d_init_attractor (aggregate_2d_init s lt POINT) n)._aggregate =
            [⟨0, 0⟩] := rfl
        rw [he]
        intro p hp
        rw [List.mem_singleton.mp hp]
        exact ⟨le_refl 0, le_refl 0⟩
      · intro hpt
        have he : (aggregate_2d_init_attractor (aggregate_2d_init s lt POINT) n)._aggregate =
            [⟨0, 0⟩] := rfl
        rw [he]
        intro p hp
        rw [List.mem_singleton.mp hp]
        exact le_refl 0
    · refine generate_loop_bounds_2d rng n fuel _ curr0 0 0 0 false i st' i' hrun ?_ ?_
      · have he : (aggregate_2d_init_attractor (aggregate_2d_init s lt LINE) n)._aggregate =
            [⟨0, 0⟩] := by with_unfolding_all rfl
        rw [he]
        intro p hp
        rw [List.mem_singleton.mp hp]
        exact ⟨le_refl 0, le_refl 0⟩
      · intro hpt
        obtain ⟨-, -, -, -, -, -, -, -, -, e10, -, -⟩ :=
          init_attractor_scalars_2d (aggregate_2d_init s lt LINE) n
        rw [e10] at hpt
        simp [aggregate_2d_init] at hpt
  · intro s lt att n curr0 fuel rng i st' i' hatt hrun
    rw [aggregate_3d_generate] at hrun
    rcases hatt with rfl | rfl | rfl
    · refine generate_loop_bounds_3d rng n fuel _ curr0 0 0 0 false i st' i' hrun ?_ ?_
      · have he : (aggregate_3d_init_attractor (aggregate_3d_init s lt POINT) n)._aggregate =
            [⟨0, 0, 0⟩] := rfl
        rw [he]
        intro p hp
        rw [List.mem_singleton.mp hp]
        exact ⟨le_refl 0, le_refl 0, le_refl 0⟩
      · intro hpt
        have he : (aggregate_3d_init_attractor (aggregate_3d_init s lt POINT) n)._aggregate =
            [⟨0, 0, 0⟩] := rfl
        rw [he]
        intro p hp
        rw [List.mem_singleton.mp hp]
        exact le_refl 0
    · refine generate_loop_bounds_3d rng n fuel _ curr0 0 0 0 false i st' i' hrun ?_ ?_
      · have he : (aggregate_3d_init_attractor (aggregate_3d_init s lt LINE) n)._aggregate =
            [⟨0, 0, 0⟩] := by with_unfolding_all rfl
        rw [he]
        intro p hp
        rw [List.mem_singleton.mp hp]
        exact ⟨le_refl 0, le_refl 0, le_refl 0⟩
      · intro hpt
        obtain ⟨-, -, -, -, -, -, -, -, -, e10, -, -⟩ :=
          init_attractor_scalars_3d (aggregate_3d_init s lt LINE) n
        rw [e10] at hpt
        simp [aggregate_3d_init] at hpt
    · refine generate_loop_bounds_3d rng n fuel _ curr0 0 0 0 false i st' i' hrun ?_ ?_
      · have he : (aggregate_3d_init_attractor (aggregate_3d_init s lt PLANE) n)._aggregate =
            [⟨0, 0, 0⟩] := by with_unfolding_all rfl
        rw [he]
        intro p hp
        rw [List.mem_singleton.mp hp]
        exact ⟨le_refl 0, le_refl 0, le_refl 0⟩
      · intro hpt
        obtain ⟨-, -, -, -, -, -, -, -, -, e10, -, -⟩ :=
          init_attractor_scalars_3d (aggregate_3d_init s lt PLANE) n
        rw [e10] at hpt
        simp [aggregate_3d_init] at hpt

/-- C5 witness: in the concrete POINT runs the stuck walker positions
(0, -1) and (0, 0, 1) are bounded by the final extent metrics. -/
theorem extent_metrics_bound_witness :
    (⟨0, -1⟩ : int_pair).x.natAbs ≤ c2w_pair.1.max_x ∧
    (⟨0, -1⟩ : int_pair).y.natAbs ≤ c2w_pair.1.max_y ∧
    (⟨0, 0, 1⟩ : int_triplet).z.natAbs ≤ c2w3_pair.1.max_z := by
  have hrun2 : aggregate_2d_generate (aggregate_2d_init 1 SQUARE POINT) 1 ⟨7, 7⟩ 20
      rng_c2_point 0 = some (c2w_pair.1, c2w_pair.2) := by
    show aggregate_2d_generate fix2_point 1 ⟨7, 7⟩ 20 rng_c2_point 0 = some c2w_pair
    exact (Option.some_get _).symm
  have hrun3 : aggregate_3d_generate (aggregate_3d_init 1 SQUARE POINT) 1 ⟨7, 7, 7⟩ 20
      rng_c2_point3 0 = some (c2w3_pair.1, c2w3_pair.2) := by
    show aggregate_3d_generate fix3_point 1 ⟨7, 7, 7⟩ 20 rng_c2_point3 0 = some c2w3_pair
    exact (Option.some_get _).symm
  obtain ⟨hb2, -⟩ := extent_metrics_bound.2.2.1 1 SQUARE POINT 1 ⟨7, 7⟩ 20
    rng_c2_point 0 c2w_pair.1 c2w_pair.2 (Or.inl rfl) hrun2
  obtain ⟨hb3, -⟩ := extent_metrics_bound.2.2.2 1 SQUARE POINT 1 ⟨7, 7, 7⟩ 20
    rng_c2_point3 0 c2w3_pair.1 c2w3_pair.2 (Or.inl rfl) hrun3
  obtain ⟨w1, w2⟩ := hb2 ⟨0, -1⟩ (by with_unfolding_all decide)
  obtain ⟨-, -, w3⟩ := hb3 ⟨0, 0, 1⟩ (by with_unfolding_all decide)
  exact ⟨w1, w2, w3⟩

-- C8: two-run determinism / PRNG prefix agreement

lemma aggregate_2d_spawn_bp_frame (st : aggregate_2d) (curr : int_pair)
    (rng1 rng2 : ℕ → ℚ) (i : ℕ)
    (h0 : rng2 i = rng1 i) (h1 : rng2 (i + 1) = rng1 (i + 1)) :
    aggregate_2d_spawn_bp st curr rng2 i = aggregate_2d_spawn_bp st curr rng1 i := by
  unfold aggregate_2d_spawn_bp
  rw [h0, h1]

lemma aggregate_3d_spawn_bp_frame (st : aggregate_3d) (curr : int_triplet)
    (rng1 rng2 : ℕ → ℚ) (i : ℕ)
    (h0 : rng2 i = rng1 i) (h1 : rng2 (i + 1) = rng1 (i + 1))
    (h2 : rng2 (i + 2) = rng1 (i + 2)) :
    aggregate_3d_spawn_bp st curr rng2 i = aggregate_3d_spawn_bp st curr rng1 i := by
  unfold aggregate_3d_spawn_bp
  rw [h0, h1, h2]

lemma aggregate_2d_update_bp_frame (st : aggregate_2d) (curr : int_pair)
    (rng1 rng2 : ℕ → ℚ) (i : ℕ) (h0 : rng2 i = rng1 i) :
    aggregate_2d_update_bp st curr rng2 i = aggregate_2d_update_bp st curr rng1 i := by
  unfold aggregate_2d_update_bp
  rw [h0]

lemma aggregate_3d_update_bp_frame (st : aggregate_3d) (curr : int_triplet)
    (rng1 rng2 : ℕ → ℚ) (i : ℕ) (h0 : rng2 i = rng1 i) :
    aggregate_3d_update_bp st curr rng2 i = aggregate_3d_update_bp st curr rng1 i := by
  unfold aggregate_3d_update_bp
  rw [h0]

lemma aggregate_2d_collision_frame (st : aggregate_2d) (curr prev : int_pair)
    (rng1 rng2 : ℕ → ℚ) (i : ℕ) (h0 : rng2 i = rng1 i) :
    aggregate_2d_collision st curr prev rng2 i =
      aggregate_2d_collision st curr prev rng1 i := by
  unfold aggregate_2d_collision
  rw [h0]

lemma aggregate_3d_collision_frame (st : aggregate_3d) (curr prev : int_triplet)
    (rng1 rng2 : ℕ → ℚ) (i : ℕ) (h0 : rng2 i = rng1 i) :
    aggregate_3d_collision st curr prev rng2 i =
      aggregate_3d_collision st curr prev rng1 i := by
  unfold aggregate_3d_collision
  rw [h0]

lemma aggregate_2d_spawn_bp_i (st : aggregate_2d) (curr : int_pair)
    (rng : ℕ → ℚ) (i : ℕ) :
    (aggregate_2d_spawn_bp st curr rng i).2 = i + 1 ∨
    (aggregate_2d_spawn_bp st curr rng i).2 = i + 2 := by
  unfold aggregate_2d_spawn_bp
  cases st.att <;> dsimp only <;> try (exact Or.inl rfl)
  · split_ifs <;> exact Or.inr rfl
  · exact Or.inr rfl

lemma aggregate_3d_spawn_bp_i (st : aggregate_3d) (curr : int_triplet)
    (rng : ℕ → ℚ) (i : ℕ) :
    (aggregate_3d_spawn_bp st curr rng i).2 = i + 1 ∨
    (aggregate_3d_spawn_bp st curr rng i).2 = i + 2 ∨
    (aggregate_3d_spawn_bp st curr rng i).2 = i + 3 := by
  unfold aggregate_3d_spawn_bp
  cases st.att <;> dsimp only
  · split_ifs <;> exact Or.inr (Or.inr rfl)
  · exact Or.inl rfl
  · exact Or.inl rfl
  · exact Or.inr (Or.inl rfl)
  · exact Or.inr (Or.inr rfl)

lemma aggregate_2d_update_bp_i (st : aggregate_2d) (curr : int_pair)
    (rng : ℕ → ℚ) (i : ℕ) :
    (aggregate_2d_update_bp st curr rng i).2 = i + 1 := by
  unfold aggregate_2d_update_bp
  cases st.lt <;> rfl

lemma aggregate_3d_update_bp_i (st : aggregate_3d) (curr : int_triplet)
    (rng : ℕ → ℚ) (i : ℕ) :
    (aggregate_3d_update_bp st curr rng i).2 = i + 1 := by
  unfold aggregate_3d_update_bp
  cases st.lt <;> rfl

lemma walk_iter_2d_i (rng : ℕ → ℚ) (st : aggregate_2d) (curr : int_pair)
    (steps bcolls : ℕ) (spawned : Bool) (i : ℕ) :
    (walk_iter_2d rng st curr steps bcolls spawned i).i =
      (if spawned then i else (aggregate_2d_spawn_bp st curr rng i).2) + 2 := by
  unfold walk_iter_2d
  dsimp only
  set sp := (if spawned then (curr, i) else aggregate_2d_spawn_bp st curr rng i) with hsp
  set up := aggregate_2d_update_bp st sp.1 rng sp.2 with hup
  set lc := aggregate_2d_lattice_collision st up.1 sp.1 with hlc
  set col := aggregate_2d_collision st lc.1 sp.1 rng up.2 with hcol
  have hci : col.2.2 = up.2 + 1 := by
    rw [hcol]
    exact (aggregate_2d_collision_spec st lc.1 sp.1 rng up.2).2.2.2
  have hui : up.2 = sp.2 + 1 := by
    rw [hup]
    exact aggregate_2d_update_bp_i st sp.1 rng sp.2
  have hspi : sp.2 = if spawned then i else (aggregate_2d_spawn_bp st curr rng i).2 := by
    rw [hsp]
    cases spawned <;> simp
  cases hc : col.1
  · rw [if_neg (by simp [hc])]
    show col.2.2 = _
    rw [hci, hui, hspi]
  · rw [if_pos (by simp [hc])]
    show col.2.2 = _
    rw [hci, hui, hspi]

lemma walk_iter_3d_i (rng : ℕ → ℚ) (st : aggregate_3d) (curr : int_triplet)
    (steps bcolls : ℕ) (spawned : Bool) (i : ℕ) :
    (walk_iter_3d rng st curr steps bcolls spawned i).i =
      (if spawned then i else (aggregate_3d_spawn_bp st curr rng i).2) + 2 := by
  unfold walk_iter_3d
  dsimp only
  set sp := (if spawned then (curr, i) else aggregate_3d_spawn_bp st curr rng i) with hsp
  set up := aggregate_3d_update_bp st sp.1 rng sp.2 with hup
  set lc := aggregate_3d_lattice_collision st up.1 sp.1 with hlc
  set col := aggregate_3d_collision st lc.1 sp.1 rng up.2 with hcol
  have hci : col.2.2 = up.2 + 1 := by
    rw [hcol]
    exact (aggregate_3d_collision_spec st lc.1 sp.1 rng up.2).2.2.2
  have hui : up.2 = sp.2 + 1 := by
    rw [hup]
    exact aggregate_3d_update_bp_i st sp.1 rng sp.2
  have hspi : sp.2 = if spawned then i else (aggregate_3d_spawn_bp st curr rng i).2 := by
    rw [hsp]
    cases spawned <;> simp
  cases hc : col.1
  · rw [if_neg (by simp [hc])]
    show col.2.2 = _
    rw [hci, hui, hspi]
  · rw [if_pos (by simp [hc])]
    show col.2.2 = _
    rw [hci, hui, hspi]

lemma walk_iter_2d_i_lb (rng : ℕ → ℚ) (st : aggregate_2d) (curr : int_pair)
    (steps bcolls : ℕ) (spawned : Bool) (i : ℕ) :
    i + 2 ≤ (walk_iter_2d rng st curr steps bcolls spawned i).i := by
  rw [walk_iter_2d_i]
  rcases aggregate_2d_spawn_bp_i st curr rng i with h | h <;> cases spawned <;>
    simp [h]

lemma walk_iter_3d_i_lb (rng : ℕ → ℚ) (st : aggregate_3d) (curr : int_triplet)
    (steps bcolls : ℕ) (spawned : Bool) (i : ℕ) :
    i + 2 ≤ (walk_iter_3d rng st curr steps bcolls spawned i).i := by
  rw [walk_iter_3d_i]
  rcases aggregate_3d_spawn_bp_i st curr rng i with h | h | h <;> cases spawned <;>
    simp [h]

lemma walk_iter_2d_frame (rng1 rng2 : ℕ → ℚ) (st : aggregate_2d) (curr : int_pair)
    (steps bcolls : ℕ) (spawned : Bool) (i : ℕ)
    (h : ∀ k, i ≤ k → k < (walk_iter_2d rng1 st curr steps bcolls spawned i).i →
      rng2 k = rng1 k) :
    walk_iter_2d rng2 st curr steps bcolls spawned i =
      walk_iter_2d rng1 st curr steps bcolls spawned i := by
  have hub := walk_iter_2d_i rng1 st curr steps bcolls spawned i
  cases hsp : spawned with
  | true =>
    rw [hsp] at hub h
    simp only [eq_self_iff_true, if_true] at hub
    have h0 : rng2 i = rng1 i := h i (le_refl i) (by omega)
    have h1 : rng2 (i + 1) = rng1 (i + 1) := h (i + 1) (by omega) (by omega)
    unfold walk_iter_2d
    simp only [eq_self_iff_true, if_true]
    rw [aggregate_2d_update_bp_frame st curr rng1 rng2 i h0,
      aggregate_2d_update_bp_i st curr rng1 i,
      aggregate_2d_collision_frame st _ _ rng1 rng2 (i + 1) h1]
  | false =>
    rw [hsp] at hub h
    simp only [Bool.false_eq_true, if_false] at hub
    have hsplb : i + 1 ≤ (aggregate_2d_spawn_bp st curr rng1 i).2 := by
      rcases aggregate_2d_spawn_bp_i st curr rng1 i with hh | hh <;> omega
    have h0 : rng2 i = rng1 i := h i (le_refl i) (by omega)
    have h1 : rng2 (i + 1) = rng1 (i + 1) := h (i + 1) (by omega) (by omega)
    have hup : rng2 (aggregate_2d_spawn_bp st curr rng1 i).2 =
        rng1 (aggregate_2d_spawn_bp st curr rng1 i).2 :=
      h _ (by omega) (by omega)
    have hcol : rng2 ((aggregate_2d_spawn_bp st curr rng1 i).2 + 1) =
        rng1 ((aggregate_2d_spawn_bp st curr rng1 i).2 + 1) :=
      h _ (by omega) (by omega)
    unfold walk_iter_2d
    simp only [Bool.false_eq_true, if_false]
    rw [aggregate_2d_spawn_bp_frame st curr rng1 rng2 i h0 h1,
      aggregate_2d_update_bp_frame st _ rng1 rng2 _ hup,
      aggregate_2d_update_bp_i st _ rng1 _,
      aggregate_2d_collision_frame st _ _ rng1 rng2 _ hcol]

lemma walk_iter_3d_frame (rng1 rng2 : ℕ → ℚ) (st : aggregate_3d) (curr : int_triplet)
    (steps bcolls : ℕ) (spawned : Bool) (i : ℕ)
    (h : ∀ k, i ≤ k → k < (walk_iter_3d rng1 st curr steps bcolls spawned i).i →
      rng2 k = rng1 k) :
    walk_iter_3d rng2 st curr steps bcolls spawned i =
      walk_iter_3d rng1 st curr steps bcolls spawned i := by
  have hub := walk_iter_3d_i rng1 st curr steps bcolls spawned i
  cases hsp : spawned with
  | true =>
    rw [hsp] at hub h
    simp only [eq_self_iff_true, if_true] at hub
    have h0 : rng2 i = rng1 i := h i (le_refl i) (by omega)
    have h1 : rng2 (i + 1) = rng1 (i + 1) := h (i + 1) (by omega) (by omega)
    unfold walk_iter_3d
    simp only [eq_self_iff_true, if_true]
    rw [aggregate_3d_update_bp_frame st curr rng1 rng2 i h0,
      aggregate_3d_update_bp_i st curr rng1 i,
      aggregate_3d_collision_frame st _ _ rng1 rng2 (i + 1) h1]
  | false =>
    rw [hsp] at hub h
    simp only [Bool.false_eq_true, if_false] at hub
    have hsplb : i + 1 ≤ (aggregate_3d_spawn_bp st curr rng1 i).2 := by
      rcases aggregate_3d_spawn_bp_i st curr rng1 i with hh | hh | hh <;> omega
    have h0 : rng2 i = rng1 i := h i (le_refl i) (by omega)
    have h1 : rng2 (i + 1) = rng1 (i + 1) := h (i + 1) (by omega) (by omega)
    have h2 : rng2 (i + 2) = rng1 (i + 2) := by
      rcases aggregate_3d_spawn_bp_i st curr rng1 i with hh | hh | hh
      · -- only two draws consumed by the spawn, but then the update and
        -- collision draws still cover index i + 2
        exact h (i + 2) (by omega) (by omega)
      · exact h (i + 2) (by omega) (by omega)
      · exact h (i + 2) (by omega) (by omega)
    have hup : rng2 (aggregate_3d_spawn_bp st curr rng1 i).2 =
        rng1 (aggregate_3d_spawn_bp st curr rng1 i).2 :=
      h _ (by omega) (by omega)
    have hcol : rng2 ((aggregate_3d_spawn_bp st curr rng1 i).2 + 1) =
        rng1 ((aggregate_3d_spawn_bp st curr rng1 i).2 + 1) :=
      h _ (by omega) (by omega)
    unfold walk_iter_3d
    simp only [Bool.false_eq_true, if_false]
    rw [aggregate_3d_spawn_bp_frame st curr rng1 rng2 i h0 h1 h2,
      aggregate_3d_update_bp_frame st _ rng1 rng2 _ hup,
      aggregate_3d_update_bp_i st _ rng1 _,
      aggregate_3d_collision_frame st _ _ rng1 rng2 _ hcol]

lemma generate_loop_i_mono_2d (rng : ℕ → ℚ) (n : ℕ) :
    ∀ (fuel : ℕ) (st : aggregate_2d) (curr : int_pair)
      (steps bcolls count : ℕ) (spawned : Bool) (i : ℕ)
      (st' : aggregate_2d) (i' : ℕ),
      aggregate_2d_generate_loop rng n fuel st curr steps bcolls count spawned i =
        some (st', i') → i ≤ i' := by
  intro fuel
  induction fuel with
  | zero =>
    intro st curr steps bcolls count spawned i st' i' hrun
    rw [aggregate_2d_generate_loop] at hrun
    split_ifs at hrun
    simp only [Option.some.injEq, Prod.mk.injEq] at hrun
    omega
  | succ fuel ih =>
    intro st curr steps bcolls count spawned i st' i' hrun
    rw [aggregate_2d_generate_loop] at hrun
    split_ifs at hrun
    · dsimp only at hrun
      have hlb := walk_iter_2d_i_lb rng st curr steps bcolls spawned i
      cases hc : (walk_iter_2d rng st curr steps bcolls spawned i).stuck
      · rw [hc, if_neg (by simp)] at hrun
        have := ih _ _ _ _ _ _ _ _ _ hrun
        omega
      · rw [hc, if_pos rfl] at hrun
        have := ih _ _ _ _ _ _ _ _ _ hrun
        omega
    · simp only [Option.some.injEq, Prod.mk.injEq] at hrun
      omega

lemma generate_loop_i_mono_3d (rng : ℕ → ℚ) (n : ℕ) :
    ∀ (fuel : ℕ) (st : aggregate_3d) (curr : int_triplet)
      (steps bcolls count : ℕ) (spawned : Bool) (i : ℕ)
      (st' : aggregate_3d) (i' : ℕ),
      aggregate_3d_generate_loop rng n fuel st curr steps bcolls count spawned i =
        some (st', i') → i ≤ i' := by
  intro fuel
  induction fuel with
  | zero =>
    intro st curr steps bcolls count spawned i st' i' hrun
    rw [aggregate_3d_generate_loop] at hrun
    split_ifs at hrun
    simp only [Option.some.injEq, Prod.mk.injEq] at hrun
    omega
  | succ fuel ih =>
    intro st curr steps bcolls count spawned i st' i' hrun
    rw [aggregate_3d_generate_loop] at hrun
    split_ifs at hrun
    · dsimp only at hrun
      have hlb := walk_iter_3d_i_lb rng st curr steps bcolls spawned i
      cases hc : (walk_iter_3d rng st curr steps bcolls spawned i).stuck
      · rw [hc, if_neg (by simp)] at hrun
        have := ih _ _ _ _ _ _ _ _ _ hrun
        omega
      · rw [hc, if_pos rfl] at hrun
        have := ih _ _ _ _ _ _ _ _ _ hrun
        omega
    · simp only [Option.some.injEq, Prod.mk.injEq] at hrun
      omega

lemma generate_loop_frame_2d (n : ℕ) :
    ∀ (fuel : ℕ) (st : aggregate_2d) (curr : int_pair)
      (steps bcolls count : ℕ) (spawned : Bool) (i : ℕ)
      (st' : aggregate_2d) (i' : ℕ) (rng1 rng2 : ℕ → ℚ),
      aggregate_2d_generate_loop rng1 n fuel st curr steps bcolls count spawned i =
        some (st', i') →
      (∀ k, i ≤ k → k < i' → rng2 k = rng1 k) →
      aggregate_2d_generate_loop rng2 n fuel st curr steps bcolls count spawned i =
        some (st', i') := by
  intro fuel
  induction fuel with
  | zero =>
    intro st curr steps bcolls count spawned i st' i' rng1 rng2 hrun hagree
    rw [aggregate_2d_generate_loop] at hrun ⊢
    exact hrun
  | succ fuel ih =>
    intro st curr steps bcolls count spawned i st' i' rng1 rng2 hrun hagree
    rw [aggregate_2d_generate_loop] at hrun ⊢
    split_ifs at hrun ⊢
    · dsimp only at hrun ⊢
      have hlb := walk_iter_2d_i_lb rng1 st curr steps bcolls spawned i
      cases hc : (walk_iter_2d rng1 st curr steps bcolls spawned i).stuck
      · rw [hc, if_neg (by simp)] at hrun
        have hii : (walk_iter_2d rng1 st curr steps bcolls spawned i).i ≤ i' :=
          generate_loop_i_mono_2d rng1 n fuel _ _ _ _ _ _ _ _ _ hrun
        have hw : walk_iter_2d rng2 st curr steps bcolls spawned i =
            walk_iter_2d rng1 st curr steps bcolls spawned i :=
          walk_iter_2d_frame rng1 rng2 st curr steps bcolls spawned i
            (fun k hk1 hk2 => hagree k hk1 (by omega))
        rw [hw, hc, if_neg (by simp)]
        exact ih _ _ _ _ _ _ _ _ _ rng1 rng2 hrun
          (fun k hk1 hk2 => hagree k (by omega) hk2)
      · rw [hc, if_pos rfl] at hrun
        have hii : (walk_iter_2d rng1 st curr steps bcolls spawned i).i ≤ i' :=
          generate_loop_i_mono_2d rng1 n fuel _ _ _ _ _ _ _ _ _ hrun
        have hw : walk_iter_2d rng2 st curr steps bcolls spawned i =
            walk_iter_2d rng1 st curr steps bcolls spawned i :=
          walk_iter_2d_frame rng1 rng2 st curr steps bcolls spawned i
            (fun k hk1 hk2 => hagree k hk1 (by omega))
        rw [hw, hc, if_pos rfl]
        exact ih _ _ _ _ _ _ _ _ _ rng1 rng2 hrun
          (fun k hk1 hk2 => hagree k (by omega) hk2)
    · exact hrun

lemma generate_loop_frame_3d (n : ℕ) :
    ∀ (fuel : ℕ) (st : aggregate_3d) (curr : int_triplet)
      (steps bcolls count : ℕ) (spawned : Bool) (i : ℕ)
      (st' : aggregate_3d) (i' : ℕ) (rng1 rng2 : ℕ → ℚ),
      aggregate_3d_generate_loop rng1 n fuel st curr steps bcolls count spawned i =
        some (st', i') →
      (∀ k, i ≤ k → k < i' → rng2 k = rng1 k) →
      aggregate_3d_generate_loop rng2 n fuel st curr steps bcolls count spawned i =
        some (st', i') := by
  intro fuel
  induction fuel with
  | zero =>
    intro st curr steps bcolls count spawned i st' i' rng1 rng2 hrun hagree
    rw [aggregate_3d_generate_loop] at hrun ⊢
    exact hrun
  | succ fuel ih =>
    intro st curr steps bcolls count spawned i st' i' rng1 rng2 hrun hagree
    rw [aggregate_3d_generate_loop] at hrun ⊢
    split_ifs at hrun ⊢
    · dsimp only at hrun ⊢
      have hlb := walk_iter_3d_i_lb rng1 st curr steps bcolls spawned i
      cases hc : (walk_iter_3d rng1 st curr steps bcolls spawned i).stuck
      · rw [hc, if_neg (by simp)] at hrun
        have hii : (walk_iter_3d rng1 st curr steps bcolls spawned i).i ≤ i' :=
          generate_loop_i_mono_3d rng1 n fuel _ _ _ _ _ _ _ _ _ hrun
        have hw : walk_iter_3d rng2 st curr steps bcolls spawned i =
            walk_iter_3d rng1 st curr steps bcolls spawned i :=
          walk_iter_3d_frame rng1 rng2 st curr steps bcolls spawned i
            (fun k hk1 hk2 => hagree k hk1 (by omega))
        rw [hw, hc, if_neg (by simp)]
        exact ih _ _ _ _ _ _ _ _ _ rng1 rng2 hrun
          (fun k hk1 hk2 => hagree k (by omega) hk2)
      · rw [hc, if_pos rfl] at hrun
        have hii : (walk_iter_3d rng1 st curr steps bcolls spawned i).i ≤ i' :=
          generate_loop_i_mono_3d rng1 n fuel _ _ _ _ _ _ _ _ _ hrun
        have hw : walk_iter_3d rng2 st curr steps bcolls spawned i =
            walk_iter_3d rng1 st curr steps bcolls spawned i :=
          walk_iter_3d_frame rng1 rng2 st curr steps bcolls spawned i
            (fun k hk1 hk2 => hagree k hk1 (by omega))
        rw [hw, hc, if_pos rfl]
        exact ih _ _ _ _ _ _ _ _ _ rng1 rng2 hrun
          (fun k hk1 hk2 => hagree k (by omega) hk2)
    · exact hrun


/-- C8: two-run determinism. Two runs of generate with the same configuration
(the whole initial aggregate state, dimension, lattice, attractor, stickiness,
particle count, fuel, starting walker position and starting draw index) and
PRNG streams that agree on the consumed prefix of draws (indices i up to the
final index i' exclusive) produce identical results: the same final aggregate
state, hence the same stuck, required_steps and boundary_collisions sequences
and the same extent metrics, and the same final draw index. In particular an
identical PRNG stream gives identical outputs. The last two conjuncts pin down
the draw-consumption order per loop iteration: a spawn (when needed) advances
the index first, then one step draw and one stick-probability draw are consumed
per (step, stick-test) pair. -/
theorem prng_prefix_determinism :
    (∀ (st : aggregate_2d) (n : ℕ) (curr0 : int_pair) (fuel : ℕ)
       (rng1 rng2 : ℕ → ℚ) (i : ℕ) (st' : aggregate_2d) (i' : ℕ),
      aggregate_2d_generate st n curr0 fuel rng1 i = some (st', i') →
      (∀ k, i ≤ k → k < i' → rng2 k = rng1 k) →
      aggregate_2d_generate st n curr0 fuel rng2 i = some (st', i')) ∧
    (∀ (st : aggregate_3d) (n : ℕ) (curr0 : int_triplet) (fuel : ℕ)
       (rng1 rng2 : ℕ → ℚ) (i : ℕ) (st' : aggregate_3d) (i' : ℕ),
      aggregate_3d_generate st n curr0 fuel rng1 i = some (st', i') →
      (∀ k, i ≤ k → k < i' → rng2 k = rng1 k) →
      aggregate_3d_generate st n curr0 fuel rng2 i = some (st', i')) ∧
    (∀ (rng : ℕ → ℚ) (st : aggregate_2d) (curr : int_pair)
       (steps bcolls : ℕ) (spawned : Bool) (i : ℕ),
      (walk_iter_2d rng st curr steps bcolls spawned i).i =
        (if spawned then i else (aggregate_2d_spawn_bp st curr rng i).2) + 2) ∧
    (∀ (rng : ℕ → ℚ) (st : aggregate_3d) (curr : int_triplet)
       (steps bcolls : ℕ) (spawned : Bool) (i : ℕ),
      (walk_iter_3d rng st curr steps bcolls spawned i).i =
        (if spawned then i else (aggregate_3d_spawn_bp st curr rng i).2) + 2) := by
  refine ⟨?_, ?_, walk_iter_2d_i, walk_iter_3d_i⟩
  · intro st n curr0 fuel rng1 rng2 i st' i' hrun hagree
    rw [aggregate_2d_generate] at hrun ⊢
    exact generate_loop_frame_2d n fuel _ curr0 0 0 0 false i st' i' rng1 rng2 hrun hagree
  · intro st n curr0 fuel rng1 rng2 i st' i' hrun hagree
    rw [aggregate_3d_generate] at hrun ⊢
    exact generate_loop_frame_3d n fuel _ curr0 0 0 0 false i st' i' rng1 rng2 hrun hagree

/-- Witness: the concrete 2D and 3D POINT runs still produce the recorded
results when the PRNG stream is altered from the first unconsumed draw on. -/
theorem prng_prefix_determinism_witness :
    aggregate_2d_generate fix2_point 1 ⟨7, 7⟩ 20 rng_c8_tail 0 =
      some (c2w_pair.1, c2w_pair.2) ∧
    aggregate_3d_generate fix3_point 1 ⟨7, 7, 7⟩ 20 rng_c8_tail3 0 =
      some (c2w3_pair.1, c2w3_pair.2) := by
  have hrun2 : aggregate_2d_generate fix2_point 1 ⟨7, 7⟩ 20 rng_c2_point 0 =
      some (c2w_pair.1, c2w_pair.2) := by
    show aggregate_2d_generate fix2_point 1 ⟨7, 7⟩ 20 rng_c2_point 0 = some c2w_pair
    exact (Option.some_get _).symm
  have hrun3 : aggregate_3d_generate fix3_point 1 ⟨7, 7, 7⟩ 20 rng_c2_point3 0 =
      some (c2w3_pair.1, c2w3_pair.2) := by
    show aggregate_3d_generate fix3_point 1 ⟨7, 7, 7⟩ 20 rng_c2_point3 0 = some c2w3_pair
    exact (Option.some_get _).symm
  have hi2 : c2w_pair.2 = 14 := by with_unfolding_all rfl
  have hi3 : c2w3_pair.2 = 9 := by with_unfolding_all rfl
  constructor
  · refine prng_prefix_determinism.1 fix2_point 1 ⟨7, 7⟩ 20 rng_c2_point rng_c8_tail 0
      c2w_pair.1 c2w_pair.2 hrun2 ?_
    intro k hk1 hk2
    rw [hi2] at hk2
    simp [rng_c8_tail, hk2]
  · refine prng_prefix_determinism.2.1 fix3_point 1 ⟨7, 7, 7⟩ 20 rng_c2_point3 rng_c8_tail3 0
      c2w3_pair.1 c2w3_pair.2 hrun3 ?_
    intro k hk1 hk2
    rw [hi3] at hk2
    simp [rng_c8_tail3, hk2]

-- C3: distinctness of stuck positions

/-- Counterexample to C3: two complete runs of aggregate_2d_generate whose
final stuck sequence contains a duplicate position.  First, a POINT run at
stickiness 1/2 and n = 2: a failed stickiness gate leaves the walker resting
on the stuck cell (1,0), and its next step onto the origin sticks it at
prev = (1,0) a second time.  Second, a LINE run at stickiness 1 and n = 4:
the shrinking spawn_diam (stored from the signed prev.y) places the fourth
spawn directly onto the stuck cell (0,-3), and its first step onto (0,-2)
sticks it at prev = (0,-3) again. -/
theorem stuck_positions_duplicate :
    ((aggregate_2d_generate (aggregate_2d_init (1/2) SQUARE POINT) 2 ⟨7, 7⟩ 20
        rng_c3_dup 0).map (fun pr => pr.1._aggregate)) =
      some [⟨0, 0⟩, ⟨1, 0⟩, ⟨1, 0⟩] ∧
    ¬ ([⟨0, 0⟩, ⟨1, 0⟩, ⟨1, 0⟩] : List int_pair).Nodup ∧
    ((aggregate_2d_generate (aggregate_2d_init 1 SQUARE LINE) 4 ⟨7, 7⟩ 20
        rng_c3_line 0).map (fun pr => pr.1._aggregate)) =
      some [⟨0, 0⟩, ⟨0, -1⟩, ⟨0, -2⟩, ⟨0, -3⟩, ⟨0, -3⟩] ∧
    ¬ ([⟨0, 0⟩, ⟨0, -1⟩, ⟨0, -2⟩, ⟨0, -3⟩, ⟨0, -3⟩] : List int_pair).Nodup := by
  refine ⟨by with_unfolding_all decide, by decide, by with_unfolding_all decide, by decide⟩

lemma ctrunc_nat_half (n : ℕ) : ctrunc ((n : ℚ) * 0.5) = ((n / 2 : ℕ) : ℤ) := by
  unfold ctrunc
  rw [if_pos (by positivity)]
  rw [Int.floor_eq_iff]
  obtain ⟨q, r, hr, hn⟩ : ∃ q r, r ≤ 1 ∧ n = 2 * q + r := ⟨n / 2, n % 2, by omega, by omega⟩
  subst hn
  have hcast : ((2 * q + r : ℕ) : ℚ) = 2 * (q : ℚ) + (r : ℚ) := by push_cast; ring
  have hdiv : (2 * q + r) / 2 = q := by omega
  rw [hdiv, hcast]
  have hrq : (r : ℚ) ≤ 1 := by exact_mod_cast hr
  have hrq0 : (0 : ℚ) ≤ (r : ℚ) := by positivity
  constructor
  · push_cast
    linarith
  · push_cast
    linarith

lemma coords_le_sqrt_2d (p : int_pair) (M : ℕ)
    (h : (p.x * p.x + p.y * p.y).toNat ≤ M) :
    p.x.natAbs ≤ Nat.sqrt M ∧ p.y.natAbs ≤ Nat.sqrt M := by
  have hx2 : p.x * p.x = ((p.x.natAbs * p.x.natAbs : ℕ) : ℤ) := Int.natAbs_mul_self.symm
  have hy2 : p.y * p.y = ((p.y.natAbs * p.y.natAbs : ℕ) : ℤ) := Int.natAbs_mul_self.symm
  rw [hx2, hy2] at h
  refine ⟨Nat.le_sqrt.mpr ?_, Nat.le_sqrt.mpr ?_⟩ <;>
  · set a := p.x.natAbs * p.x.natAbs with ha
    set b := p.y.natAbs * p.y.natAbs with hb
    omega

lemma coords_le_sqrt_3d (p : int_triplet) (M : ℕ)
    (h : (p.x * p.x + p.y * p.y + p.z * p.z).toNat ≤ M) :
    p.x.natAbs ≤ Nat.sqrt M ∧ p.y.natAbs ≤ Nat.sqrt M ∧ p.z.natAbs ≤ Nat.sqrt M := by
  have hx2 : p.x * p.x = ((p.x.natAbs * p.x.natAbs : ℕ) : ℤ) := Int.natAbs_mul_self.symm
  have hy2 : p.y * p.y = ((p.y.natAbs * p.y.natAbs : ℕ) : ℤ) := Int.natAbs_mul_self.symm
  have hz2 : p.z * p.z = ((p.z.natAbs * p.z.natAbs : ℕ) : ℤ) := Int.natAbs_mul_self.symm
  rw [hx2, hy2, hz2] at h
  refine ⟨Nat.le_sqrt.mpr ?_, Nat.le_sqrt.mpr ?_, Nat.le_sqrt.mpr ?_⟩ <;>
  · set a := p.x.natAbs * p.x.natAbs with ha
    set b := p.y.natAbs * p.y.natAbs with hb
    set c := p.z.natAbs * p.z.natAbs with hc
    omega

lemma spawn_bp_point_fresh_2d (st : aggregate_2d) (curr : int_pair)
    (rng : ℕ → ℚ) (i : ℕ) (hinv : point_inv_2d st) :
    (aggregate_2d_spawn_bp st curr rng i).1 ∉ st._aggregate := by
  obtain ⟨hatt, -, hb, hsd, hbound, -⟩ := hinv
  intro hmem
  unfold aggregate_2d_spawn_bp at hmem
  rw [hatt] at hmem
  dsimp only at hmem
  rw [ctrunc_nat_half st.spawn_diam] at hmem
  split_ifs at hmem <;>
  · obtain ⟨hx', hy'⟩ := coords_le_sqrt_2d _ _ (hbound _ hmem)
    simp only [Int.natAbs_neg, Int.natAbs_ofNat] at hx' hy'
    rw [hsd] at hx' hy'
    omega

lemma spawn_bp_point_fresh_3d (st : aggregate_3d) (curr : int_triplet)
    (rng : ℕ → ℚ) (i : ℕ) (hinv : point_inv_3d st) :
    (aggregate_3d_spawn_bp st curr rng i).1 ∉ st._aggregate := by
  obtain ⟨hatt, -, hb, hsd, hbound, -⟩ := hinv
  intro hmem
  unfold aggregate_3d_spawn_bp at hmem
  rw [hatt] at hmem
  dsimp only at hmem
  rw [ctrunc_nat_half st.spawn_diam] at hmem
  split_ifs at hmem <;>
  · obtain ⟨hx', hy', hz'⟩ := coords_le_sqrt_3d _ _ (hbound _ hmem)
    simp only [Int.natAbs_neg, Int.natAbs_ofNat] at hx' hy' hz'
    rw [hsd] at hx' hy' hz'
    omega

lemma on_hit_point_inv_2d (st : aggregate_2d) (prev : int_pair)
    (hinv : point_inv_2d st) (hfresh : prev ∉ st._aggregate) :
    point_inv_2d (aggregate_2d_on_hit st prev) := by
  obtain ⟨hatt, hstick, hb, hsd, hbound, hnd⟩ := hinv
  obtain ⟨hA, hB, -, -, hS, -, -, -⟩ := on_hit_const_fields_2d st prev
  obtain ⟨-, hpc⟩ := on_hit_spawn_pc_2d st prev (by simp [hatt]) (fun _ => hsd)
  obtain ⟨-, -, -, -, hmr, hmp⟩ := on_hit_bounds_2d st prev
  refine ⟨by rw [hA]; exact hatt, by rw [hS]; exact hstick,
    by rw [hB]; exact hb, hpc (by rw [hA]; exact hatt), ?_, ?_⟩
  · rw [aggregate_2d_on_hit_aggregate]
    intro p hp
    rcases List.mem_append.mp hp with hp | hp
    · exact le_trans (hbound p hp) hmr
    · rw [List.mem_singleton.mp hp]
      exact hmp hatt
  · rw [aggregate_2d_on_hit_aggregate, List.nodup_append]
    refine ⟨hnd, List.nodup_singleton _, ?_⟩
    intro a ha hb'
    rw [List.mem_singleton.mp hb'] at ha
    exact hfresh ha

lemma on_hit_point_inv_3d (st : aggregate_3d) (prev : int_triplet)
    (hinv : point_inv_3d st) (hfresh : prev ∉ st._aggregate) :
    point_inv_3d (aggregate_3d_on_hit st prev) := by
  obtain ⟨hatt, hstick, hb, hsd, hbound, hnd⟩ := hinv
  obtain ⟨hA, hB, -, -, hS, -, -, -⟩ := on_hit_const_fields_3d st prev
  obtain ⟨-, hpc⟩ := on_hit_spawn_pc_3d st prev (by simp [hatt]) (fun _ => hsd)
  obtain ⟨-, -, -, -, -, -, hmr, hmp⟩ := on_hit_bounds_3d st prev
  refine ⟨by rw [hA]; exact hatt, by rw [hS]; exact hstick,
    by rw [hB]; exact hb, hpc (by rw [hA]; exact hatt), ?_, ?_⟩
  · rw [aggregate_3d_on_hit_aggregate]
    intro p hp
    rcases List.mem_append.mp hp with hp | hp
    · exact le_trans (hbound p hp) hmr
    · rw [List.mem_singleton.mp hp]
      exact hmp hatt
  · rw [aggregate_3d_on_hit_aggregate, List.nodup_append]
    refine ⟨hnd, List.nodup_singleton _, ?_⟩
    intro a ha hb'
    rw [List.mem_singleton.mp hb'] at ha
    exact hfresh ha

lemma walk_iter_point_inv_2d (rng : ℕ → ℚ) (hrng : ∀ k, rng k ≤ 1)
    (st : aggregate_2d) (curr : int_pair) (steps bcolls : ℕ) (spawned : Bool)
    (i : ℕ) (hinv : point_inv_2d st)
    (hcurr : spawned = true → curr ∉ st._aggregate) :
    point_inv_2d (walk_iter_2d rng st curr steps bcolls spawned i).st ∧
    ((walk_iter_2d rng st curr steps bcolls spawned i).stuck = false →
      (walk_iter_2d rng st curr steps bcolls spawned i).curr ∉
        (walk_iter_2d rng st curr steps bcolls spawned i).st._aggregate) := by
  have hprev : (if spawned then (curr, i) else aggregate_2d_spawn_bp st curr rng i).1 ∉
      st._aggregate := by
    cases spawned with
    | false =>
      simp only [Bool.false_eq_true, if_false]
      exact spawn_bp_point_fresh_2d st curr rng i hinv
    | true =>
      simp only [if_true]
      exact hcurr rfl
  unfold walk_iter_2d
  dsimp only
  set sp := (if spawned then (curr, i) else aggregate_2d_spawn_bp st curr rng i) with hsp
  set up := aggregate_2d_update_bp st sp.1 rng sp.2 with hup
  set lc := aggregate_2d_lattice_collision st up.1 sp.1 with hlc
  set col := aggregate_2d_collision st lc.1 sp.1 rng up.2 with hcol
  cases hc : col.1 with
  | false =>
    rw [if_neg (by simp)]
    have hst : col.2.1 = st :=
      (aggregate_2d_collision_spec st lc.1 sp.1 rng up.2).2.2.1 (by rw [← hcol]; exact hc)
    have hnotmem : lc.1 ∉ st._aggregate := by
      intro hm
      have htrue : col.1 = true := by
        rw [hcol]
        exact (aggregate_2d_collision_spec st lc.1 sp.1 rng up.2).1.mpr
          ⟨by rw [hinv.2.1]; exact hrng up.2, hm⟩
      rw [hc] at htrue
      exact Bool.noConfusion htrue
    refine ⟨?_, fun _ => ?_⟩
    · show point_inv_2d col.2.1
      rw [hst]
      exact hinv
    · show lc.1 ∉ col.2.1._aggregate
      rw [hst]
      exact hnotmem
  | true =>
    rw [if_pos rfl]
    have hco : col.2.1 = aggregate_2d_on_hit st sp.1 :=
      collision_true_on_hit_2d st lc.1 sp.1 rng up.2 (by rw [← hcol]; exact hc)
    refine ⟨?_, fun h => Bool.noConfusion h⟩
    show point_inv_2d
      { col.2.1 with _rsteps := col.2.1._rsteps ++ [steps + 1],
                     _bcolls := col.2.1._bcolls ++ [if lc.2 then bcolls + 1 else bcolls] }
    rw [hco]
    exact on_hit_point_inv_2d st sp.1 hinv hprev

lemma walk_iter_point_inv_3d (rng : ℕ → ℚ) (hrng : ∀ k, rng k ≤ 1)
    (st : aggregate_3d) (curr : int_triplet) (steps bcolls : ℕ) (spawned : Bool)
    (i : ℕ) (hinv : point_inv_3d st)
    (hcurr : spawned = true → curr ∉ st._aggregate) :
    point_inv_3d (walk_iter_3d rng st curr steps bcolls spawned i).st ∧
    ((walk_iter_3d rng st curr steps bcolls spawned i).stuck = false →
      (walk_iter_3d rng st curr steps bcolls spawned i).curr ∉
        (walk_iter_3d rng st curr steps bcolls spawned i).st._aggregate) := by
  have hprev : (if spawned then (curr, i) else aggregate_3d_spawn_bp st curr rng i).1 ∉
      st._aggregate := by
    cases spawned with
    | false =>
      simp only [Bool.false_eq_true, if_false]
      exact spawn_bp_point_fresh_3d st curr rng i hinv
    | true =>
      simp only [if_true]
      exact hcurr rfl
  unfold walk_iter_3d
  dsimp only
  set sp := (if spawned then (curr, i) else aggregate_3d_spawn_bp st curr rng i) with hsp
  set up := aggregate_3d_update_bp st sp.1 rng sp.2 with hup
  set lc := aggregate_3d_lattice_collision st up.1 sp.1 with hlc
  set col := aggregate_3d_collision st lc.1 sp.1 rng up.2 with hcol
  cases hc : col.1 with
  | false =>
    rw [if_neg (by simp)]
    have hst : col.2.1 = st :=
      (aggregate_3d_collision_spec st lc.1 sp.1 rng up.2).2.2.1 (by rw [← hcol]; exact hc)
    have hnotmem : lc.1 ∉ st._aggregate := by
      intro hm
      have htrue : col.1 = true := by
        rw [hcol]
        exact (aggregate_3d_collision_spec st lc.1 sp.1 rng up.2).1.mpr
          ⟨by rw [hinv.2.1]; exact hrng up.2, hm⟩
      rw [hc] at htrue
      exact Bool.noConfusion htrue
    refine ⟨?_, fun _ => ?_⟩
    · show point_inv_3d col.2.1
      rw [hst]
      exact hinv
    · show lc.1 ∉ col.2.1._aggregate
      rw [hst]
      exact hnotmem
  | true =>
    rw [if_pos rfl]
    have hco : col.2.1 = aggregate_3d_on_hit st sp.1 :=
      collision_true_on_hit_3d st lc.1 sp.1 rng up.2 (by rw [← hcol]; exact hc)
    refine ⟨?_, fun h => Bool.noConfusion h⟩
    show point_inv_3d
      { col.2.1 with _rsteps := col.2.1._rsteps ++ [steps + 1],
                     _bcolls := col.2.1._bcolls ++ [if lc.2 then bcolls + 1 else bcolls] }
    rw [hco]
    exact on_hit_point_inv_3d st sp.1 hinv hprev

lemma generate_loop_point_nodup_2d (rng : ℕ → ℚ) (hrng : ∀ k, rng k ≤ 1) (n : ℕ) :
    ∀ (fuel : ℕ) (st : aggregate_2d) (curr : int_pair)
      (steps bcolls count : ℕ) (spawned : Bool) (i : ℕ)
      (st' : aggregate_2d) (i' : ℕ),
      aggregate_2d_generate_loop rng n fuel st curr steps bcolls count spawned i =
        some (st', i') →
      point_inv_2d st →
      (spawned = true → curr ∉ st._aggregate) →
      st'._aggregate.Nodup := by
  intro fuel
  induction fuel with
  | zero =>
    intro st curr steps bcolls count spawned i st' i' hrun hinv hcurr
    rw [aggregate_2d_generate_loop] at hrun
    split_ifs at hrun
    simp only [Option.some.injEq, Prod.mk.injEq] at hrun
    obtain ⟨rfl, rfl⟩ := hrun
    exact hinv.2.2.2.2.2
  | succ fuel ih =>
    intro st curr steps bcolls count spawned i st' i' hrun hinv hcurr
    rw [aggregate_2d_generate_loop] at hrun
    split_ifs at hrun
    · dsimp only at hrun
      obtain ⟨hP, hC⟩ := walk_iter_point_inv_2d rng hrng st curr steps bcolls spawned i hinv hcurr
      cases hstuck : (walk_iter_2d rng st curr steps bcolls spawned i).stuck with
      | true =>
        rw [hstuck, if_pos rfl] at hrun
        exact ih _ _ _ _ _ _ _ _ _ hrun hP (fun h => Bool.noConfusion h)
      | false =>
        rw [hstuck, if_neg (by simp)] at hrun
        exact ih _ _ _ _ _ _ _ _ _ hrun hP (fun _ => hC hstuck)
    · simp only [Option.some.injEq, Prod.mk.injEq] at hrun
      obtain ⟨rfl, rfl⟩ := hrun
      exact hinv.2.2.2.2.2

lemma generate_loop_point_nodup_3d (rng : ℕ → ℚ) (hrng : ∀ k, rng k ≤ 1) (n : ℕ) :
    ∀ (fuel : ℕ) (st : aggregate_3d) (curr : int_triplet)
      (steps bcolls count : ℕ) (spawned : Bool) (i : ℕ)
      (st' : aggregate_3d) (i' : ℕ),
      aggregate_3d_generate_loop rng n fuel st curr steps bcolls count spawned i =
        some (st', i') →
      point_inv_3d st →
      (spawned = true → curr ∉ st._aggregate) →
      st'._aggregate.Nodup := by
  intro fuel
  induction fuel with
  | zero =>
    intro st curr steps bcolls count spawned i st' i' hrun hinv hcurr
    rw [aggregate_3d_generate_loop] at hrun
    split_ifs at hrun
    simp only [Option.some.injEq, Prod.mk.injEq] at hrun
    obtain ⟨rfl, rfl⟩ := hrun
    exact hinv.2.2.2.2.2
  | succ fuel ih =>
    intro st curr steps bcolls count spawned i st' i' hrun hinv hcurr
    rw [aggregate_3d_generate_loop] at hrun
    split_ifs at hrun
    · dsimp only at hrun
      obtain ⟨hP, hC⟩ := walk_iter_point_inv_3d rng hrng st curr steps bcolls spawned i hinv hcurr
      cases hstuck : (walk_iter_3d rng st curr steps bcolls spawned i).stuck with
      | true =>
        rw [hstuck, if_pos rfl] at hrun
        exact ih _ _ _ _ _ _ _ _ _ hrun hP (fun h => Bool.noConfusion h)
      | false =>
        rw [hstuck, if_neg (by simp)] at hrun
        exact ih _ _ _ _ _ _ _ _ _ hrun hP (fun _ => hC hstuck)
    · simp only [Option.some.injEq, Prod.mk.injEq] at hrun
      obtain ⟨rfl, rfl⟩ := hrun
      exact hinv.2.2.2.2.2

lemma init_point_inv_2d (lt : lattice_type) (n : ℕ) :
    point_inv_2d (aggregate_2d_init_attractor (aggregate_2d_init 1 lt POINT) n) := by
  refine ⟨rfl, rfl, by simp [aggregate_2d_init, aggregate_2d_init_attractor],
    by simp [aggregate_2d_init, aggregate_2d_init_attractor], ?_, ?_⟩
  · intro p hp
    simp only [aggregate_2d_init, aggregate_2d_init_attractor, List.nil_append,
      List.mem_singleton] at hp ⊢
    subst hp
    norm_num
  · simp [aggregate_2d_init, aggregate_2d_init_attractor]

lemma init_point_inv_3d (lt : lattice_type) (n : ℕ) :
    point_inv_3d (aggregate_3d_init_attractor (aggregate_3d_init 1 lt POINT) n) := by
  refine ⟨rfl, rfl, by simp [aggregate_3d_init, aggregate_3d_init_attractor],
    by simp [aggregate_3d_init, aggregate_3d_init_attractor], ?_, ?_⟩
  · intro p hp
    simp only [aggregate_3d_init, aggregate_3d_init_attractor, List.nil_append,
      List.mem_singleton] at hp ⊢
    subst hp
    norm_num
  · simp [aggregate_3d_init, aggregate_3d_init_attractor]

/-- C3 (amended): for the POINT attractor at stickiness 1, with every PRNG
draw at most 1, the stuck positions after any completed generate run are
pairwise distinct, in 2D and in 3D.  (The original claim, over every
attractor other than CIRCLE/SPHERE and every stickiness in [0,1], is
refuted by stuck_positions_duplicate.) -/
theorem stuck_positions_distinct :
    (∀ (lt : lattice_type) (n : ℕ) (curr0 : int_pair) (fuel : ℕ)
       (rng : ℕ → ℚ) (i : ℕ) (st' : aggregate_2d) (i' : ℕ),
      (∀ k, rng k ≤ 1) →
      aggregate_2d_generate (aggregate_2d_init 1 lt POINT) n curr0 fuel rng i =
        some (st', i') →
      st'._aggregate.Nodup) ∧
    (∀ (lt : lattice_type) (n : ℕ) (curr0 : int_triplet) (fuel : ℕ)
       (rng : ℕ → ℚ) (i : ℕ) (st' : aggregate_3d) (i' : ℕ),
      (∀ k, rng k ≤ 1) →
      aggregate_3d_generate (aggregate_3d_init 1 lt POINT) n curr0 fuel rng i =
        some (st', i') →
      st'._aggregate.Nodup) := by
  constructor
  · intro lt n curr0 fuel rng i st' i' hrng hrun
    rw [aggregate_2d_generate] at hrun
    exact generate_loop_point_nodup_2d rng hrng n fuel _ curr0 0 0 0 false i st' i'
      hrun (init_point_inv_2d lt n) (fun h => Bool.noConfusion h)
  · intro lt n curr0 fuel rng i st' i' hrng hrun
    rw [aggregate_3d_generate] at hrun
    exact generate_loop_point_nodup_3d rng hrng n fuel _ curr0 0 0 0 false i st' i'
      hrun (init_point_inv_3d lt n) (fun h => Bool.noConfusion h)

/-- Witness: the concrete 2D and 3D POINT stickiness-1 runs satisfy the
draw bound and their final stuck sequences are duplicate-free. -/
theorem stuck_positions_distinct_witness :
    ((∀ k, rng_c2_point k ≤ 1) ∧ c2w_pair.1._aggregate.Nodup) ∧
    ((∀ k, rng_c2_point3 k ≤ 1) ∧ c2w3_pair.1._aggregate.Nodup) := by
  have hr2 : ∀ k, rng_c2_point k ≤ 1 := by
    intro k
    unfold rng_c2_point
    split_ifs <;> norm_num
  have hr3 : ∀ k, rng_c2_point3 k ≤ 1 := by
    intro k
    unfold rng_c2_point3
    split_ifs <;> norm_num
  refine ⟨⟨hr2, ?_⟩, ⟨hr3, ?_⟩⟩
  · exact stuck_positions_distinct.1 SQUARE 1 ⟨7, 7⟩ 20 rng_c2_point 0
      c2w_pair.1 c2w_pair.2 hr2 (Option.some_get _).symm
  · exact stuck_positions_distinct.2 SQUARE 1 ⟨7, 7, 7⟩ 20 rng_c2_point3 0
      c2w3_pair.1 c2w3_pair.2 hr3 (Option.some_get _).symm

-- C9: allocation failures and the generate status

lemma floor_two_pi : ⌊2 * Real.pi⌋₊ = 6 := by
  have hp1 := Real.pi_gt_d2
  have hp2 := Real.pi_lt_d2
  rw [Nat.floor_eq_iff (by positivity)]
  constructor
  · norm_num
    nlinarith
  · norm_num
    nlinarith

lemma c9_init_eval :
    aggregate_2d_init_attractor_A alloc_none fix2_circleA 1 0 =
      (0, ⟨{ aggregate_2d_init 1 SQUARE CIRCLE with
              _attractor := [⟨1, 0⟩, ⟨0, 0⟩, ⟨0, 0⟩, ⟨0, 0⟩, ⟨0, 0⟩, ⟨0, 0⟩, ⟨0, 0⟩, ⟨0, 0⟩],
              _aggregate := [⟨1, 0⟩, ⟨0, 0⟩, ⟨0, 0⟩, ⟨0, 0⟩, ⟨0, 0⟩, ⟨0, 0⟩, ⟨0, 0⟩, ⟨0, 0⟩] },
        8, 8, 8, 8⟩, 0) := by
  unfold aggregate_2d_init_attractor_A fix2_circleA
  dsimp only
  rw [show (aggregate_2d_init 1 SQUARE CIRCLE).att = CIRCLE from rfl]
  dsimp only
  rw [show (aggregate_2d_init 1 SQUARE CIRCLE).att_size = 1 from rfl]
  rw [Nat.cast_one, mul_one, floor_two_pi, circle_seed_one]
  with_unfolding_all decide

lemma c9_run_eval :
    aggregate_2d_generate_A alloc_none fix2_circleA 1 ⟨1, 1⟩ 20 rng_c9 0 0 =
      some (0, ⟨{ aggregate_2d_init 1 SQUARE CIRCLE with
          _attractor := [⟨1, 0⟩, ⟨0, 0⟩, ⟨0, 0⟩, ⟨0, 0⟩, ⟨0, 0⟩, ⟨0, 0⟩, ⟨0, 0⟩, ⟨0, 0⟩],
          _aggregate := [⟨1, 0⟩, ⟨0, 0⟩, ⟨0, 0⟩, ⟨0, 0⟩, ⟨0, 0⟩, ⟨0, 0⟩, ⟨0, 0⟩, ⟨0, 0⟩],
          _rsteps := [1], _bcolls := [0], max_x := 1, max_y := 1 },
        8, 8, 8, 8⟩, 3, 1) := by
  have h1 : aggregate_reserve_A alloc_none fix2_circleA 1 0 = (0, fix2_circleA, 0) := by
    with_unfolding_all decide
  unfold aggregate_2d_generate_A
  dsimp only
  rw [h1]
  dsimp only
  rw [if_neg (by decide)]
  rw [c9_init_eval]
  dsimp only
  rw [if_neg (by decide)]
  with_unfolding_all decide

/-- Counterexample to C9: a CIRCLE run under an allocation oracle that
fails every attempted reallocation.  The eight seed points fill the
_aggregate capacity of 8, so the stick push of prev = (1,1) needs a
reallocation (attempt counter 0 to 1), which fails; the append is silently
dropped (the final _aggregate is still exactly the seed), the statistics
pushes record the walker, and generate returns status 0 (success) rather
than a failure status. -/
theorem loop_growth_failure_unreported :
    (∀ k, alloc_none k = false) ∧
    aggregate_2d_generate_A alloc_none fix2_circleA 1 ⟨1, 1⟩ 20 rng_c9 0 0 =
      some (0, ⟨{ aggregate_2d_init 1 SQUARE CIRCLE with
          _attractor := [⟨1, 0⟩, ⟨0, 0⟩, ⟨0, 0⟩, ⟨0, 0⟩, ⟨0, 0⟩, ⟨0, 0⟩, ⟨0, 0⟩, ⟨0, 0⟩],
          _aggregate := [⟨1, 0⟩, ⟨0, 0⟩, ⟨0, 0⟩, ⟨0, 0⟩, ⟨0, 0⟩, ⟨0, 0⟩, ⟨0, 0⟩, ⟨0, 0⟩],
          _rsteps := [1], _bcolls := [0], max_x := 1, max_y := 1 },
        8, 8, 8, 8⟩, 3, 1) :=
  ⟨fun _ => rfl, c9_run_eval⟩

/-- C9 (amended): on the allocation model, a completed
aggregate_2d_generate_A run returns status -1 exactly when the up-front
aggregate_reserve or the init_attractor reservation fails; otherwise the
status is 0, regardless of any container-growth failures inside the walk
loop (whose push return codes the driver ignores). -/
theorem growth_failure_status :
    ∀ (alloc : ℕ → Bool) (st : aggregate_2d_A) (n : ℕ) (curr0 : int_pair)
      (fuel : ℕ) (rng : ℕ → ℚ) (i j : ℕ) (code : ℤ) (stf : aggregate_2d_A)
      (i' j' : ℕ),
      aggregate_2d_generate_A alloc st n curr0 fuel rng i j =
        some (code, stf, i', j') →
      (code = -1 ∨ code = 0) ∧
      (code = -1 ↔
        (aggregate_reserve_A alloc st n j).1 = -1 ∨
          (aggregate_2d_init_attractor_A alloc (aggregate_reserve_A alloc st n j).2.1 n
            (aggregate_reserve_A alloc st n j).2.2).1 = -1) := by
  intro alloc st n curr0 fuel rng i j code stf i' j' hrun
  unfold aggregate_2d_generate_A at hrun
  dsimp only at hrun
  by_cases h1 : (aggregate_reserve_A alloc st n j).1 = -1
  · rw [if_pos h1] at hrun
    simp only [Option.some.injEq, Prod.mk.injEq] at hrun
    obtain ⟨h, -⟩ := hrun
    subst h
    exact ⟨Or.inl rfl, by simp [h1]⟩
  · rw [if_neg h1] at hrun
    by_cases h2 : (aggregate_2d_init_attractor_A alloc
        (aggregate_reserve_A alloc st n j).2.1 n
        (aggregate_reserve_A alloc st n j).2.2).1 = -1
    · rw [if_pos h2] at hrun
      simp only [Option.some.injEq, Prod.mk.injEq] at hrun
      obtain ⟨h, -⟩ := hrun
      subst h
      exact ⟨Or.inl rfl, by simp [h2]⟩
    · rw [if_neg h2] at hrun
      cases hloop : aggregate_2d_generate_loop_A alloc rng n fuel
          (aggregate_2d_init_attractor_A alloc (aggregate_reserve_A alloc st n j).2.1 n
            (aggregate_reserve_A alloc st n j).2.2).2.1 curr0 0 0 0 false i
          (aggregate_2d_init_attractor_A alloc (aggregate_reserve_A alloc st n j).2.1 n
            (aggregate_reserve_A alloc st n j).2.2).2.2 with
      | none =>
        rw [hloop] at hrun
        simp at hrun
      | some x =>
        rw [hloop] at hrun
        simp only [Option.map_some', Option.some.injEq, Prod.mk.injEq] at hrun
        obtain ⟨h, -⟩ := hrun
        subst h
        refine ⟨Or.inr rfl, ?_⟩
        simp [h1, h2]

/-- Witness: a POINT run with n = 9 under the always-failing oracle, whose
up-front _rsteps reservation of 9 > 8 fails, so generate returns -1. -/
theorem growth_failure_status_witness :
    ((-1 : ℤ) = -1 ∨ ((-1 : ℤ) = 0)) ∧
    ((-1 : ℤ) = -1 ↔
      (aggregate_reserve_A alloc_none fix2_pointA 9 0).1 = -1 ∨
        (aggregate_2d_init_attractor_A alloc_none
            (aggregate_reserve_A alloc_none fix2_pointA 9 0).2.1 9
            (aggregate_reserve_A alloc_none fix2_pointA 9 0).2.2).1 = -1) :=
  growth_failure_status alloc_none fix2_pointA 9 ⟨7, 7⟩ 20 (fun _ => 0) 0 0 (-1)
    fix2_pointA 0 1 (by with_unfolding_all decide)
